import Mathlib

/-!
# Telegram private chatbot worker: a shallow embedding of `src/worker.js`

The worker relays messages between private users and per-user forum topics of
a staff supergroup.  All durable state lives in a key-value store
(`env.TOPIC_MAP`); the outside world is the Telegram gateway (`tgCall`), the
clock (`Date.now()`) and the entropy source (`crypto.getRandomValues`).

Modelling conventions

* JavaScript numbers that occur here (ids, counters, indices, timestamps) are
  integers; they are modelled by `Nat`/`Int` and `NaN` by `none`.
* JavaScript strings are Lean strings, handled through their character lists.
  A string that the worker cuts with `substring`, or builds from such a cut,
  is kept as the list of its UTF-16 code units (`Utf16`): `substring` counts
  code units and may leave an unpaired surrogate, which no Lean string holds.
* A store key is a template string such as `retry:<userId>`; the embedding keeps
  its two components apart in the type `Key` (`Key.render` gives the string).
* A stored value is either a plain string or the `JSON.stringify` image of one
  of the three record shapes the worker persists; `Val` keeps the record.
* `async` functions become functions of the monad `M`: explicit passing of a
  `World` together with an outcome that is a value or a thrown exception.
* `Logger.*` and `console.*` calls have no effect on the modelled state and
  are left out.
* The clock stands still while one handler runs; entries written with
  `expirationTtl` carry their expiry instant and are invisible from then on.
* The gateway is a function from the number of calls made so far to the reply
  of the next call; every call issued is appended to `World.calls`.
* `World.relays` is a history variable: it records the entries into
  `forwardToTopic` and is read by no handler.
* `TOPIC_MAP.list` yields the names of the live keys in lexicographic order;
  `getAllKeys` is the concatenation of its pages.
* A detached `delaySend` is run on the world of the instant at which its timer
  fires (`World.scheduled` records the flushes handed to `ctx.waitUntil`).
* The tasks that `Promise.allSettled` starts together run one after the other,
  in the order of the array.
-/

namespace Worker

/-! ## Configuration constants (`CONFIG`) -/

namespace CONFIG
def VERIFY_ID_LENGTH : Nat := 12
def VERIFY_EXPIRE_SECONDS : Nat := 300
def VERIFIED_EXPIRE_SECONDS : Nat := 2592000
def MEDIA_GROUP_EXPIRE_SECONDS : Nat := 60
def MEDIA_GROUP_DELAY_MS : Nat := 3000
def RATE_LIMIT_MESSAGE : Nat := 45
def RATE_LIMIT_VERIFY : Nat := 3
def RATE_LIMIT_WINDOW : Nat := 60
def BUTTON_COLUMNS : Nat := 2
def MAX_TITLE_LENGTH : Nat := 128
def MAX_NAME_LENGTH : Nat := 30
def API_TIMEOUT_MS : Nat := 10000
def CLEANUP_BATCH_SIZE : Nat := 10
def MAX_CLEANUP_DISPLAY : Nat := 20
def MAX_RETRY_ATTEMPTS : Nat := 3
def THREAD_HEALTH_TTL_MS : Nat := 60000
end CONFIG

/-! ## JavaScript string and number primitives -/

/-- JavaScript white space and line terminators, by code: the class `\s` of
regular expressions and the characters removed by `trim`. -/
def isSpaceUnit (n : Nat) : Bool :=
  n == 0x09 || n == 0x0A || n == 0x0B || n == 0x0C || n == 0x0D || n == 0x20 ||
  n == 0xA0 || n == 0x1680 || (0x2000 ≤ n && n ≤ 0x200A) || n == 0x2028 ||
  n == 0x2029 || n == 0x202F || n == 0x205F || n == 0x3000 || n == 0xFEFF

/-- JavaScript white space and line terminators, as skipped by `trim`,
`parseInt` and matched by the regular expression class `\s`. -/
def isJsSpace (c : Char) : Bool := isSpaceUnit c.toNat

/-- Value of a character as a digit of the given radix (10 or 16), if it is one. -/
def digitVal (radix : Nat) (c : Char) : Option Nat :=
  let n := c.toNat
  let v : Option Nat :=
    if 48 ≤ n ∧ n ≤ 57 then some (n - 48)
    else if 97 ≤ n ∧ n ≤ 122 then some (n - 87)
    else if 65 ≤ n ∧ n ≤ 90 then some (n - 55)
    else none
  match v with
  | some d => if d < radix then some d else none
  | none => none

/-- Longest prefix of digits of the given radix, as digit values. -/
def takeDigits (radix : Nat) : List Char → List Nat
  | [] => []
  | c :: cs =>
    match digitVal radix c with
    | some d => d :: takeDigits radix cs
    | none => []

/-- Value of a big-endian digit list. -/
def digitsValue (radix : Nat) (ds : List Nat) : Nat :=
  ds.foldl (fun acc d => acc * radix + d) 0

/-- Optional sign in front of the digits of `parseInt`. -/
def stripSign : List Char → Bool × List Char
  | [] => (false, [])
  | c :: cs =>
    if c = '-' then (true, cs) else if c = '+' then (false, cs) else (false, c :: cs)

/-- Hexadecimal prefix `0x`/`0X` recognised by `parseInt` without a radix. -/
def stripRadix : List Char → Nat × List Char
  | [] => (10, [])
  | [c] => (10, [c])
  | c :: d :: cs =>
    if c = '0' ∧ (d = 'x' ∨ d = 'X') then (16, cs) else (10, c :: d :: cs)

/-- `parseInt(s)` of JavaScript (no radix argument); `none` is `NaN`. -/
def parseInt (s : String) : Option Int :=
  let (neg, cs) := stripSign (s.data.dropWhile isJsSpace)
  let (radix, cs) := stripRadix cs
  let ds := takeDigits radix cs
  if ds.isEmpty then none
  else
    let v : Int := (digitsValue radix ds : Nat)
    some (if neg then -v else v)

/-- `String(n)` for a JavaScript number that is an integer or `NaN`. -/
def jsString : Option Int → String
  | none => "NaN"
  | some i => toString i

/-- `String.prototype.trim`. -/
def jsTrim (s : String) : String :=
  String.mk (((s.data.dropWhile isJsSpace).reverse.dropWhile isJsSpace).reverse)

/-- `String.prototype.startsWith`. -/
def jsStartsWith (s p : String) : Bool := p.data.isPrefixOf s.data

/-- `String.prototype.includes`. -/
def jsIncludes (s p : String) : Bool := s.data.tails.any (fun t => p.data.isPrefixOf t)

/-- `String.prototype.toLowerCase`, on the ASCII letters (gateway error
descriptions are ASCII). -/
def jsToLowerCase (s : String) : String := String.mk (s.data.map Char.toLower)

/-- A JavaScript string as the list of its UTF-16 code units. -/
structure Utf16 where
  units : List Nat
deriving DecidableEq, Repr

/-- The UTF-16 code units of a character: one unit, or a surrogate pair for a
character outside the basic plane. -/
def charUnits (c : Char) : List Nat :=
  let n := c.toNat
  if n < 0x10000 then [n]
  else [0xD800 + (n - 0x10000) / 0x400, 0xDC00 + (n - 0x10000) % 0x400]

/-- The UTF-16 code units of a string. -/
def jsUnits (s : String) : Utf16 := ⟨(s.data.map charUnits).flatten⟩

instance : Coe String Utf16 := ⟨jsUnits⟩

/-- The concatenation `a + b` of two strings. -/
instance : Append Utf16 := ⟨fun a b => ⟨a.units ++ b.units⟩⟩

/-- `String.prototype.substring(0, n)`: the first `n` code units. -/
def jsSubstring0 (s : Utf16) (n : Nat) : Utf16 := ⟨s.units.take n⟩

/-- `String.prototype.trim`, on code units. -/
def trimUnits (s : Utf16) : Utf16 :=
  ⟨((s.units.dropWhile isSpaceUnit).reverse.dropWhile isSpaceUnit).reverse⟩

/-- Splitting of a character list at every occurrence of a separator. -/
def splitChars (sep : Char) : List Char → List (List Char)
  | [] => [[]]
  | c :: cs =>
    match splitChars sep cs with
    | [] => [[]]
    | p :: ps => if c = sep then [] :: p :: ps else (c :: p) :: ps

/-- `s.split(":")`. -/
def jsSplitColon (s : String) : List String := (splitChars ':' s.data).map String.mk

/-! ## Data model -/

/-- The sender of a message or callback (`msg.from`, `query.from`). -/
structure Sender where
  id : Nat
  first_name : Option String
  last_name : Option String
  username : Option String
deriving DecidableEq, Repr

/-- A chat addressed by a gateway call: the staff supergroup
(`env.SUPERGROUP_ID`) or the private chat of a user. -/
inductive ChatId where
  | supergroup
  | user (id : Nat)
deriving DecidableEq, Repr

/-- Conversation record stored under `user:<userId>`.  A field that is absent
from the JSON object is `none` (`closed` absent is falsy, hence `false`). -/
structure TopicRec where
  thread_id : Option Nat
  title : Option Utf16
  closed : Bool
deriving DecidableEq, Repr

/-- Challenge state stored under `chal:<verifyId>`. -/
structure ChalState where
  answerIndex : Int
  options : List String
  pending : Option Nat
  userId : Option Nat
deriving DecidableEq, Repr

/-- One buffered attachment of a media group; an absent or empty `type`/`id`
is the empty string (both are falsy). -/
structure MediaItem where
  type : String
  id : String
  cap : String
  msg_id : Nat
deriving DecidableEq, Repr

/-- Media group buffer stored under `mg:<direction>:<groupId>`. -/
structure MediaBuf where
  direction : String
  targetChat : ChatId
  threadId : Option Nat
  items : List MediaItem
  last_ts : Nat
deriving DecidableEq, Repr

/-- Keys of `env.TOPIC_MAP`, one constructor per template string. -/
inductive Key where
  | user (userId : Nat)
  | thread (threadId : Option Nat)
  | retry (userId : Nat)
  | verified (userId : Nat)
  | banned (userId : Nat)
  | chal (verifyId : String)
  | user_challenge (userId : Nat)
  | forwarded (userId : Nat) (messageId : Nat)
  | ratelimit (action : String) (userId : Nat)
  | mg (direction : String) (groupId : String)
deriving DecidableEq, Repr

/-- The key as the string the worker builds. -/
def Key.render : Key → String
  | .user u => "user:" ++ toString u
  | .thread (some t) => "thread:" ++ toString t
  | .thread none => "thread:undefined"
  | .retry u => "retry:" ++ toString u
  | .verified u => "verified:" ++ toString u
  | .banned u => "banned:" ++ toString u
  | .chal v => "chal:" ++ v
  | .user_challenge u => "user_challenge:" ++ toString u
  | .forwarded u m => "forwarded:" ++ toString u ++ ":" ++ toString m
  | .ratelimit a u => "ratelimit:" ++ a ++ ":" ++ toString u
  | .mg d g => "mg:" ++ d ++ ":" ++ g

/-- Values of `env.TOPIC_MAP`: a plain string (counter, marker, id; never the
text of a JSON object) or the JSON text of one of the persisted records. -/
inductive Val where
  | text (s : String)
  | topicRec (r : TopicRec)
  | chalState (c : ChalState)
  | mediaBuf (b : MediaBuf)
deriving DecidableEq, Repr

/-- Truthiness of a value read from the store: only the empty string is falsy. -/
def Val.truthy : Val → Bool
  | .text s => !s.data.isEmpty
  | _ => true

/-- Truthiness of the result of `TOPIC_MAP.get` (`null` is falsy). -/
def truthy : Option Val → Bool
  | none => false
  | some v => v.truthy

/-- A stored entry: the value and the instant (ms) at which it expires, if it
was written with `expirationTtl`. -/
structure Entry where
  val : Val
  expiresAt : Option Nat
deriving DecidableEq, Repr

/-- The key-value store. -/
abbrev Store := List (Key × Entry)

/-- Raw lookup of a key. -/
def Store.find (s : Store) (k : Key) : Option Entry :=
  match s with
  | [] => none
  | (k', e) :: rest => if k' = k then some e else Store.find rest k

/-- Removal of a key. -/
def Store.erase (s : Store) (k : Key) : Store :=
  match s with
  | [] => []
  | (k', e) :: rest => if k' = k then Store.erase rest k else (k', e) :: Store.erase rest k

/-- Insertion or replacement of a key. -/
def Store.insert (s : Store) (k : Key) (e : Entry) : Store := (k, e) :: Store.erase s k

/-- Whether an entry is still alive at the instant `now`. -/
def Entry.live (e : Entry) (now : Nat) : Bool :=
  match e.expiresAt with
  | none => true
  | some t => decide (now < t)

/-- Lookup as seen by the worker at `now`: expired entries are gone. -/
def Store.get (s : Store) (now : Nat) (k : Key) : Option Val :=
  match Store.find s k with
  | some e => if e.live now then some e.val else none
  | none => none

/-! ## Gateway -/

/-- The `result` object of a gateway response, reduced to the fields read. -/
structure TgMessage where
  message_thread_id : Option Nat
  message_id : Option Nat
deriving DecidableEq, Repr

/-- A gateway response as returned by `tgCall`. -/
structure TgResult where
  ok : Bool
  result : Option TgMessage
  description : Option String
deriving DecidableEq, Repr

/-- What a gateway call does: return a response, or fail at the transport
level with an error other than the abort of the timeout (which `tgCall`
rethrows). -/
inductive Reply where
  | resp (r : TgResult)
  | netError (e : String)
deriving DecidableEq, Repr

/-- The response `tgCall` builds when its timeout aborts the request. -/
def timeoutResult : TgResult := { ok := false, result := none, description := some "Request timeout" }

/-- One entry of the `media` array of `sendMediaGroup`. -/
structure MediaEntry where
  type : String
  media : String
  caption : Utf16
deriving DecidableEq, Repr

/-- One inline keyboard button. -/
structure Button where
  text : String
  callback_data : String
deriving DecidableEq, Repr

/-- Outbound gateway calls (method and body). -/
inductive Call where
  | sendMessage (chat_id : ChatId) (message_thread_id : Option Nat) (text : Utf16)
      (reply_to : Option Nat) (keyboard : List (List Button))
  | forwardMessage (chat_id from_chat_id : ChatId) (message_id : Nat)
      (message_thread_id : Option Nat)
  | copyMessage (chat_id from_chat_id : ChatId) (message_id : Nat)
      (message_thread_id : Option Nat)
  | deleteMessage (chat_id : ChatId) (message_id : Option Nat)
  | createForumTopic (chat_id : ChatId) (name : Utf16)
  | closeForumTopic (chat_id : ChatId) (message_thread_id : Option Nat)
  | reopenForumTopic (chat_id : ChatId) (message_thread_id : Option Nat)
  | answerCallbackQuery (callback_query_id : String) (text : String) (show_alert : Bool)
  | editMessageText (chat_id : ChatId) (message_id : Option Nat) (text : String)
  | sendMediaGroup (chat_id : ChatId) (message_thread_id : Option Nat)
      (media : List MediaEntry)
deriving DecidableEq, Repr

/-! ## World and the monad of handlers -/

/-- Everything a handler can read or change. -/
structure World where
  /-- Contents of `env.TOPIC_MAP`. -/
  store : Store
  /-- Value of `Date.now()` (ms). -/
  now : Nat
  /-- The process-local `threadHealthCache`: topic id and probe instant. -/
  cache : List (Nat × Nat)
  /-- Reply of the gateway to the n-th call made so far. -/
  gateway : Nat → Reply
  /-- Gateway calls made so far, oldest first. -/
  calls : List Call
  /-- Values delivered by `crypto.getRandomValues`, in order. -/
  entropy : Nat → Nat
  /-- Number of random values consumed. -/
  drawn : Nat
  /-- Flushes handed to `ctx.waitUntil(delaySend(env, key, ts))`. -/
  scheduled : List (Key × Nat)
  /-- History variable: every entry into `forwardToTopic`, as the pair of the
  user id and the message id relayed. -/
  relays : List (Nat × Nat)

/-- Outcome of running an `async` function: a value or a thrown exception. -/
inductive Outcome (α : Type) where
  | ok (a : α)
  | thrown (e : String)
deriving DecidableEq, Repr

/-- Handlers: state passing over `World`, with exceptions. -/
def M (α : Type) : Type := World → Outcome α × World

/-- Sequencing: an exception skips the rest. -/
def M.bind {α β : Type} (m : M α) (f : α → M β) : M β := fun w =>
  match m w with
  | (.ok a, w1) => f a w1
  | (.thrown e, w1) => (.thrown e, w1)

instance : Monad M where
  pure a := fun w => (.ok a, w)
  bind := M.bind

/-- The statement `throw new Error(e)`. -/
def raise {α : Type} (e : String) : M α := fun w => (.thrown e, w)

/-- The statement `try { m } catch (e) { h e }`. -/
def tryCatch {α : Type} (m : M α) (h : String → M α) : M α := fun w =>
  match m w with
  | (.ok a, w1) => (.ok a, w1)
  | (.thrown e, w1) => h e w1

/-- The call `env.TOPIC_MAP.get(key)`. -/
def kvGet (k : Key) : M (Option Val) := fun w => (.ok (w.store.get w.now k), w)

/-- The call `env.TOPIC_MAP.put(key, value)` or, with `ttl = some s`,
`env.TOPIC_MAP.put(key, value, { expirationTtl: s })`. -/
def kvPut (k : Key) (v : Val) (ttl : Option Nat) : M Unit := fun w =>
  (.ok (), { w with store := w.store.insert k ⟨v, ttl.map (fun s => w.now + s * 1000)⟩ })

/-- The call `env.TOPIC_MAP.delete(key)`. -/
def kvDelete (k : Key) : M Unit := fun w =>
  (.ok (), { w with store := w.store.erase k })

/-- The expression `Date.now()`. -/
def dateNow : M Nat := fun w => (.ok w.now, w)

/-- The function `tgCall(env, method, body)`: the call is issued; the gateway
answers with a response (a timeout being the response `timeoutResult`) or the
transport error is rethrown. -/
def tgCall (c : Call) : M TgResult := fun w =>
  let w1 := { w with calls := w.calls ++ [c] }
  match w.gateway w.calls.length with
  | .resp r => (.ok r, w1)
  | .netError e => (.thrown e, w1)

/-- One element of a typed array filled by `crypto.getRandomValues`, reduced
to the width of the element type. -/
def randomValue (width : Nat) : M Nat := fun w =>
  (.ok (w.entropy w.drawn % 2 ^ width), { w with drawn := w.drawn + 1 })

/-! ## Helper functions of the worker -/

/-- The function `secureRandomInt(min, max)`. -/
def secureRandomInt (min max : Nat) : M Nat := do
  let range := max - min
  let word ← randomValue 32
  pure (min + word % range)

/-- The value `parseInt(countStr || "0")` for a value read from the store. -/
def parseIntOr0 (v : Option Val) : Option Int :=
  match v with
  | none => parseInt "0"
  | some (.text s) => if s.data.isEmpty then parseInt "0" else parseInt s
  | some _ => none

/-- JavaScript `a >= b` for a possibly-`NaN` left operand. -/
def jsGe (a : Option Int) (b : Int) : Bool :=
  match a with
  | some x => decide (b ≤ x)
  | none => false

/-- JavaScript `a > b` for a possibly-`NaN` left operand. -/
def jsGt (a : Option Int) (b : Int) : Bool :=
  match a with
  | some x => decide (b < x)
  | none => false

/-- JavaScript `a + b` for a possibly-`NaN` left operand. -/
def jsAdd (a : Option Int) (b : Int) : Option Int := a.map (fun x => x + b)

/-- Result of `checkRateLimit`. -/
structure RateResult where
  allowed : Bool
  remaining : Option Int
deriving DecidableEq, Repr

/-- The function `checkRateLimit(userId, env, action, limit, window)`. -/
def checkRateLimit (userId : Nat) (action : String) (limit window : Nat) : M RateResult := do
  let key := Key.ratelimit action userId
  let countStr ← kvGet key
  let count := parseIntOr0 countStr
  if jsGe count limit then
    pure { allowed := false, remaining := some 0 }
  else do
    kvPut key (.text (jsString (jsAdd count 1))) (some window)
    pure { allowed := true, remaining := count.map (fun c => (limit : Int) - c - 1) }

/-! ## Messages -/

/-- The worker environment, reduced to the binding read by the modelled code. -/
structure Env where
  SUPERGROUP_ID : String
deriving DecidableEq, Repr

/-- An incoming message, reduced to the fields the worker reads.  `photo` is
the list of the file ids of the photo sizes; `video`, `document`, `audio` and
`animation` hold the file id of the attachment when it is present. -/
structure Msg where
  message_id : Nat
  chat : ChatId
  sender : Sender
  text : Option String
  caption : Option String
  media_group_id : Option String
  message_thread_id : Option Nat
  photo : List String
  video : Option String
  document : Option String
  audio : Option String
  animation : Option String
deriving DecidableEq, Repr

/-- A callback query; `message` is `query.message.message_id` when
`query.message` is present. -/
structure CallbackQuery where
  id : String
  data : Option String
  sender : Sender
  message : Option (Option Nat)
deriving DecidableEq, Repr

/-- Truthiness of an optional number (`undefined` and `0` are falsy). -/
def truthyNum : Option Nat → Bool
  | some n => decide (n ≠ 0)
  | none => false

/-- Truthiness of an optional string (`undefined` and `""` are falsy). -/
def truthyStr : Option String → Bool
  | some s => !s.data.isEmpty
  | none => false

/-- The expression `x || ""` for an optional string. -/
def orEmpty (s : Option String) : String := s.getD ""

/-- The expression `x || d` for an optional string kept by its code units. -/
def orText (s : Option Utf16) (d : Utf16) : Utf16 :=
  match s with
  | some t => if t.units.isEmpty then d else t
  | none => d

/-! ## Topic titles -/

/-- The class `\w` of regular expressions. -/
def isWordChar (c : Char) : Bool :=
  let n := c.toNat
  (48 ≤ n && n ≤ 57) || (65 ≤ n && n ≤ 90) || (97 ≤ n && n ≤ 122) || n == 95

/-- The class `[\u0000-\u001F\u007F-\u009F]`, by code unit. -/
def isControlUnit (n : Nat) : Bool :=
  n ≤ 0x1F || (0x7F ≤ n && n ≤ 0x9F)

/-- The replacement `.replace(/\s+/g, ' ')` on code units; the flag tells that
the previous unit belonged to the current run of white space. -/
def collapseSpaces : Bool → List Nat → List Nat
  | _, [] => []
  | inRun, u :: us =>
    if isSpaceUnit u then
      if inRun then collapseSpaces true us else 0x20 :: collapseSpaces true us
    else u :: collapseSpaces false us

/-- The function `buildTopicTitle(from)`. -/
def buildTopicTitle (sender : Sender) : Utf16 :=
  let firstName := jsSubstring0 (jsTrim (orEmpty sender.first_name)) CONFIG.MAX_NAME_LENGTH
  let lastName := jsSubstring0 (jsTrim (orEmpty sender.last_name)) CONFIG.MAX_NAME_LENGTH
  let username : Utf16 :=
    if truthyStr sender.username then
      jsSubstring0 (String.mk ((orEmpty sender.username).data.filter isWordChar)) 20
    else ""
  let cleanName :=
    trimUnits ⟨collapseSpaces false
      ((firstName ++ " " ++ lastName).units.filter (fun u => !isControlUnit u))⟩
  let name : Utf16 := if cleanName.units.isEmpty then "User" else cleanName
  let usernameStr : Utf16 := if username.units.isEmpty then "" else " @" ++ username
  jsSubstring0 (name ++ usernameStr) CONFIG.MAX_TITLE_LENGTH

/-! ## Store access helpers -/

/-- The call `safeGetJSON(env, key, null)` read as a conversation record: a
missing key, a value that is not JSON or not an object give `null`; an object
of another shape has none of the fields of a conversation record. -/
def safeGetRec (k : Key) : M (Option TopicRec) := do
  let data ← kvGet k
  match data with
  | some (.topicRec r) => pure (some r)
  | some (.chalState _) => pure (some { thread_id := none, title := none, closed := false })
  | some (.mediaBuf _) => pure (some { thread_id := none, title := none, closed := false })
  | some (.text _) => pure none
  | none => pure none

/-- Lookup in `threadHealthCache`. -/
def cacheFind (c : List (Nat × Nat)) (k : Nat) : Option Nat :=
  match c with
  | [] => none
  | (k', ts) :: rest => if k' = k then some ts else cacheFind rest k

/-- The expression `threadHealthCache.get(key)` (the stored `ts`). -/
def cacheGet (k : Option Nat) : M (Option Nat) := fun w =>
  match k with
  | some t => (.ok (cacheFind w.cache t), w)
  | none => (.ok none, w)

/-- The call `threadHealthCache.set(key, { ts, ok: true })`. -/
def cacheSet (k : Option Nat) (ts : Nat) : M Unit := fun w =>
  match k with
  | some t => (.ok (), { w with cache := (t, ts) :: w.cache.filter (fun p => decide (p.1 ≠ t)) })
  | none => (.ok (), w)

/-- The call `threadHealthCache.delete(key)`. -/
def cacheDelete (k : Option Nat) : M Unit := fun w =>
  match k with
  | some t => (.ok (), { w with cache := w.cache.filter (fun p => decide (p.1 ≠ t)) })
  | none => (.ok (), w)

/-- The call `ctx.waitUntil(delaySend(env, key, ts))`: the flush is handed to
the runtime and runs detached. -/
def waitUntilDelaySend (k : Key) (ts : Nat) : M Unit := fun w =>
  (.ok (), { w with scheduled := w.scheduled ++ [(k, ts)] })

/-- History variable update at the entry of `forwardToTopic`. -/
def noteRelay (userId messageId : Nat) : M Unit := fun w =>
  (.ok (), { w with relays := w.relays ++ [(userId, messageId)] })

/-! ## Topic creation -/

/-- The text of an optional string inside a template (`undefined` when absent). -/
def descText (d : Option String) : String := d.getD "undefined"

/-- The function `createTopic(from, key, env, userId)`. -/
def createTopic (sender : Sender) (key : Key) (env : Env) (userId : Nat) : M TopicRec := do
  let title := buildTopicTitle sender
  if !jsStartsWith env.SUPERGROUP_ID "-100" then
    raise "SUPERGROUP_ID必须以-100开头"
  else do
    let res ← tgCall (.createForumTopic .supergroup title)
    if !res.ok then
      raise ("创建话题失败: " ++ descText res.description)
    else
      match res.result with
      | none => raise "TypeError: res.result is undefined"
      | some m => do
        let r : TopicRec := { thread_id := m.message_thread_id, title := some title, closed := false }
        kvPut key (.topicRec r) none
        if userId ≠ 0 then
          kvPut (.thread r.thread_id) (.text (jsString (some (userId : Int)))) none
        else pure ()
        pure r

/-! ## Media groups -/

/-- The function `extractMedia(msg)`. -/
def extractMedia (msg : Msg) : Option (String × String × String) :=
  match msg.photo.getLast? with
  | some fileId => some ("photo", fileId, orEmpty msg.caption)
  | none =>
    match msg.video with
    | some fileId => some ("video", fileId, orEmpty msg.caption)
    | none =>
      match msg.document with
      | some fileId => some ("document", fileId, orEmpty msg.caption)
      | none =>
        match msg.audio with
        | some fileId => some ("audio", fileId, orEmpty msg.caption)
        | none =>
          match msg.animation with
          | some fileId => some ("animation", fileId, orEmpty msg.caption)
          | none => none

/-- The function `handleMediaGroup(msg, env, ctx, { direction, targetChat, threadId })`. -/
def handleMediaGroup (msg : Msg) (direction : String) (targetChat : ChatId)
    (threadId : Option Nat) : M Unit := do
  let key := Key.mg direction (descText msg.media_group_id)
  match extractMedia msg with
  | none =>
    let _ ← tgCall (.copyMessage targetChat msg.chat msg.message_id threadId)
    pure ()
  | some (type, id, cap) => do
    let data ← kvGet key
    let now ← dateNow
    let item : MediaItem := { type := type, id := id, cap := cap, msg_id := msg.message_id }
    let fresh : MediaBuf :=
      { direction := direction, targetChat := targetChat, threadId := threadId, items := [],
        last_ts := now }
    let push (b : MediaBuf) : M Unit := do
      let b1 : MediaBuf := { b with items := b.items ++ [item], last_ts := now }
      kvPut key (.mediaBuf b1) (some CONFIG.MEDIA_GROUP_EXPIRE_SECONDS)
      waitUntilDelaySend key b1.last_ts
    match data with
    | some (.mediaBuf b) => push b
    | some (.text _) => push fresh
    | none => push fresh
    | some _ => raise "TypeError: rec.items is undefined"

/-- One element of the `media` array built by `delaySend`: the callback of
`rec.items.map((it, i) => ...)`, with `null` for an item without type or id. -/
def mediaEntry (it : MediaItem) (i : Nat) : Option MediaEntry :=
  if it.type.data.isEmpty || it.id.data.isEmpty then none
  else
    some { type := it.type, media := it.id,
           caption := if i = 0 then jsSubstring0 it.cap 1024 else "" }

/-- The `media` array of `delaySend`, `rec.items.map(...).filter(Boolean)`; the
first item of `items` has index `start`. -/
def buildMediaFrom (start : Nat) : List MediaItem → List MediaEntry
  | [] => []
  | it :: rest =>
    match mediaEntry it start with
    | some e => e :: buildMediaFrom (start + 1) rest
    | none => buildMediaFrom (start + 1) rest

/-- The `media` array of `delaySend` for the buffered items. -/
def buildMedia (items : List MediaItem) : List MediaEntry := buildMediaFrom 0 items

/-- The function `delaySend(env, key, ts)`, from the instant at which its timer
of `CONFIG.MEDIA_GROUP_DELAY_MS` fires: it is run on the world of that instant. -/
def delaySend (key : Key) (ts : Nat) : M Unit := do
  let data ← kvGet key
  match data with
  | some (.mediaBuf b) =>
    if b.last_ts = ts then
      if b.items.isEmpty then kvDelete key
      else do
        let media := buildMedia b.items
        if media.length > 0 then
          tryCatch
            (do
              let _ ← tgCall (.sendMediaGroup b.targetChat b.threadId media)
              pure ())
            (fun _ => pure ())
        kvDelete key
    else pure ()
  | _ => pure ()

/-! ## Relay of a private message to the topic of its user -/

/-- The test `desc.includes(...)` chain of the topic probe in `forwardToTopic`. -/
def probeDeletionText (desc : String) : Bool :=
  jsIncludes desc "thread not found" ||
  jsIncludes desc "topic not found" ||
  jsIncludes desc "message thread not found" ||
  jsIncludes desc "topic deleted" ||
  jsIncludes desc "thread deleted" ||
  jsIncludes desc "forum topic not found" ||
  jsIncludes desc "topic closed permanently"

/-- The test `desc.includes(...)` chain after a failed primary send. -/
def sendDeletionText (desc : String) : Bool :=
  jsIncludes desc "thread not found" ||
  jsIncludes desc "topic not found" ||
  jsIncludes desc "message thread not found"

/-- The test `!actual || Number(actual) !== Number(expected)` on topic ids. -/
def threadMismatch (actual expected : Option Nat) : Bool :=
  !truthyNum actual || decide (actual ≠ expected)

/-- The health check of `forwardToTopic` (the block guarded by
`if (rec && rec.thread_id)`, a test that holds whenever the block is reached),
returning the record to use for the send. -/
def probeTopic (msg : Msg) (userId : Nat) (key : Key) (env : Env) (retryKey : Key)
    (retryCount : Option Int) (r : TopicRec) : M TopicRec := do
  let cacheKey := r.thread_id
  let now ← dateNow
  let cached ← cacheGet cacheKey
  let withinTTL :=
    match cached with
    | some ts => decide ((now : Int) - (ts : Int) < (CONFIG.THREAD_HEALTH_TTL_MS : Int))
    | none => false
  if withinTTL then pure r
  else do
    let testRes ← tgCall (.sendMessage .supergroup r.thread_id "\u200B" none [])
    let actualThreadId := testRes.result.bind (fun m => m.message_thread_id)
    let expectedThreadId := r.thread_id
    let redirectedOrMissing := !testRes.ok || threadMismatch actualThreadId expectedThreadId
    if redirectedOrMissing then
      let desc := jsToLowerCase (orEmpty testRes.description)
      let isTopicDeleted := redirectedOrMissing || probeDeletionText desc
      if isTopicDeleted then do
        kvPut retryKey (.text (jsString (jsAdd retryCount 1))) (some 60)
        kvDelete (.thread r.thread_id)
        cacheDelete cacheKey
        let r1 ← createTopic msg.sender key env userId
        if !truthyNum r1.thread_id then raise "重建话题失败"
        else pure r1
      else pure r
    else do
      kvDelete retryKey
      cacheSet cacheKey now
      tryCatch
        (do let _ ← tgCall (.deleteMessage .supergroup (testRes.result.bind (fun m => m.message_id)))
            pure ())
        (fun _ => pure ())
      pure r

/-- The part of `forwardToTopic` after the health check: the primary send, the
redirect check after it and the fallbacks. -/
def sendToTopic (msg : Msg) (userId : Nat) (key : Key) (env : Env) (r : TopicRec) : M Unit := do
  if truthyStr msg.media_group_id then
    handleMediaGroup msg "p2t" .supergroup r.thread_id
  else do
    let res ← tgCall (.forwardMessage .supergroup (.user userId) msg.message_id r.thread_id)
    let resThreadId := res.result.bind (fun m => m.message_thread_id)
    if res.ok && threadMismatch resThreadId r.thread_id then do
      kvDelete (.thread r.thread_id)
      cacheDelete r.thread_id
      let newRec ← createTopic msg.sender key env userId
      if truthyNum (res.result.bind (fun m => m.message_id)) then
        tryCatch
          (do let _ ← tgCall (.deleteMessage .supergroup (res.result.bind (fun m => m.message_id)))
              pure ())
          (fun _ => pure ())
      else pure ()
      let _ ← tgCall (.copyMessage .supergroup (.user userId) msg.message_id newRec.thread_id)
      pure ()
    else if !res.ok then
      let desc := jsToLowerCase (orEmpty res.description)
      if sendDeletionText desc then do
        kvDelete (.thread r.thread_id)
        cacheDelete r.thread_id
        let newRec ← createTopic msg.sender key env userId
        let _ ← tgCall (.forwardMessage .supergroup (.user userId) msg.message_id newRec.thread_id)
        pure ()
      else if jsIncludes desc "chat not found" then
        raise ("群组ID错误: " ++ env.SUPERGROUP_ID)
      else if jsIncludes desc "not enough rights" then
        raise "机器人权限不足 (需 Manage Topics)"
      else do
        let _ ← tgCall (.copyMessage .supergroup (.user userId) msg.message_id r.thread_id)
        pure ()
    else pure ()

/-- The body of the function `forwardToTopic(msg, userId, key, env, ctx)`. -/
def forwardToTopicBody (msg : Msg) (userId : Nat) (key : Key) (env : Env) : M Unit := do
  let rec0 ← safeGetRec key
  if (match rec0 with | some r => r.closed | none => false) then do
    let _ ← tgCall (.sendMessage (.user userId) none "🚫 当前对话已被管理员关闭。" none [])
    pure ()
  else do
    let retryKey := Key.retry userId
    let retryCount := parseIntOr0 (← kvGet retryKey)
    if jsGt retryCount (CONFIG.MAX_RETRY_ATTEMPTS : Int) then do
      let _ ← tgCall (.sendMessage (.user userId) none "❌ 系统繁忙，请稍后再试。" none [])
      kvDelete retryKey
    else do
      let create : M TopicRec := do
        let r ← createTopic msg.sender key env userId
        if !truthyNum r.thread_id then raise "创建话题失败"
        else pure r
      let rec1 ←
        match rec0 with
        | some r => if truthyNum r.thread_id then pure r else create
        | none => create
      let mappedUser ← kvGet (.thread rec1.thread_id)
      if !truthy mappedUser then
        kvPut (.thread rec1.thread_id) (.text (jsString (some (userId : Int)))) none
      else pure ()
      let rec2 ← probeTopic msg userId key env retryKey retryCount rec1
      sendToTopic msg userId key env rec2

/-- The function `forwardToTopic(msg, userId, key, env, ctx)`: its body, with
the entry recorded in the history variable `relays`. -/
def forwardToTopic (msg : Msg) (userId : Nat) (key : Key) (env : Env) : M Unit := do
  noteRelay userId msg.message_id
  forwardToTopicBody msg userId key env

/-! ## Verification challenges -/

/-- One entry of `LOCAL_QUESTIONS`. -/
structure Question where
  question : String
  correct_answer : String
  incorrect_answers : List String
deriving DecidableEq, Repr

/-- The local question bank. -/
def LOCAL_QUESTIONS : List Question :=
  [ ⟨"冰融化后会变成什么？", "水", ["石头", "木头", "火"]⟩,
    ⟨"正常人有几只眼睛？", "2", ["1", "3", "4"]⟩,
    ⟨"以下哪个属于水果？", "香蕉", ["白菜", "猪肉", "大米"]⟩,
    ⟨"1 加 2 等于几？", "3", ["2", "4", "5"]⟩,
    ⟨"5 减 2 等于几？", "3", ["1", "2", "4"]⟩,
    ⟨"2 乘以 3 等于几？", "6", ["4", "5", "7"]⟩,
    ⟨"10 加 5 等于几？", "15", ["10", "12", "20"]⟩,
    ⟨"8 减 4 等于几？", "4", ["2", "3", "5"]⟩,
    ⟨"在天上飞的交通工具是什么？", "飞机", ["汽车", "轮船", "自行车"]⟩,
    ⟨"星期一的后面是星期几？", "星期二", ["星期日", "星期五", "星期三"]⟩,
    ⟨"鱼通常生活在哪里？", "水里", ["树上", "土里", "火里"]⟩,
    ⟨"我们用什么器官来听声音？", "耳朵", ["眼睛", "鼻子", "嘴巴"]⟩,
    ⟨"晴朗的天空通常是什么颜色的？", "蓝色", ["绿色", "红色", "紫色"]⟩,
    ⟨"太阳从哪个方向升起？", "东方", ["西方", "南方", "北方"]⟩,
    ⟨"小狗发出的叫声通常是？", "汪汪", ["喵喵", "咩咩", "呱呱"]⟩ ]

/-- Filling of a `Uint8Array` of the given length by `crypto.getRandomValues`. -/
def randomBytes : Nat → M (List Nat)
  | 0 => pure []
  | n + 1 => do
    let b ← randomValue 8
    let bs ← randomBytes n
    pure (b :: bs)

/-- The alphabet of `secureRandomId`. -/
def idChars : List Char := "abcdefghijklmnopqrstuvwxyz0123456789".data

/-- The function `secureRandomId(length)`. -/
def secureRandomId (length : Nat) : M String := do
  let bytes ← randomBytes length
  pure (String.mk (bytes.map (fun b => idChars.getD (b % idChars.length) 'a')))

/-- The destructuring swap `[array[i], array[j]] = [array[j], array[i]]`. -/
def swapAt {α : Type} (a : List α) (i j : Nat) : List α :=
  match a[i]?, a[j]? with
  | some x, some y => (a.set i y).set j x
  | _, _ => a

/-- The loop of `shuffleArray`, entered with `i + 1` iterations to go: the
loop variable runs from `i` down to `1`. -/
def shuffleLoop {α : Type} : Nat → List α → M (List α)
  | 0, a => pure a
  | i + 1, a => do
    let j ← secureRandomInt 0 (i + 1 + 1)
    shuffleLoop i (swapAt a (i + 1) j)

/-- The function `shuffleArray(arr)` (Fisher-Yates). -/
def shuffleArray {α : Type} (arr : List α) : M (List α) :=
  shuffleLoop (arr.length - 1) arr

/-- The method `Array.prototype.indexOf`, from position `i` on. -/
def indexOfFrom (i : Int) (x : String) : List String → Int
  | [] => -1
  | y :: ys => if y = x then i else indexOfFrom (i + 1) x ys

/-- The method `Array.prototype.indexOf`. -/
def jsIndexOf (xs : List String) (x : String) : Int := indexOfFrom 0 x xs

/-- The buttons of a challenge: `options.map((opt, idx) => ...)`. -/
def challengeButtons (verifyId : String) (idx : Nat) : List String → List Button
  | [] => []
  | opt :: rest =>
    { text := opt, callback_data := "verify:" ++ verifyId ++ ":" ++ jsString (some (idx : Int)) }
      :: challengeButtons verifyId (idx + 1) rest

/-- The rows of the inline keyboard: slices of `cols` buttons; the first
argument bounds the number of rows. -/
def keyboardRows (cols : Nat) : Nat → List Button → List (List Button)
  | 0, _ => []
  | fuel + 1, bs => if bs.isEmpty then [] else bs.take cols :: keyboardRows cols fuel (bs.drop cols)

/-- The text of the challenge message. -/
def challengeText (question : String) : String :=
  "🛡️ **人机验证**\n\n" ++ question ++ "\n\n请点击下方按钮回答 (回答正确后将自动发送您刚才的消息)。"

/-- The function `sendVerificationChallenge(userId, env, pendingMsgId)`. -/
def sendVerificationChallenge (userId : Nat) (pendingMsgId : Option Nat) : M Unit := do
  let existingChallenge ← kvGet (.user_challenge userId)
  if truthy existingChallenge then pure ()
  else do
    let i ← secureRandomInt 0 LOCAL_QUESTIONS.length
    match LOCAL_QUESTIONS[i]? with
    | none => raise "TypeError: q is undefined"
    | some q => do
      let options ← shuffleArray (q.incorrect_answers ++ [q.correct_answer])
      let verifyId ← secureRandomId CONFIG.VERIFY_ID_LENGTH
      let answerIndex := jsIndexOf options q.correct_answer
      let state : ChalState :=
        { answerIndex := answerIndex, options := options, pending := pendingMsgId,
          userId := some userId }
      kvPut (.chal verifyId) (.chalState state) (some CONFIG.VERIFY_EXPIRE_SECONDS)
      kvPut (.user_challenge userId) (.text verifyId) (some CONFIG.VERIFY_EXPIRE_SECONDS)
      let buttons := challengeButtons verifyId 0 options
      let keyboard := keyboardRows CONFIG.BUTTON_COLUMNS buttons.length buttons
      let _ ← tgCall (.sendMessage (.user userId) none (challengeText q.question) none keyboard)
      pure ()

/-- The answer to a callback query with an alert. -/
def alert (query : CallbackQuery) (text : String) : M Unit := do
  let _ ← tgCall (.answerCallbackQuery query.id text true)
  pure ()

/-- The test `isNaN(i) || i < 0 || i >= n` on the selected index. -/
def indexOutOfRange (i : Option Int) (n : Nat) : Bool :=
  match i with
  | none => true
  | some x => decide (x < 0) || decide ((n : Int) ≤ x)

/-- The message handed to `forwardToTopic` for a pending message. -/
def fakeMsg (query : CallbackQuery) (userId pending : Nat) : Msg :=
  { message_id := pending, chat := .user userId, sender := query.sender, text := none,
    caption := none, media_group_id := none, message_thread_id := none, photo := [],
    video := none, document := none, audio := none, animation := none }

/-- The redelivery of the pending message after a passed challenge (the block
`if (state.pending)` of `handleCallbackQuery`). -/
def redeliverPending (query : CallbackQuery) (env : Env) (userId pending : Nat) : M Unit :=
  tryCatch
    (do
      let forwardedKey := Key.forwarded userId pending
      let alreadyForwarded ← kvGet forwardedKey
      if truthy alreadyForwarded then pure ()
      else do
        forwardToTopic (fakeMsg query userId pending) userId (.user userId) env
        kvPut forwardedKey (.text "1") (some 3600)
        let _ ← tgCall (.sendMessage (.user userId) none "📩 刚才的消息已帮您送达。" (some pending) [])
        pure ())
    (fun _ => do
      let _ ← tgCall (.sendMessage (.user userId) none "⚠️ 自动发送失败，请重新发送您的消息。" none [])
      pure ())

/-- The end of the success branch of `handleCallbackQuery`: the challenge
message is edited and the pending message, if any, is redelivered. -/
def announceSuccess (query : CallbackQuery) (env : Env) (userId : Nat)
    (pending : Option Nat) : M Unit :=
  match query.message with
  | none => raise "TypeError: query.message is undefined"
  | some messageId => do
    let _ ← tgCall (.editMessageText (.user userId) messageId "✅ **验证成功**\n\n您现在可以自由对话了。")
    match pending with
    | some p => if p ≠ 0 then redeliverPending query env userId p else pure ()
    | none => pure ()

/-- The branch of `handleCallbackQuery` taken when the selected index is the
stored answer index. -/
def passChallenge (query : CallbackQuery) (env : Env) (verifyId : String) (userId : Nat)
    (pending : Option Nat) : M Unit := do
  let _ ← tgCall (.answerCallbackQuery query.id "✅ 验证通过" false)
  kvPut (.verified userId) (.text "1") (some CONFIG.VERIFIED_EXPIRE_SECONDS)
  kvDelete (.chal verifyId)
  kvDelete (.user_challenge userId)
  announceSuccess query env userId pending

/-- The body of the `try` block of `handleCallbackQuery`. -/
def validateCallback (query : CallbackQuery) (env : Env) : M Unit :=
  match query.data with
  | none => raise "TypeError: data is undefined"
  | some data =>
    if !jsStartsWith data "verify:" then pure ()
    else
      match jsSplitColon data with
      | [_, verifyId, idx] => do
        let selectedIndex := parseInt idx
        let userId := query.sender.id
        let stateStr ← kvGet (.chal verifyId)
        if !truthy stateStr then alert query "❌ 验证已过期，请重发消息"
        else
          match stateStr with
          | some (.chalState state) =>
            if truthyNum state.userId && decide (state.userId ≠ some userId) then
              alert query "❌ 无效的验证"
            else if indexOutOfRange selectedIndex state.options.length then
              alert query "❌ 无效选项"
            else if selectedIndex = some state.answerIndex then
              passChallenge query env verifyId userId state.pending
            else alert query "❌ 答案错误"
          | some (.text _) => alert query "❌ 数据错误"
          | _ =>
            match selectedIndex with
            | none => alert query "❌ 无效选项"
            | some x =>
              if x < 0 then alert query "❌ 无效选项"
              else raise "TypeError: state.options is undefined"
      | _ => pure ()

/-- The function `handleCallbackQuery(query, env, ctx)`. -/
def handleCallbackQuery (query : CallbackQuery) (env : Env) : M Unit :=
  tryCatch (validateCallback query env)
    (fun _ => alert query "⚠️ 系统错误，请重试")

/-! ## Private messages -/

/-- The function `handlePrivateMessage(msg, env, ctx)`; `fetch` calls it for
the messages of private chats only. -/
def handlePrivateMessage (msg : Msg) (env : Env) : M Unit :=
  match msg.chat with
  | .supergroup => pure ()
  | .user userId => do
    let key := Key.user userId
    let rateLimit ← checkRateLimit userId "message" CONFIG.RATE_LIMIT_MESSAGE CONFIG.RATE_LIMIT_WINDOW
    if !rateLimit.allowed then do
      let _ ← tgCall (.sendMessage (.user userId) none "⚠️ 发送过于频繁，请稍后再试。" none [])
      pure ()
    else if truthyStr msg.text && jsStartsWith (orEmpty msg.text) "/" &&
        decide (jsTrim (orEmpty msg.text) ≠ "/start") then
      pure ()
    else do
      let isBanned ← kvGet (.banned userId)
      if truthy isBanned then pure ()
      else do
        let verified ← kvGet (.verified userId)
        if !truthy verified then do
          let verifyLimit ← checkRateLimit userId "verify" CONFIG.RATE_LIMIT_VERIFY 300
          if !verifyLimit.allowed then do
            let _ ← tgCall (.sendMessage (.user userId) none "⚠️ 验证请求过于频繁，请5分钟后再试。" none [])
            pure ()
          else
            let isStart := truthyStr msg.text && decide (jsTrim (orEmpty msg.text) = "/start")
            let pendingMsgId := if isStart then none else some msg.message_id
            sendVerificationChallenge userId pendingMsgId
        else forwardToTopic msg userId key env

/-! ## Listing of keys and the status of a topic -/

/-- Order of two key names in the listing of `TOPIC_MAP.list`: lexicographic by
code point (the order of the UTF-8 encodings). -/
def nameLe : List Char → List Char → Bool
  | [], _ => true
  | _ :: _, [] => false
  | a :: as, b :: bs =>
    if a.toNat < b.toNat then true
    else if b.toNat < a.toNat then false
    else nameLe as bs

/-- The keys of the store that are alive at `now`, each once. -/
def Store.liveKeys : Store → Nat → List Key
  | [], _ => []
  | (k, e) :: rest, now =>
    let ks := (Store.liveKeys rest now).filter (fun k1 => decide (k1 ≠ k))
    if e.live now then k :: ks else ks

/-- The order of two keys in the listing of `TOPIC_MAP.list`: by name. -/
def ListedBefore (a b : Key) : Prop := nameLe a.render.data b.render.data = true

instance : DecidableRel ListedBefore := fun a b =>
  inferInstanceAs (Decidable (nameLe a.render.data b.render.data = true))

/-- The function `getAllKeys(env, prefix)`: the names of all the live keys that
start with the given text, in the order of the listing, all pages together. -/
def getAllKeys (pre : String) : M (List Key) := fun w =>
  (.ok (List.insertionSort ListedBefore
      ((w.store.liveKeys w.now).filter (fun k => jsStartsWith k.render pre))), w)

/-- One round of the loop of `updateThreadStatus`; the `put` is issued in the
round that pushes it to `updates`. -/
def updateThreadRound (threadId : Nat) (isClosed : Bool) (name : Key) : M Unit := do
  let r ← safeGetRec name
  match r with
  | some r =>
    if r.thread_id = some threadId then
      kvPut name (.topicRec { r with closed := isClosed }) none
    else pure ()
  | none => pure ()

/-- The loop `for (const { name } of allKeys)` of `updateThreadStatus`. -/
def updateThreadLoop (threadId : Nat) (isClosed : Bool) : List Key → M Unit
  | [] => pure ()
  | name :: rest => do
    updateThreadRound threadId isClosed name
    updateThreadLoop threadId isClosed rest

/-- The function `updateThreadStatus(threadId, isClosed, env)`. -/
def updateThreadStatus (threadId : Nat) (isClosed : Bool) : M Unit :=
  tryCatch
    (do
      let allKeys ← getAllKeys "user:"
      updateThreadLoop threadId isClosed allKeys)
    (fun e => raise e)

/-! ## Bulk cleanup -/

/-- The value a cleanup task returns for a removed user. -/
structure CleanedUser where
  userId : String
  threadId : Option Nat
  title : Utf16
deriving DecidableEq, Repr

/-- The counters and the list kept by `handleCleanupCommand`. -/
structure CleanupTally where
  cleanedCount : Nat
  errorCount : Nat
  cleanedUsers : List CleanedUser
deriving DecidableEq, Repr

/-- The test `actualThreadId && Number(actualThreadId) !== Number(topicThreadId)`
of the cleanup task. -/
def cleanupRedirected (actual expected : Option Nat) : Bool :=
  truthyNum actual && decide (actual ≠ expected)

/-- The end of a cleanup task that keeps the record: the probe message is
deleted if the probe succeeded, failures of the deletion being ignored. -/
def cleanupKeep (testRes : TgResult) : M (Option CleanedUser) := do
  if testRes.ok && truthyNum (testRes.result.bind (fun m => m.message_id)) then
    tryCatch
      (do let _ ← tgCall (.deleteMessage .supergroup (testRes.result.bind (fun m => m.message_id)))
          pure ())
      (fun _ => pure ())
  else pure ()
  pure none

/-- The task that `handleCleanupCommand` runs for the name `user:<userId>`
(the callback of `batch.map`); `name.slice(5)` is the text of `userId`. -/
def cleanupTask (userId : Nat) : M (Option CleanedUser) := do
  let name := Key.user userId
  let r ← safeGetRec name
  match r with
  | none => pure none
  | some r =>
    if !truthyNum r.thread_id then pure none
    else do
      let topicThreadId := r.thread_id
      let testRes ← tgCall (.sendMessage .supergroup topicThreadId "\u200B" none [])
      let actualThreadId := testRes.result.bind (fun m => m.message_thread_id)
      if !testRes.ok || cleanupRedirected actualThreadId topicThreadId then
        let desc := jsToLowerCase (orEmpty testRes.description)
        let redirected := cleanupRedirected actualThreadId topicThreadId
        let isTopicDeleted :=
          redirected ||
          jsIncludes desc "thread not found" ||
          jsIncludes desc "topic not found" ||
          jsIncludes desc "message thread not found"
        if isTopicDeleted then do
          kvDelete name
          kvDelete (.verified userId)
          kvDelete (.thread topicThreadId)
          pure (some { userId := toString userId, threadId := topicThreadId,
                       title := orText r.title "未知" })
        else cleanupKeep testRes
      else cleanupKeep testRes

/-- One task of a batch together with the handling of its settled result in
`results.forEach`: a returned value is counted and listed, a rejection is
counted as an error.  `getAllKeys("user:")` lists names `user:<id>` only. -/
def cleanupSettle (tally : CleanupTally) (name : Key) : M CleanupTally :=
  match name with
  | .user userId =>
    tryCatch
      (do
        let value ← cleanupTask userId
        match value with
        | some user =>
          pure { tally with cleanedCount := tally.cleanedCount + 1,
                            cleanedUsers := tally.cleanedUsers ++ [user] }
        | none => pure tally)
      (fun _ => pure { tally with errorCount := tally.errorCount + 1 })
  | _ => pure tally

/-- One batch of `handleCleanupCommand`.  `Promise.allSettled` starts the tasks
of a batch together; here each task runs to its end before the next starts. -/
def cleanupBatch (tally : CleanupTally) : List Key → M CleanupTally
  | [] => pure tally
  | name :: rest => do
    let tally1 ← cleanupSettle tally name
    cleanupBatch tally1 rest

/-- The loop over the batches of `CONFIG.CLEANUP_BATCH_SIZE` names (at most
`fuel` batches); the pause between two batches changes nothing a handler reads. -/
def cleanupBatches (tally : CleanupTally) : Nat → List Key → M CleanupTally
  | 0, _ => pure tally
  | fuel + 1, allKeys =>
    if allKeys.isEmpty then pure tally
    else do
      let tally1 ← cleanupBatch tally (allKeys.take CONFIG.CLEANUP_BATCH_SIZE)
      cleanupBatches tally1 fuel (allKeys.drop CONFIG.CLEANUP_BATCH_SIZE)

/-- The lines of the report that list the removed users. -/
def cleanupLines : List CleanedUser → Utf16
  | [] => ""
  | user :: rest =>
    "- UID: `" ++ user.userId ++ "` | 话题: " ++ user.title ++ "\n" ++ cleanupLines rest

/-- The text of the report of `handleCleanupCommand`. -/
def cleanupReport (tally : CleanupTally) : Utf16 :=
  "✅ **清理完成**\n\n" ++ "📊 **统计信息**\n" ++
  "- 已清理用户数: " ++ toString tally.cleanedCount ++ "\n" ++
  "- 错误数: " ++ toString tally.errorCount ++ "\n\n" ++
  (if tally.cleanedCount > 0 then
    "🗑️ **已清理的用户** (话题已删除):\n" ++
    cleanupLines (tally.cleanedUsers.take CONFIG.MAX_CLEANUP_DISPLAY) ++
    (if tally.cleanedUsers.length > CONFIG.MAX_CLEANUP_DISPLAY then
      "\n...(还有 " ++ toString (tally.cleanedUsers.length - CONFIG.MAX_CLEANUP_DISPLAY) ++
        " 个用户)\n"
    else "") ++
    "\n💡 这些用户下次发消息时将重新进行人机验证并创建新话题。"
  else "✨ 没有发现需要清理的用户记录。")

/-- The function `handleCleanupCommand(threadId, env)`. -/
def handleCleanupCommand (threadId : Option Nat) : M Unit := do
  let _ ← tgCall (.sendMessage .supergroup threadId "🔄 **正在扫描需要清理的用户...**" none [])
  tryCatch
    (do
      let allKeys ← getAllKeys "user:"
      let tally ← cleanupBatches { cleanedCount := 0, errorCount := 0, cleanedUsers := [] }
        allKeys.length allKeys
      let _ ← tgCall (.sendMessage .supergroup threadId (cleanupReport tally) none [])
      pure ())
    (fun e => do
      let _ ← tgCall (.sendMessage .supergroup threadId
        ("❌ **清理过程出错**\n\n错误信息: `" ++ e ++ "`") none [])
      pure ())

/-! ## Replies of the staff -/

/-- `Number(s)` for a text read from the store, on the strings of decimal
digits, which is what the worker writes under `thread:<id>`; any other text is
taken as `NaN`. -/
def jsNumber (s : String) : Option Nat :=
  if !s.data.isEmpty && s.data.all (fun c => (digitVal 10 c).isSome) then
    some (digitsValue 10 (takeDigits 10 s.data))
  else none

/-- The test `Number(a) === Number(b)` on topic ids (`undefined` gives `NaN`,
which equals nothing). -/
def jsNumberEq (a b : Option Nat) : Bool :=
  match a, b with
  | some x, some y => decide (x = y)
  | _, _ => false

/-- The text of an optional number inside a template. -/
def numText : Option Nat → String
  | some n => toString n
  | none => "undefined"

/-- The scan of `handleAdminReply` over the listed names: the user id of the
first record whose topic id is `threadId`; `Number(name.slice(5))` is the id of
a name `user:<id>`. -/
def scanForThread (threadId : Option Nat) : List Key → M (Option Nat)
  | [] => pure none
  | name :: rest => do
    let r ← safeGetRec name
    let found :=
      match r with
      | some r => jsNumberEq r.thread_id threadId
      | none => false
    if found then
      match name with
      | .user userId => pure (some userId)
      | _ => pure none
    else scanForThread threadId rest

/-- The lookup of the user of a topic at the head of `handleAdminReply`. -/
def lookupUser (threadId : Option Nat) : M (Option Nat) := do
  let mappedUser ← kvGet (.thread threadId)
  if truthy mappedUser then
    match mappedUser with
    | some (.text s) => pure (jsNumber s)
    | _ => pure none
  else do
    let allKeys ← getAllKeys "user:"
    scanForThread threadId allKeys

/-- The text of the `/info` answer. -/
def infoText (userId : Nat) (threadId : Option Nat) (userRec : Option TopicRec)
    (verifyStatus banStatus : Option Val) : Utf16 :=
  "👤 **用户信息**\nUID: `" ++ toString userId ++ "`\nTopic ID: `" ++ numText threadId ++
  "`\n话题标题: " ++
  (match userRec with
   | some r => orText r.title "未知"
   | none => "未知") ++
  "\n验证状态: " ++
  (if truthy verifyStatus then
    (if verifyStatus = some (.text "trusted") then "🌟 永久信任" else "✅ 已验证")
   else "❌ 未验证") ++
  "\n封禁状态: " ++ (if truthy banStatus then "🚫 已封禁" else "✅ 正常") ++
  "\nLink: [点击私聊](tg://user?id=" ++ toString userId ++ ")"

/-- The commands and the relay of `handleAdminReply`, once the user of the
topic is known. -/
def replyForUser (msg : Msg) (threadId : Option Nat) (text : String) (userId : Nat) : M Unit :=
  if text = "/close" then do
    let key := Key.user userId
    let r ← safeGetRec key
    match r with
    | some r => do
      kvPut key (.topicRec { r with closed := true }) none
      let _ ← tgCall (.closeForumTopic .supergroup threadId)
      let _ ← tgCall (.sendMessage .supergroup threadId "🚫 **对话已强制关闭**" none [])
      pure ()
    | none => pure ()
  else if text = "/open" then do
    let key := Key.user userId
    let r ← safeGetRec key
    match r with
    | some r => do
      kvPut key (.topicRec { r with closed := false }) none
      let _ ← tgCall (.reopenForumTopic .supergroup threadId)
      let _ ← tgCall (.sendMessage .supergroup threadId "✅ **对话已恢复**" none [])
      pure ()
    | none => pure ()
  else if text = "/reset" then do
    kvDelete (.verified userId)
    let _ ← tgCall (.sendMessage .supergroup threadId "🔄 **验证重置**" none [])
    pure ()
  else if text = "/trust" then do
    kvPut (.verified userId) (.text "trusted") none
    let _ ← tgCall (.sendMessage .supergroup threadId "🌟 **已设置永久信任**" none [])
    pure ()
  else if text = "/ban" then do
    kvPut (.banned userId) (.text "1") none
    let _ ← tgCall (.sendMessage .supergroup threadId "🚫 **用户已封禁**" none [])
    pure ()
  else if text = "/unban" then do
    kvDelete (.banned userId)
    let _ ← tgCall (.sendMessage .supergroup threadId "✅ **用户已解封**" none [])
    pure ()
  else if text = "/info" then do
    let userRec ← safeGetRec (.user userId)
    let verifyStatus ← kvGet (.verified userId)
    let banStatus ← kvGet (.banned userId)
    let _ ← tgCall (.sendMessage .supergroup threadId
      (infoText userId threadId userRec verifyStatus banStatus) none [])
    pure ()
  else if truthyStr msg.media_group_id then
    handleMediaGroup msg "t2p" (.user userId) none
  else do
    let _ ← tgCall (.copyMessage (.user userId) .supergroup msg.message_id none)
    pure ()

/-- The function `handleAdminReply(msg, env, ctx)`. -/
def handleAdminReply (msg : Msg) : M Unit := do
  let threadId := msg.message_thread_id
  let text := jsTrim (orEmpty msg.text)
  if text = "/cleanup" then handleCleanupCommand threadId
  else do
    let userId ← lookupUser threadId
    match userId with
    | some userId => if userId = 0 then pure () else replyForUser msg threadId text userId
    | none => pure ()

/-! ## Drivers for sequences of events -/

/-- Consecutive calls `checkRateLimit(userId, env, action, limit, window)` made
at the given instants; the outcomes in order and the final world. -/
def rateLimitCalls (userId : Nat) (action : String) (limit window : Nat) :
    List Nat → World → List (Outcome RateResult) × World
  | [], w => ([], w)
  | t :: ts, w =>
    let r := checkRateLimit userId action limit window { w with now := t }
    let rest := rateLimitCalls userId action limit window ts r.2
    (r.1 :: rest.1, rest.2)

/-- Consecutive deliveries of callback queries, each at its own instant; the
final world. -/
def handleCallbacks (env : Env) : List (Nat × CallbackQuery) → World → World
  | [], w => w
  | (t, q) :: rest, w => handleCallbacks env rest (handleCallbackQuery q env { w with now := t }).2

/-- Consecutive relays `forwardToTopic(msg, userId, "user:" + userId, env, ctx)`
of messages of one user, each at its own instant; the final world. -/
def relayCalls (env : Env) (userId : Nat) : List (Nat × Msg) → World → World
  | [], w => w
  | (t, msg) :: rest, w =>
    relayCalls env userId rest (forwardToTopic msg userId (.user userId) env { w with now := t }).2

/-! ## Specification vocabulary -/

/-- From the world `w` the handler answered the callback query, as its first
gateway call, with the alert `text`, and the store of the resulting world `w1`
is the store of `w`. -/
def RejectedWith (query : CallbackQuery) (text : String) (w w1 : World) : Prop :=
  w1.store = w.store ∧
  w1.calls.take (w.calls.length + 1) = w.calls ++ [Call.answerCallbackQuery query.id text true]

/-- The callback data of the query addresses the challenge `verifyId` and
carries the index text `idx`: it passes the two format tests of
`handleCallbackQuery`. -/
def Addresses (query : CallbackQuery) (verifyId idx : String) : Prop :=
  ∃ data p, query.data = some data ∧ jsStartsWith data "verify:" = true ∧
    jsSplitColon data = [p, verifyId, idx]

/-- The query is a wrong guess at the challenge `verifyId` whose state is `c`:
it addresses the challenge with an index inside the option list that is not
the stored answer index. -/
def WrongGuess (verifyId : String) (c : ChalState) (query : CallbackQuery) : Prop :=
  ∃ idx i, Addresses query verifyId idx ∧ parseInt idx = some i ∧
    0 ≤ i ∧ i < (c.options.length : Int) ∧ i ≠ c.answerIndex

/-- The probe of `forwardToTopic` is due for the topic: no positive result
younger than the cache lifetime is cached for it. -/
def ProbeDue (w : World) (threadId : Nat) : Prop :=
  ∀ ts, cacheFind w.cache threadId = some ts →
    ¬ ((w.now : Int) - (ts : Int) < (CONFIG.THREAD_HEALTH_TTL_MS : Int))

/-- The probe message sent into a topic. -/
def probeCall (threadId : Nat) : Call :=
  .sendMessage .supergroup (some threadId) "\u200B" none []

/-- The probe response makes the health check treat the topic as lost: the
response failed, or carries no topic id, or carries another topic id. -/
def probeReportsLoss (res : TgResult) (expected : Nat) : Bool :=
  !res.ok || threadMismatch (res.result.bind (fun m => m.message_thread_id)) (some expected)

/-- The record `createTopic` stores for a sender and a new topic id. -/
def newRec (sender : Sender) (threadId : Option Nat) : TopicRec :=
  { thread_id := threadId, title := some (buildTopicTitle sender), closed := false }

/-- The response to the primary send makes `forwardToTopic` recreate the topic
once more: a success that echoes no or another topic id, or a failure of the
not-found class. -/
def sendReportsLoss (res : TgResult) (expected : Option Nat) : Bool :=
  (res.ok && threadMismatch (res.result.bind (fun m => m.message_thread_id)) expected) ||
  (!res.ok && sendDeletionText (jsToLowerCase (orEmpty res.description)))

/-- The gateway call is a topic creation. -/
def Call.isCreateForumTopic : Call → Bool
  | .createForumTopic _ _ => true
  | _ => false

/-- The test of `handlePrivateMessage` that drops the commands of ordinary
users: a text that starts with `/` and is not `/start` once trimmed. -/
def isDroppedCommand (msg : Msg) : Bool :=
  truthyStr msg.text && jsStartsWith (orEmpty msg.text) "/" &&
    decide (jsTrim (orEmpty msg.text) ≠ "/start")

/-- The outcome of `secureRandomInt(min, max)` when `crypto.getRandomValues`
delivers the 32-bit word `word`. -/
def randomIntOfWord (min max word : Nat) : Outcome Nat :=
  (secureRandomInt min max
    { store := [], now := 0, cache := [], gateway := fun _ => .netError "", calls := [],
      entropy := fun _ => word, drawn := 0, scheduled := [], relays := [] }).1

/-- The number of 32-bit words for which `secureRandomInt(0, n)` returns `v`. -/
def wordsMappedTo (n v : Nat) : Nat :=
  Nat.count (fun word => randomIntOfWord 0 n word = .ok v) (2 ^ 32)

/-- The probe response makes the cleanup task remove the record: the two tests
`!testRes.ok || (actualThreadId && ...)` and `isTopicDeleted` both hold. -/
def cleanupReportsLoss (res : TgResult) (expected : Nat) : Bool :=
  let actual := res.result.bind (fun m => m.message_thread_id)
  let desc := jsToLowerCase (orEmpty res.description)
  let redirected := cleanupRedirected actual (some expected)
  (!res.ok || redirected) &&
    (redirected ||
      jsIncludes desc "thread not found" ||
      jsIncludes desc "topic not found" ||
      jsIncludes desc "message thread not found")

/-- The value of the constant `cleanName` of `buildTopicTitle`: the first and
the last name, trimmed, cut to `CONFIG.MAX_NAME_LENGTH`, joined, freed from
control characters and with every run of white space collapsed. -/
def cleanName (sender : Sender) : Utf16 :=
  trimUnits ⟨collapseSpaces false
    ((jsSubstring0 (jsTrim (orEmpty sender.first_name)) CONFIG.MAX_NAME_LENGTH ++ " " ++
      jsSubstring0 (jsTrim (orEmpty sender.last_name)) CONFIG.MAX_NAME_LENGTH).units.filter
        (fun u => !isControlUnit u))⟩

/-- The value of the constant `usernameStr` of `buildTopicTitle`. -/
def usernameStr (sender : Sender) : Utf16 :=
  let username : Utf16 :=
    if truthyStr sender.username then
      jsSubstring0 (String.mk ((orEmpty sender.username).data.filter isWordChar)) 20
    else ""
  if username.units.isEmpty then "" else " @" ++ username

/-- The key holds, at the instant of the world, a conversation record of the
topic `T`. -/
def CarriesTopic (w : World) (k : Key) (T : Nat) : Prop :=
  ∃ r, w.store.get w.now k = some (.topicRec r) ∧ r.thread_id = some T

/-- The commands of `handleAdminReply`. -/
def staffCommands : List String :=
  ["/cleanup", "/close", "/open", "/reset", "/trust", "/ban", "/unban", "/info"]

/-- The world `w` at the instant `t`. -/
def World.at (w : World) (t : Nat) : World := { w with now := t }

/-! ## Proof vocabulary -/

/-- The counter state of a rate-limit key: `k` actions have been counted, and
when the key exists its entry stays alive until `bound` at least. -/
def CounterAt (key : Key) (bound : Nat) (k : Nat) (w : World) : Prop :=
  (k = 0 ∧ w.store.find key = none) ∨
  ∃ e, bound ≤ e ∧ w.store.find key = some ⟨.text (jsString (some (k : Int))), some e⟩

/-- The handler `m` leaves the observation `f` of the world as it was. -/
structure Preserves {α β : Type} (f : World → β) (m : M α) : Prop where
  same : ∀ w, f (m w).2 = f w

/-- Observations that read the world through the store and the relay history
only. -/
def StoreObs {β : Type} (f : World → β) : Prop :=
  ∀ w w1 : World, w1.store = w.store → w1.relays = w.relays → f w1 = f w

/-- The handler changes neither the store nor the relay history. -/
def Quiet {α : Type} (m : M α) : Prop :=
  ∀ w, (m w).2.store = w.store ∧ (m w).2.relays = w.relays

/-- The observation allows writes and deletions of the key. -/
def Allows {β : Type} (f : World → β) (k : Key) : Prop :=
  (∀ v ttl, Preserves f (kvPut k v ttl)) ∧ Preserves f (kvDelete k)

/-- The handler appends at most `n` entries to the relay history. -/
structure Adds {α : Type} (n : Nat) (m : M α) : Prop where
  grows : ∀ w, ∃ l, (m w).2.relays = w.relays ++ l ∧ l.length ≤ n

/-- The entry that `updateThreadStatus` writes for the key `k`, if it writes
one. -/
def markedEntry (threadId : Nat) (isClosed : Bool) (now : Nat) (s : Store) (k : Key) :
    Option Entry :=
  match s.get now k with
  | some (.topicRec r) =>
    if r.thread_id = some threadId then some ⟨.topicRec { r with closed := isClosed }, none⟩
    else none
  | _ => none

/-- The store after one round of the loop of `updateThreadStatus`. -/
def markStore (threadId : Nat) (isClosed : Bool) (now : Nat) (s : Store) (k : Key) : Store :=
  match markedEntry threadId isClosed now s k with
  | some e => s.insert k e
  | none => s

/-! ## Sample worlds -/

/-- A gateway that accepts every call and echoes the given topic id. -/
def echoGateway (threadId : Nat) : Nat → Reply := fun _ =>
  .resp { ok := true, result := some { message_thread_id := some threadId, message_id := some 900 },
          description := none }

/-- The world of a fresh deployment: empty store and cache. -/
def freshWorld : World :=
  { store := [], now := 1000, cache := [], gateway := echoGateway 5, calls := [],
    entropy := fun n => 7 * n + 3, drawn := 0, scheduled := [], relays := [] }

/-- A sample user. -/
def alice : Sender := { id := 7, first_name := some "Alice", last_name := none, username := none }

/-- A sample challenge of user 7 with a pending message. -/
def sampleChallenge : ChalState :=
  { answerIndex := 2, options := ["石头", "木头", "水", "火"], pending := some 42, userId := some 7 }

/-- A world in which user 7 has the live challenge `abcdefghijkl`. -/
def challengedWorld : World :=
  { freshWorld with
    store := [(.user_challenge 7, ⟨.text "abcdefghijkl", some 301000⟩),
              (.chal "abcdefghijkl", ⟨.chalState sampleChallenge, some 301000⟩)] }

/-- A callback of user 7 selecting the option `idx` of challenge `abcdefghijkl`. -/
def sampleQuery (idx : String) : CallbackQuery :=
  { id := "cb1", data := some ("verify:abcdefghijkl:" ++ idx), sender := alice,
    message := some (some 55) }

/-- The worker environment of the samples. -/
def sampleEnv : Env := { SUPERGROUP_ID := "-1001234" }

/-- A plain text message of user 7 with the given message id. -/
def plainMsg (messageId : Nat) : Msg :=
  { message_id := messageId, chat := .user 7, sender := alice, text := some "hello",
    caption := none, media_group_id := none, message_thread_id := none, photo := [],
    video := none, document := none, audio := none, animation := none }

/-- A gateway response that fails with the given description. -/
def failure (description : String) : TgResult :=
  { ok := false, result := none, description := some description }

/-- A successful gateway response echoing the given topic id. -/
def success (threadId : Nat) : TgResult :=
  { ok := true, result := some { message_thread_id := some threadId, message_id := some 900 },
    description := none }

/-- A gateway behind which every topic is deleted again before the next message
arrives: of each three calls (probe, creation, send) the probe fails with the
not-found error, the creation yields a fresh topic id and the send into that
topic succeeds. -/
def deletingGateway : Nat → Reply := fun n =>
  if n % 3 = 0 then .resp (failure "Bad Request: message thread not found")
  else .resp (success (100 + n / 3))

/-- A gateway whose first call (the probe) fails with the given description,
and which then creates topic 9 and accepts the send into it. -/
def failingProbeGateway (description : String) : Nat → Reply := fun n =>
  if n = 0 then .resp (failure description) else .resp (success 9)

/-- A world in which the verified user 7 has the topic 5, registered in both
directions, and the given gateway. -/
def topicWorld (gateway : Nat → Reply) : World :=
  { freshWorld with
    store := [(.user 7, ⟨.topicRec { thread_id := some 5, title := some "Alice", closed := false },
                none⟩),
              (.thread (some 5), ⟨.text "7", none⟩),
              (.verified 7, ⟨.text "1", some 2592001000⟩)],
    gateway := gateway }

/-- The world `topicWorld` with the retry counter of user 7 at `4`, above the
bound. -/
def overBoundWorld : World :=
  { topicWorld deletingGateway with
    store := (Key.retry 7, ⟨.text "4", some 61000⟩) :: (topicWorld deletingGateway).store }

/-- A gateway on which every call runs into the timeout of `tgCall`. -/
def timeoutGateway : Nat → Reply := fun _ => .resp timeoutResult

/-- A buffer of two attachments, last touched at the instant 1000. -/
def sampleBuffer : MediaBuf :=
  { direction := "p2t", targetChat := .supergroup, threadId := some 5,
    items := [{ type := "photo", id := "f1", cap := "holiday", msg_id := 11 },
              { type := "video", id := "f2", cap := "second", msg_id := 12 }],
    last_ts := 1000 }

/-- The world, three seconds after the last attachment arrived, in which the
group `g1` of user 7 is buffered. -/
def bufferedWorld : World :=
  { freshWorld with
    store := [(.mg "p2t" "g1", ⟨.mediaBuf sampleBuffer, some 61000⟩)], now := 4000 }

/-- A buffer with a single photo whose caption is 600 emoji. -/
def emojiBuffer : MediaBuf :=
  { sampleBuffer with
    items := [{ type := "photo", id := "f1", cap := String.mk (List.replicate 600 '😀'),
                msg_id := 11 }] }

/-- The world `bufferedWorld` with the buffer `emojiBuffer`. -/
def emojiWorld : World :=
  { bufferedWorld with store := [(.mg "p2t" "g1", ⟨.mediaBuf emojiBuffer, some 61000⟩)] }

/-- A photo of user 7 that belongs to the media group `g1`. -/
def photoMsg (messageId : Nat) (fileId : String) : Msg :=
  { message_id := messageId, chat := .user 7, sender := alice, text := none,
    caption := none, media_group_id := some "g1", message_thread_id := none, photo := [fileId],
    video := none, document := none, audio := none, animation := none }

/-- The world after two photos of the group `g1` have been buffered by two
calls of `handleMediaGroup` that both read the clock value 1000. -/
def twoPhotosWorld : World :=
  (handleMediaGroup (photoMsg 12 "f2") "p2t" .supergroup (some 5)
    (handleMediaGroup (photoMsg 11 "f1") "p2t" .supergroup (some 5) freshWorld).2).2

/-- A world with a historical duplicate mapping: the records of the users 7 and
8 both carry the topic 5 (the reverse index names user 7); user 9 has the
topic 6. -/
def duplicateWorld : World :=
  { freshWorld with
    store := [(.user 8, ⟨.topicRec { thread_id := some 5, title := some "Bob", closed := false },
                none⟩),
              (.user 7, ⟨.topicRec { thread_id := some 5, title := some "Alice", closed := false },
                none⟩),
              (.user 9, ⟨.topicRec { thread_id := some 6, title := some "Carol", closed := false },
                none⟩),
              (.thread (some 5), ⟨.text "7", none⟩),
              (.thread (some 6), ⟨.text "9", none⟩)] }

/-- A world in which the record of user 7 carries the topic 5 and the reverse
index `thread:5` is missing. -/
def orphanWorld : World :=
  { freshWorld with
    store := [(.user 7, ⟨.topicRec { thread_id := some 5, title := some "Alice", closed := false },
                none⟩),
              (.verified 7, ⟨.text "1", some 2592001000⟩)] }

/-- A text message of the staff, posted in the topic 5 of the supergroup. -/
def staffMsg (text : String) : Msg :=
  { message_id := 77, chat := .supergroup,
    sender := { id := 1, first_name := some "Staff", last_name := none, username := none },
    text := some text, caption := none, media_group_id := none, message_thread_id := some 5,
    photo := [], video := none, document := none, audio := none, animation := none }

/-- A successful gateway response that carries no topic id. -/
def silentResponse : TgResult :=
  { ok := true, result := some { message_thread_id := none, message_id := some 900 },
    description := none }

/-- A gateway whose call number `n` is answered with `res`; every other call
succeeds and echoes the topic 9. -/
def respondAt (n : Nat) (res : TgResult) : Nat → Reply := fun i =>
  if i = n then .resp res else .resp (success 9)

/-- A sender without first name, last name and username. -/
def namelessSender : Sender := { id := 8, first_name := none, last_name := none, username := none }

/-- A sender whose names consist of white space and control characters, with a
username. -/
def blankSender : Sender :=
  { id := 9, first_name := some " \t ", last_name := some "\n", username := some "b.o-b" }

/-- A gateway behind which topic 5 is deleted and the primary send into the
recreated topic 9 is silently redirected: the probe fails with the not-found
error, the first creation yields topic 9, the forward into topic 9 succeeds
without a topic id, and every later call succeeds with topic 12. -/
def redirectingGateway : Nat → Reply := fun n =>
  if n = 0 then .resp (failure "Bad Request: message thread not found")
  else if n = 1 then .resp (success 9)
  else if n = 2 then .resp silentResponse
  else .resp (success 12)

/-- A world in which the records of the users 7 and 10 both carry the topic 5
and the reverse index `thread:5` is missing. -/
def twinsWorld : World :=
  { freshWorld with
    store := [(.user 7, ⟨.topicRec { thread_id := some 5, title := some "Alice", closed := false },
                none⟩),
              (.user 10, ⟨.topicRec { thread_id := some 5, title := some "Bob", closed := false },
                none⟩)] }

/-- The world of a fresh deployment behind the given gateway. -/
def freshWorldWith (gateway : Nat → Reply) : World := { freshWorld with gateway := gateway }

/-- A gateway that answers the first call with a success without topic id and
lets every later call run into the timeout. -/
def redirectThenTimeout : Nat → Reply := fun n =>
  if n = 0 then .resp silentResponse else .resp timeoutResult

/-- The world `topicWorld` with a positive health result for topic 5 cached a
tenth of a second ago. -/
def healthyWorld (gateway : Nat → Reply) : World :=
  { topicWorld gateway with cache := [(5, 900)] }

/-- A sender whose first name is 40 emoji. -/
def emojiSender : Sender :=
  { id := 11, first_name := some (String.mk (List.replicate 40 '😀')), last_name := none,
    username := none }

/-! # Theorems -/

/-! ## Execution lemmas for the monad -/

@[simp] theorem M.pure_apply {α : Type} (a : α) (w : World) : (pure a : M α) w = (.ok a, w) := rfl

@[simp] theorem M.bind_apply {α β : Type} (m : M α) (f : α → M β) (w : World) :
    (m >>= f) w = match m w with
      | (.ok a, w1) => f a w1
      | (.thrown e, w1) => (.thrown e, w1) := rfl

@[simp] theorem M.ite_apply {α : Type} (c : Prop) [Decidable c] (m1 m2 : M α) (w : World) :
    (if c then m1 else m2) w = if c then m1 w else m2 w := by
  split <;> rfl

@[simp] theorem raise_apply {α : Type} (e : String) (w : World) :
    (raise e : M α) w = (.thrown e, w) := rfl

@[simp] theorem kvGet_apply (k : Key) (w : World) :
    kvGet k w = (.ok (w.store.get w.now k), w) := rfl

@[simp] theorem kvPut_apply (k : Key) (v : Val) (ttl : Option Nat) (w : World) :
    kvPut k v ttl w =
      (.ok (), { w with store := w.store.insert k ⟨v, ttl.map (fun s => w.now + s * 1000)⟩ }) := rfl

@[simp] theorem kvDelete_apply (k : Key) (w : World) :
    kvDelete k w = (.ok (), { w with store := w.store.erase k }) := rfl

@[simp] theorem dateNow_apply (w : World) : dateNow w = (.ok w.now, w) := rfl

/-! ## The key-value store -/

theorem Store.find_erase_self (s : Store) (k : Key) : (Store.erase s k).find k = none := by
  induction s with
  | nil => rfl
  | cons p s ih =>
    obtain ⟨k0, e0⟩ := p
    by_cases h : k0 = k
    · simp [Store.erase, h, ih]
    · simp [Store.erase, h, Store.find, ih]

theorem Store.find_erase_of_ne (s : Store) {k k' : Key} (h : k' ≠ k) :
    (Store.erase s k').find k = s.find k := by
  induction s with
  | nil => rfl
  | cons p s ih =>
    obtain ⟨k0, e0⟩ := p
    by_cases h1 : k0 = k'
    · subst h1
      simp [Store.erase, Store.find, h, ih]
    · by_cases h2 : k0 = k
      · subst h2
        simp [Store.erase, h1, Store.find]
      · simp [Store.erase, h1, Store.find, h2, ih]

theorem Store.find_insert_self (s : Store) (k : Key) (e : Entry) :
    (Store.insert s k e).find k = some e := by
  simp [Store.insert, Store.find]

theorem Store.find_insert_of_ne (s : Store) {k k' : Key} (e : Entry) (h : k' ≠ k) :
    (Store.insert s k' e).find k = s.find k := by
  simp [Store.insert, Store.find, h, Store.find_erase_of_ne s h]

theorem Store.get_erase_self (s : Store) (now : Nat) (k : Key) :
    (Store.erase s k).get now k = none := by
  simp [Store.get, Store.find_erase_self]

theorem Store.get_erase_of_ne (s : Store) (now : Nat) {k k' : Key} (h : k' ≠ k) :
    (Store.erase s k').get now k = s.get now k := by
  simp [Store.get, Store.find_erase_of_ne s h]

theorem Store.get_insert_of_ne (s : Store) (now : Nat) {k k' : Key} (e : Entry) (h : k' ≠ k) :
    (Store.insert s k' e).get now k = s.get now k := by
  simp [Store.get, Store.find_insert_of_ne s e h]

theorem Store.get_insert_self (s : Store) (now : Nat) (k : Key) (e : Entry) :
    (Store.insert s k e).get now k = if e.live now then some e.val else none := by
  simp [Store.get, Store.find_insert_self]

theorem Store.erase_of_find_none (s : Store) (k : Key) (h : s.find k = none) :
    Store.erase s k = s := by
  induction s with
  | nil => rfl
  | cons p s ih =>
    obtain ⟨k0, e0⟩ := p
    by_cases h1 : k0 = k
    · simp [Store.find, h1] at h
    · simp only [Store.find, h1, if_false] at h
      simp [Store.erase, h1, ih h]

/-! ## Decimal strings -/

theorem digitVal_digitChar : ∀ d, d < 10 → digitVal 10 (Nat.digitChar d) = some d := by decide

theorem digitChar_plain : ∀ d, d < 10 →
    isJsSpace (Nat.digitChar d) = false ∧ Nat.digitChar d ≠ '-' ∧ Nat.digitChar d ≠ '+' ∧
    Nat.digitChar d ≠ 'x' ∧ Nat.digitChar d ≠ 'X' := by decide

theorem takeDigits_map_digitChar (ds : List Nat) (h : ∀ d ∈ ds, d < 10) :
    takeDigits 10 (ds.map Nat.digitChar) = ds := by
  induction ds with
  | nil => rfl
  | cons d ds ih =>
    have hd : d < 10 := h d (List.mem_cons_self _ _)
    have ht : ∀ x ∈ ds, x < 10 := fun x hx => h x (List.mem_cons_of_mem _ hx)
    simp [takeDigits, digitVal_digitChar d hd, ih ht]

/-- The decimal digits produced by the printing of a natural number. -/
theorem toDigitsCore_spec (fuel : Nat) : ∀ (n : Nat) (acc : List Char), n < fuel →
    ∃ ds : List Nat, ds ≠ [] ∧ (∀ d ∈ ds, d < 10) ∧
      Nat.toDigitsCore 10 fuel n acc = ds.map Nat.digitChar ++ acc ∧ digitsValue 10 ds = n := by
  induction fuel with
  | zero => intro n acc h; omega
  | succ fuel ih =>
    intro n acc h
    by_cases h0 : n / 10 = 0
    · refine ⟨[n % 10], by simp, ?_, ?_, ?_⟩
      · intro d hd
        simp at hd
        omega
      · simp [Nat.toDigitsCore, h0]
      · simp [digitsValue]
        omega
    · obtain ⟨ds, hne, hlt, heq, hval⟩ := ih (n / 10) (Nat.digitChar (n % 10) :: acc) (by omega)
      refine ⟨ds ++ [n % 10], by simp, ?_, ?_, ?_⟩
      · intro d hd
        rcases List.mem_append.mp hd with hd | hd
        · exact hlt d hd
        · simp at hd
          omega
      · simp [Nat.toDigitsCore, h0, heq]
      · simp only [digitsValue] at hval ⊢
        simp [List.foldl_append, hval]
        omega

theorem parseInt_digits (ds : List Nat) (hne : ds ≠ []) (h : ∀ d ∈ ds, d < 10) :
    parseInt (String.mk (ds.map Nat.digitChar)) = some ((digitsValue 10 ds : Nat) : Int) := by
  have htake := takeDigits_map_digitChar ds h
  match ds, hne, h, htake with
  | [a], _, h, htake =>
    have ha := digitChar_plain a (h a (by simp))
    simp only [List.map] at htake
    simp [parseInt, ha.1, stripSign, ha.2.1, ha.2.2.1, stripRadix, htake]
  | a :: b :: rest, _, h, htake =>
    have ha := digitChar_plain a (h a (by simp))
    have hb := digitChar_plain b (h b (by simp))
    simp only [List.map] at htake
    simp [parseInt, ha.1, stripSign, ha.2.1, ha.2.2.1, stripRadix, hb.2.2.2.1, hb.2.2.2.2, htake]

/-- The decimal string of a natural number, as a list of digit characters. -/
theorem jsString_nat_digits (n : Nat) :
    ∃ ds : List Nat, ds ≠ [] ∧ (∀ d ∈ ds, d < 10) ∧ digitsValue 10 ds = n ∧
      jsString (some (n : Int)) = String.mk (ds.map Nat.digitChar) := by
  obtain ⟨ds, hne, hlt, heq, hval⟩ := toDigitsCore_spec (n + 1) n [] (by omega)
  refine ⟨ds, hne, hlt, hval, ?_⟩
  simp [jsString, toString, Int.repr, Nat.repr, Nat.toDigits, heq, List.asString]

/-- Reading back a printed natural number: `parseInt(String(n)) = n`. -/
theorem parseInt_jsString_nat (n : Nat) : parseInt (jsString (some (n : Int))) = some (n : Int) := by
  obtain ⟨ds, hne, hlt, hval, heq⟩ := jsString_nat_digits n
  rw [heq, parseInt_digits ds hne hlt, hval]

theorem jsString_nat_nonempty (n : Nat) : (jsString (some (n : Int))).data.isEmpty = false := by
  obtain ⟨ds, hne, _, _, heq⟩ := jsString_nat_digits n
  rw [heq]
  cases ds with
  | nil => exact absurd rfl hne
  | cons d ds => rfl

theorem parseIntOr0_none : parseIntOr0 none = some 0 := by decide

theorem parseIntOr0_jsString_nat (n : Nat) :
    parseIntOr0 (some (.text (jsString (some (n : Int))))) = some (n : Int) := by
  simp [parseIntOr0, jsString_nat_nonempty, parseInt_jsString_nat]


/-! ## Rate limiting (C2) -/

theorem counterAt_read {key : Key} {bound k : Nat} {w : World} (t : Nat) (ht : t < bound)
    (h : CounterAt key bound k w) : parseIntOr0 (w.store.get t key) = some (k : Int) := by
  rcases h with ⟨hk, hf⟩ | ⟨e, he, hf⟩
  · subst hk
    simp [Store.get, hf, parseIntOr0_none]
  · have hlive : t < e := by omega
    simp [Store.get, hf, Entry.live, hlive, parseIntOr0_jsString_nat]

theorem checkRateLimit_allowed (userId : Nat) (action : String) (limit window : Nat)
    (t0 k t : Nat) (w : World) (h0 : t0 ≤ t) (ht : t < t0 + window * 1000) (hk : k < limit)
    (h : CounterAt (.ratelimit action userId) (t0 + window * 1000) k w) :
    (checkRateLimit userId action limit window { w with now := t }).1
        = .ok ⟨true, some ((limit : Int) - k - 1)⟩ ∧
      CounterAt (.ratelimit action userId) (t0 + window * 1000) (k + 1)
        (checkRateLimit userId action limit window { w with now := t }).2 := by
  have hread := counterAt_read (w := w) t ht h
  have hlt : ¬ ((limit : Int) ≤ (k : Int)) := by omega
  refine ⟨?_, Or.inr ⟨t + window * 1000, by omega, ?_⟩⟩
  · simp [checkRateLimit, hread, jsGe, hlt]
  · simp [checkRateLimit, hread, jsGe, hlt, jsAdd, Store.find_insert_self]

theorem checkRateLimit_refused (userId : Nat) (action : String) (limit window : Nat)
    (bound k t : Nat) (w : World) (ht : t < bound) (hk : limit ≤ k)
    (h : CounterAt (.ratelimit action userId) bound k w) :
    checkRateLimit userId action limit window { w with now := t }
      = (.ok ⟨false, some 0⟩, { w with now := t }) := by
  have hread := counterAt_read (w := w) t ht h
  have hge : (limit : Int) ≤ (k : Int) := by omega
  simp [checkRateLimit, hread, jsGe, hge]

theorem rateLimitCalls_allowed (userId : Nat) (action : String) (limit window t0 : Nat) :
    ∀ (ts : List Nat) (k : Nat) (w : World),
      (∀ t ∈ ts, t0 ≤ t ∧ t < t0 + window * 1000) → k + ts.length ≤ limit →
      CounterAt (.ratelimit action userId) (t0 + window * 1000) k w →
      (rateLimitCalls userId action limit window ts w).1
          = (List.range ts.length).map
              (fun i => Outcome.ok ⟨true, some ((limit : Int) - ((k + i : Nat) : Int) - 1)⟩) ∧
        CounterAt (.ratelimit action userId) (t0 + window * 1000) (k + ts.length)
          (rateLimitCalls userId action limit window ts w).2 := by
  intro ts
  induction ts with
  | nil => intro k w _ _ h; exact ⟨rfl, h⟩
  | cons t ts ih =>
    intro k w hts hk h
    have ht := hts t (List.mem_cons_self _ _)
    have hrest : ∀ x ∈ ts, t0 ≤ x ∧ x < t0 + window * 1000 :=
      fun x hx => hts x (List.mem_cons_of_mem _ hx)
    simp only [List.length_cons] at hk
    obtain ⟨h1, h2⟩ := checkRateLimit_allowed userId action limit window t0 k t w ht.1 ht.2
      (by omega) h
    obtain ⟨h3, h4⟩ := ih (k + 1) _ hrest (by omega) h2
    refine ⟨?_, ?_⟩
    · simp only [rateLimitCalls, h1, h3, List.length_cons, List.range_succ_eq_map, List.map_cons,
        List.map_map]
      simp only [Nat.add_zero, List.cons.injEq, true_and]
      apply List.map_congr_left
      intro i _
      simp only [Function.comp]
      congr 3
      omega
    · simp only [rateLimitCalls, List.length_cons]
      have : k + (ts.length + 1) = k + 1 + ts.length := by omega
      rw [this]
      exact h4

/-- C2. Starting without the rate-limit key, `limit + 1` consecutive calls of
`checkRateLimit` made inside one window (all instants in `[t0, t0 + window)`)
behave as follows: the first `limit` calls are allowed, call `i` (from 0)
reporting `limit - i - 1` remaining; the next call is refused with
`remaining = 0` and leaves the world, in particular the store, unchanged. -/
theorem checkRateLimit_exactly_limit (userId : Nat) (action : String) (limit window t0 : Nat)
    (ts : List Nat) (tLast : Nat) (w : World)
    (hfresh : w.store.find (.ratelimit action userId) = none)
    (hlen : ts.length = limit)
    (hts : ∀ t ∈ ts, t0 ≤ t ∧ t < t0 + window * 1000)
    (hlast : t0 ≤ tLast ∧ tLast < t0 + window * 1000) :
    (rateLimitCalls userId action limit window ts w).1
        = (List.range limit).map
            (fun i => Outcome.ok ⟨true, some ((limit : Int) - (i : Int) - 1)⟩) ∧
      checkRateLimit userId action limit window
          { (rateLimitCalls userId action limit window ts w).2 with now := tLast }
        = (.ok ⟨false, some 0⟩,
           { (rateLimitCalls userId action limit window ts w).2 with now := tLast }) := by
  obtain ⟨h1, h2⟩ := rateLimitCalls_allowed userId action limit window t0 ts 0 w hts
    (by omega) (Or.inl ⟨rfl, hfresh⟩)
  refine ⟨?_, ?_⟩
  · rw [h1, hlen]
    simp
  · exact checkRateLimit_refused userId action limit window _ _ tLast _ hlast.2
      (by omega) h2

theorem checkRateLimit_exactly_limit_witness :
    freshWorld.store.find (.ratelimit "message" 7) = none ∧
      [1000, 2500].length = 2 ∧
      (∀ t ∈ [1000, 2500], 1000 ≤ t ∧ t < 1000 + 60 * 1000) ∧
      (1000 ≤ 3000 ∧ 3000 < 1000 + 60 * 1000) ∧
      ((rateLimitCalls 7 "message" 2 60 [1000, 2500] freshWorld).1
          = (List.range 2).map
              (fun i => Outcome.ok ⟨true, some ((2 : Int) - (i : Int) - 1)⟩) ∧
        checkRateLimit 7 "message" 2 60
            { (rateLimitCalls 7 "message" 2 60 [1000, 2500] freshWorld).2 with now := 3000 }
          = (.ok ⟨false, some 0⟩,
             { (rateLimitCalls 7 "message" 2 60 [1000, 2500] freshWorld).2 with now := 3000 })) :=
  ⟨by decide, by decide, by decide, by decide,
    checkRateLimit_exactly_limit 7 "message" 2 60 1000 [1000, 2500] 3000 freshWorld
      (by decide) (by decide) (by decide) (by decide)⟩


/-! ## Frame reasoning: observations of the world that a handler preserves -/

theorem Preserves.pure {α β : Type} (f : World → β) (a : α) : Preserves f (pure a : M α) :=
  ⟨fun _ => rfl⟩

theorem Preserves.raise {α β : Type} (f : World → β) (e : String) :
    Preserves f (raise e : M α) := ⟨fun _ => rfl⟩

theorem Preserves.bind {α γ β : Type} {f : World → β} {m : M α} {g : α → M γ}
    (hm : Preserves f m) (hg : ∀ a, Preserves f (g a)) : Preserves f (m >>= g) := by
  constructor
  intro w
  have h1 := hm.same w
  simp only [M.bind_apply]
  cases hmw : m w with
  | mk o w1 =>
    rw [hmw] at h1
    cases o with
    | ok a => simpa [h1] using (hg a).same w1
    | thrown e => simpa using h1

theorem Preserves.tryCatch {α β : Type} {f : World → β} {m : M α} {h : String → M α}
    (hm : Preserves f m) (hh : ∀ e, Preserves f (h e)) : Preserves f (tryCatch m h) := by
  constructor
  intro w
  have h1 := hm.same w
  simp only [Worker.tryCatch]
  cases hmw : m w with
  | mk o w1 =>
    rw [hmw] at h1
    cases o with
    | ok a => simpa using h1
    | thrown e => simpa [h1] using (hh e).same w1

theorem Preserves.ite {α β : Type} {f : World → β} {c : Prop} [Decidable c] {m1 m2 : M α}
    (h1 : Preserves f m1) (h2 : Preserves f m2) : Preserves f (if c then m1 else m2) := by
  split
  · exact h1
  · exact h2

theorem Preserves.of_quiet {α β : Type} {f : World → β} (hf : StoreObs f) {m : M α}
    (h : Quiet m) : Preserves f m := ⟨fun w => hf _ _ (h w).1 (h w).2⟩

theorem tgCall_quiet (c : Call) : Quiet (tgCall c) := by
  intro w
  simp only [tgCall]
  split <;> exact ⟨rfl, rfl⟩

theorem kvGet_quiet (k : Key) : Quiet (kvGet k) := fun _ => ⟨rfl, rfl⟩

theorem dateNow_quiet : Quiet dateNow := fun _ => ⟨rfl, rfl⟩

theorem cacheGet_quiet (k : Option Nat) : Quiet (cacheGet k) := by
  intro w
  cases k <;> exact ⟨rfl, rfl⟩

theorem cacheSet_quiet (k : Option Nat) (ts : Nat) : Quiet (cacheSet k ts) := by
  intro w
  cases k <;> exact ⟨rfl, rfl⟩

theorem cacheDelete_quiet (k : Option Nat) : Quiet (cacheDelete k) := by
  intro w
  cases k <;> exact ⟨rfl, rfl⟩

theorem waitUntilDelaySend_quiet (k : Key) (ts : Nat) : Quiet (waitUntilDelaySend k ts) :=
  fun _ => ⟨rfl, rfl⟩

theorem randomValue_quiet (width : Nat) : Quiet (randomValue width) := fun _ => ⟨rfl, rfl⟩

theorem safeGetRec_preserves {β : Type} {f : World → β} (hf : StoreObs f) (k : Key) :
    Preserves f (safeGetRec k) := by
  unfold safeGetRec
  refine Preserves.bind (Preserves.of_quiet hf (kvGet_quiet _)) ?_
  intro data
  split <;> exact Preserves.pure _ _

theorem createTopic_preserves {β : Type} {f : World → β} (hf : StoreObs f) (sender : Sender)
    (key : Key) (env : Env) (userId : Nat) (hkey : Allows f key)
    (hthread : ∀ t, Allows f (.thread t)) :
    Preserves f (createTopic sender key env userId) := by
  unfold createTopic
  dsimp only
  repeat' (first
    | exact Preserves.pure _ _
    | exact Preserves.raise _ _
    | exact Preserves.of_quiet hf (tgCall_quiet _)
    | exact hkey.1 _ _
    | exact (hthread _).1 _ _
    | refine Preserves.ite ?_ ?_
    | refine Preserves.bind ?_ ?_
    | intro _
    | split)

theorem handleMediaGroup_preserves {β : Type} {f : World → β} (hf : StoreObs f) (msg : Msg)
    (direction : String) (targetChat : ChatId) (threadId : Option Nat)
    (hmg : ∀ d g, Allows f (.mg d g)) :
    Preserves f (handleMediaGroup msg direction targetChat threadId) := by
  unfold handleMediaGroup
  dsimp only
  repeat' (first
    | exact Preserves.pure _ _
    | exact Preserves.raise _ _
    | exact Preserves.of_quiet hf (tgCall_quiet _)
    | exact Preserves.of_quiet hf (kvGet_quiet _)
    | exact Preserves.of_quiet hf dateNow_quiet
    | exact Preserves.of_quiet hf (waitUntilDelaySend_quiet _ _)
    | exact (hmg _ _).1 _ _
    | refine Preserves.ite ?_ ?_
    | refine Preserves.bind ?_ ?_
    | intro _
    | split)

theorem probeTopic_preserves {β : Type} {f : World → β} (hf : StoreObs f) (msg : Msg)
    (userId : Nat) (key : Key) (env : Env) (retryKey : Key) (retryCount : Option Int)
    (r : TopicRec) (hkey : Allows f key) (hretry : Allows f retryKey)
    (hthread : ∀ t, Allows f (.thread t)) :
    Preserves f (probeTopic msg userId key env retryKey retryCount r) := by
  unfold probeTopic
  dsimp only
  repeat' (first
    | exact Preserves.pure _ _
    | exact Preserves.raise _ _
    | exact Preserves.of_quiet hf (tgCall_quiet _)
    | exact Preserves.of_quiet hf (kvGet_quiet _)
    | exact Preserves.of_quiet hf dateNow_quiet
    | exact Preserves.of_quiet hf (cacheGet_quiet _)
    | exact Preserves.of_quiet hf (cacheSet_quiet _ _)
    | exact Preserves.of_quiet hf (cacheDelete_quiet _)
    | exact createTopic_preserves hf _ _ _ _ hkey hthread
    | exact hretry.1 _ _
    | exact hretry.2
    | exact (hthread _).2
    | refine Preserves.ite ?_ ?_
    | refine Preserves.bind ?_ ?_
    | refine Preserves.tryCatch ?_ ?_
    | intro _)

theorem sendToTopic_preserves {β : Type} {f : World → β} (hf : StoreObs f) (msg : Msg)
    (userId : Nat) (key : Key) (env : Env) (r : TopicRec) (hkey : Allows f key)
    (hthread : ∀ t, Allows f (.thread t)) (hmg : ∀ d g, Allows f (.mg d g)) :
    Preserves f (sendToTopic msg userId key env r) := by
  unfold sendToTopic
  dsimp only
  repeat' (first
    | exact Preserves.pure _ _
    | exact Preserves.raise _ _
    | exact Preserves.of_quiet hf (tgCall_quiet _)
    | exact Preserves.of_quiet hf (cacheDelete_quiet _)
    | exact createTopic_preserves hf _ _ _ _ hkey hthread
    | exact handleMediaGroup_preserves hf _ _ _ _ hmg
    | exact (hthread _).2
    | refine Preserves.ite ?_ ?_
    | refine Preserves.bind ?_ ?_
    | refine Preserves.tryCatch ?_ ?_
    | intro _)

theorem forwardToTopicBody_preserves {β : Type} {f : World → β} (hf : StoreObs f) (msg : Msg)
    (userId : Nat) (key : Key) (env : Env) (hkey : Allows f key)
    (hretry : Allows f (.retry userId))
    (hthread : ∀ t, Allows f (.thread t)) (hmg : ∀ d g, Allows f (.mg d g)) :
    Preserves f (forwardToTopicBody msg userId key env) := by
  unfold forwardToTopicBody
  dsimp only
  repeat' (first
    | exact Preserves.pure _ _
    | exact Preserves.raise _ _
    | exact Preserves.of_quiet hf (tgCall_quiet _)
    | exact Preserves.of_quiet hf (kvGet_quiet _)
    | exact safeGetRec_preserves hf _
    | exact createTopic_preserves hf _ _ _ _ hkey hthread
    | exact probeTopic_preserves hf _ _ _ _ _ _ _ hkey hretry hthread
    | exact sendToTopic_preserves hf _ _ _ _ _ hkey hthread hmg
    | exact hretry.2
    | exact (hthread _).1 _ _
    | refine Preserves.ite ?_ ?_
    | refine Preserves.bind ?_ ?_
    | intro _
    | split)

/-! ## Verification gate: entry (C3) -/

/-- C3. For a user whose `user_challenge:<userId>` lock is present (it holds a
challenge id, a non-empty string), `sendVerificationChallenge` returns at once
and leaves the whole world as it was: nothing is written to the store (no new
`chal:<id>` record, lock unchanged), no gateway call is made. -/
theorem sendVerificationChallenge_locked (w : World) (userId : Nat) (pending : Option Nat)
    (h : truthy (w.store.get w.now (.user_challenge userId)) = true) :
    sendVerificationChallenge userId pending w = (.ok (), w) := by
  simp [sendVerificationChallenge, h]

theorem sendVerificationChallenge_locked_witness :
    truthy (challengedWorld.store.get challengedWorld.now (.user_challenge 7)) = true ∧
      sendVerificationChallenge 7 (some 43) challengedWorld = (.ok (), challengedWorld) :=
  ⟨by decide, sendVerificationChallenge_locked challengedWorld 7 (some 43) (by decide)⟩

/-! ## Verification gate: rejected callbacks (C5, C6) -/

theorem take_succ_append_cons {α : Type} (l : List α) (a : α) (r : List α) :
    (l ++ a :: r).take (l.length + 1) = l ++ [a] := by
  induction l with
  | nil => simp
  | cons x l ih => simpa using ih

theorem alert_quiet (query : CallbackQuery) (text : String) : Quiet (alert query text) := by
  intro w
  cases h : w.gateway w.calls.length <;> simp [alert, tgCall, h]

/-- An alert sent from the `try` block of `handleCallbackQuery` is the first
call made, whatever the gateway does, and the store is not touched. -/
theorem alert_guarded (query : CallbackQuery) (text sys : String) (w : World) :
    RejectedWith query text w (tryCatch (alert query text) (fun _ => alert query sys) w).2 := by
  simp only [RejectedWith, tryCatch, alert, M.bind_apply, tgCall]
  cases w.gateway w.calls.length with
  | resp r => simp
  | netError e =>
    simp only [List.length_append, List.length_singleton]
    cases w.gateway (w.calls.length + 1) with
    | resp r => simp [take_succ_append_cons]
    | netError e => simp [take_succ_append_cons]

theorem handleCallbackQuery_of_alert (query : CallbackQuery) (env : Env) (text : String)
    (w : World) (h : validateCallback query env w = alert query text w) :
    RejectedWith query text w (handleCallbackQuery query env w).2 := by
  have := alert_guarded query text "⚠️ 系统错误，请重试" w
  simpa [handleCallbackQuery, tryCatch, h] using this

theorem validateCallback_expired (query : CallbackQuery) (env : Env) (verifyId idx : String)
    (w : World) (haddr : Addresses query verifyId idx)
    (h : truthy (w.store.get w.now (.chal verifyId)) = false) :
    validateCallback query env w = alert query "❌ 验证已过期，请重发消息" w := by
  obtain ⟨data, p, hd, hs, hsplit⟩ := haddr
  simp [validateCallback, hd, hs, hsplit, h]

theorem validateCallback_foreign (query : CallbackQuery) (env : Env) (verifyId idx : String)
    (w : World) (c : ChalState) (owner : Nat) (haddr : Addresses query verifyId idx)
    (h : w.store.get w.now (.chal verifyId) = some (.chalState c))
    (howner : c.userId = some owner) (h0 : owner ≠ 0) (hne : owner ≠ query.sender.id) :
    validateCallback query env w = alert query "❌ 无效的验证" w := by
  obtain ⟨data, p, hd, hs, hsplit⟩ := haddr
  simp [validateCallback, hd, hs, hsplit, h, truthy, Val.truthy, howner, truthyNum, h0, hne]

theorem validateCallback_outOfRange (query : CallbackQuery) (env : Env) (verifyId idx : String)
    (w : World) (c : ChalState) (haddr : Addresses query verifyId idx)
    (h : w.store.get w.now (.chal verifyId) = some (.chalState c))
    (howner : (truthyNum c.userId && decide (c.userId ≠ some query.sender.id)) = false)
    (hidx : indexOutOfRange (parseInt idx) c.options.length = true) :
    validateCallback query env w = alert query "❌ 无效选项" w := by
  obtain ⟨data, p, hd, hs, hsplit⟩ := haddr
  simp only [Bool.and_eq_false_iff] at howner
  simp [validateCallback, hd, hs, hsplit, h, truthy, Val.truthy, howner, hidx]
  intro h1 h2
  rcases howner with h3 | h3
  · simp [h1] at h3
  · simp [h2] at h3

theorem validateCallback_wrong (query : CallbackQuery) (env : Env) (verifyId idx : String)
    (w : World) (c : ChalState) (haddr : Addresses query verifyId idx)
    (h : w.store.get w.now (.chal verifyId) = some (.chalState c))
    (howner : (truthyNum c.userId && decide (c.userId ≠ some query.sender.id)) = false)
    (hidx : indexOutOfRange (parseInt idx) c.options.length = false)
    (hwrong : parseInt idx ≠ some c.answerIndex) :
    validateCallback query env w = alert query "❌ 答案错误" w := by
  obtain ⟨data, p, hd, hs, hsplit⟩ := haddr
  simp only [Bool.and_eq_false_iff] at howner
  simp [validateCallback, hd, hs, hsplit, h, truthy, Val.truthy, howner, hidx, hwrong]
  intro h1 h2
  rcases howner with h3 | h3
  · simp [h1] at h3
  · simp [h2] at h3

/-- C6. For a callback that addresses the challenge `verifyId` with the index
text `idx`, sent by the caller `query.sender.id`:
* if no live `chal:<verifyId>` record exists, the call is rejected as expired;
* if the record belongs to another user (`owner`, a real, non-zero id), the
  call is rejected as invalid;
* if the selected index `parseInt(idx)` is not an integer in
  `[0, options.length)`, the call is rejected as invalid (as an invalid option
  when the caller passes the owner test, as an invalid verification otherwise).
In each case the rejection alert is the first gateway call and the store is
left unchanged, so no verified marker is written. -/
theorem handleCallbackQuery_rejects (query : CallbackQuery) (env : Env) (verifyId idx : String)
    (w : World) (haddr : Addresses query verifyId idx) :
    (w.store.get w.now (.chal verifyId) = none →
        RejectedWith query "❌ 验证已过期，请重发消息" w (handleCallbackQuery query env w).2) ∧
      (∀ c owner, w.store.get w.now (.chal verifyId) = some (.chalState c) →
        c.userId = some owner → owner ≠ 0 → owner ≠ query.sender.id →
        RejectedWith query "❌ 无效的验证" w (handleCallbackQuery query env w).2) ∧
      (∀ c, w.store.get w.now (.chal verifyId) = some (.chalState c) →
        indexOutOfRange (parseInt idx) c.options.length = true →
        RejectedWith query "❌ 无效选项" w (handleCallbackQuery query env w).2 ∨
        RejectedWith query "❌ 无效的验证" w (handleCallbackQuery query env w).2) := by
  refine ⟨?_, ?_, ?_⟩
  · intro h
    exact handleCallbackQuery_of_alert query env _ w
      (validateCallback_expired query env verifyId idx w haddr (by simp [h, truthy]))
  · intro c owner h howner h0 hne
    exact handleCallbackQuery_of_alert query env _ w
      (validateCallback_foreign query env verifyId idx w c owner haddr h howner h0 hne)
  · intro c h hidx
    cases howner : (truthyNum c.userId && decide (c.userId ≠ some query.sender.id)) with
    | false =>
      exact Or.inl (handleCallbackQuery_of_alert query env _ w
        (validateCallback_outOfRange query env verifyId idx w c haddr h howner hidx))
    | true =>
      right
      apply handleCallbackQuery_of_alert
      obtain ⟨data, p, hd, hs, hsplit⟩ := haddr
      simp only [Bool.and_eq_true, decide_eq_true_eq] at howner
      simp [validateCallback, hd, hs, hsplit, h, truthy, Val.truthy, howner.1, howner.2]

theorem handleCallbackQuery_rejects_witness :
    Addresses (sampleQuery "9") "abcdefghijkl" "9" ∧
      (freshWorld.store.get freshWorld.now (.chal "abcdefghijkl") = none ∧
        RejectedWith (sampleQuery "9") "❌ 验证已过期，请重发消息" freshWorld
          (handleCallbackQuery (sampleQuery "9") sampleEnv freshWorld).2) ∧
      (challengedWorld.store.get challengedWorld.now (.chal "abcdefghijkl")
          = some (.chalState sampleChallenge) ∧
        indexOutOfRange (parseInt "9") sampleChallenge.options.length = true ∧
        (RejectedWith (sampleQuery "9") "❌ 无效选项" challengedWorld
            (handleCallbackQuery (sampleQuery "9") sampleEnv challengedWorld).2 ∨
          RejectedWith (sampleQuery "9") "❌ 无效的验证" challengedWorld
            (handleCallbackQuery (sampleQuery "9") sampleEnv challengedWorld).2)) ∧
      (challengedWorld.store.get challengedWorld.now (.chal "abcdefghijkl")
          = some (.chalState sampleChallenge) ∧
        sampleChallenge.userId = some 7 ∧ (7 : Nat) ≠ 0 ∧
        (7 : Nat) ≠ ({ sampleQuery "9" with sender := { alice with id := 8 } }).sender.id ∧
        RejectedWith { sampleQuery "9" with sender := { alice with id := 8 } } "❌ 无效的验证"
          challengedWorld
          (handleCallbackQuery { sampleQuery "9" with sender := { alice with id := 8 } }
            sampleEnv challengedWorld).2) :=
  ⟨⟨_, "verify", rfl, by decide, by decide⟩,
    ⟨by decide,
      (handleCallbackQuery_rejects (sampleQuery "9") sampleEnv "abcdefghijkl" "9" freshWorld
        ⟨_, "verify", rfl, by decide, by decide⟩).1 (by decide)⟩,
    ⟨by decide, by decide,
      (handleCallbackQuery_rejects (sampleQuery "9") sampleEnv "abcdefghijkl" "9" challengedWorld
        ⟨_, "verify", rfl, by decide, by decide⟩).2.2 sampleChallenge (by decide) (by decide)⟩,
    ⟨by decide, by decide, by decide, by decide,
      (handleCallbackQuery_rejects { sampleQuery "9" with sender := { alice with id := 8 } }
        sampleEnv "abcdefghijkl" "9" challengedWorld
        ⟨_, "verify", rfl, by decide, by decide⟩).2.1 sampleChallenge 7 (by decide) (by decide)
        (by decide) (by decide)⟩⟩

/-! ## Verification gate: wrong answers (C5) -/

theorem validateCallback_foreign_test (query : CallbackQuery) (env : Env)
    (verifyId idx : String) (w : World) (c : ChalState) (haddr : Addresses query verifyId idx)
    (h : w.store.get w.now (.chal verifyId) = some (.chalState c))
    (howner : (truthyNum c.userId && decide (c.userId ≠ some query.sender.id)) = true) :
    validateCallback query env w = alert query "❌ 无效的验证" w := by
  obtain ⟨data, p, hd, hs, hsplit⟩ := haddr
  simp only [Bool.and_eq_true, decide_eq_true_eq] at howner
  simp [validateCallback, hd, hs, hsplit, h, truthy, Val.truthy, howner.1, howner.2]

theorem get_of_find_chal {s : Store} {k : Key} {v : Val} {e : Option Nat} (now : Nat)
    (h : s.find k = some ⟨v, e⟩) : s.get now k = none ∨ s.get now k = some v := by
  simp only [Store.get, h]
  split
  · exact Or.inr rfl
  · exact Or.inl rfl

/-- One wrong guess, at any instant, leaves the store as it was. -/
theorem wrong_guess_keeps_store (env : Env) (verifyId : String) (c : ChalState)
    (e : Option Nat) (query : CallbackQuery) (w : World)
    (hrec : w.store.find (.chal verifyId) = some ⟨.chalState c, e⟩)
    (hguess : WrongGuess verifyId c query) :
    (handleCallbackQuery query env w).2.store = w.store := by
  obtain ⟨idx, i, haddr, hparse, h0, hlt, hne⟩ := hguess
  rcases get_of_find_chal w.now hrec with hget | hget
  · exact (handleCallbackQuery_of_alert query env _ w
      (validateCallback_expired query env verifyId idx w haddr (by simp [hget, truthy]))).1
  · cases howner : (truthyNum c.userId && decide (c.userId ≠ some query.sender.id)) with
    | true =>
      exact (handleCallbackQuery_of_alert query env _ w
        (validateCallback_foreign_test query env verifyId idx w c haddr hget howner)).1
    | false =>
      have hidx : indexOutOfRange (parseInt idx) c.options.length = false := by
        simp [indexOutOfRange, hparse]
        omega
      have hwrong : parseInt idx ≠ some c.answerIndex := by
        simp [hparse, hne]
      exact (handleCallbackQuery_of_alert query env _ w
        (validateCallback_wrong query env verifyId idx w c haddr hget howner hidx hwrong)).1

/-- C5. Wrong guesses never touch the store: for a challenge record stored
under `chal:<verifyId>` and any sequence of callbacks, delivered at any
instants, each selecting an in-range index different from the stored
`answerIndex`, the whole key-value store after the last of them is the store
before the first (challenge, lock and verified marker are as before). -/
theorem wrong_guesses_keep_store (env : Env) (verifyId : String) (c : ChalState)
    (e : Option Nat) (guesses : List (Nat × CallbackQuery)) (w : World)
    (hrec : w.store.find (.chal verifyId) = some ⟨.chalState c, e⟩)
    (hguess : ∀ g ∈ guesses, WrongGuess verifyId c g.2) :
    (handleCallbacks env guesses w).store = w.store := by
  induction guesses generalizing w with
  | nil => rfl
  | cons g rest ih =>
    obtain ⟨t, q⟩ := g
    have hq : WrongGuess verifyId c q := hguess (t, q) (List.mem_cons_self _ _)
    have hstep := wrong_guess_keeps_store env verifyId c e q { w with now := t } hrec hq
    simp only [handleCallbacks]
    rw [ih _ (by rw [hstep]; exact hrec) (fun g hg => hguess g (List.mem_cons_of_mem _ hg))]
    exact hstep

theorem wrong_guesses_keep_store_witness :
    challengedWorld.store.find (.chal "abcdefghijkl")
        = some ⟨.chalState sampleChallenge, some 301000⟩ ∧
      (∀ g ∈ [(2000, sampleQuery "0"), (3000, sampleQuery "1"), (4000, sampleQuery "0")],
        WrongGuess "abcdefghijkl" sampleChallenge g.2) ∧
      (handleCallbacks sampleEnv
          [(2000, sampleQuery "0"), (3000, sampleQuery "1"), (4000, sampleQuery "0")]
          challengedWorld).store = challengedWorld.store :=
  have hg : ∀ g ∈ [(2000, sampleQuery "0"), (3000, sampleQuery "1"), (4000, sampleQuery "0")],
      WrongGuess "abcdefghijkl" sampleChallenge g.2 := by
    intro g hg
    simp only [List.mem_cons, List.mem_singleton, List.not_mem_nil, or_false] at hg
    rcases hg with rfl | rfl | rfl
    · exact ⟨"0", 0, ⟨_, "verify", rfl, by decide, by decide⟩, by decide, by decide, by decide,
        by decide⟩
    · exact ⟨"1", 1, ⟨_, "verify", rfl, by decide, by decide⟩, by decide, by decide, by decide,
        by decide⟩
    · exact ⟨"0", 0, ⟨_, "verify", rfl, by decide, by decide⟩, by decide, by decide, by decide,
        by decide⟩
  ⟨by decide, hg,
    wrong_guesses_keep_store sampleEnv "abcdefghijkl" sampleChallenge (some 301000) _
      challengedWorld (by decide) hg⟩

/-- The answer to a wrong guess of the owner at a live challenge. -/
theorem wrong_guess_answer (env : Env) (verifyId : String) (c : ChalState)
    (query : CallbackQuery) (w : World)
    (hlive : w.store.get w.now (.chal verifyId) = some (.chalState c))
    (howner : c.userId = some query.sender.id)
    (hguess : WrongGuess verifyId c query) :
    RejectedWith query "❌ 答案错误" w (handleCallbackQuery query env w).2 := by
  obtain ⟨idx, i, haddr, hparse, h0, hlt, hne⟩ := hguess
  have hidx : indexOutOfRange (parseInt idx) c.options.length = false := by
    simp [indexOutOfRange, hparse]
    omega
  have hwrong : parseInt idx ≠ some c.answerIndex := by simp [hparse, hne]
  exact handleCallbackQuery_of_alert query env _ w
    (validateCallback_wrong query env verifyId idx w c haddr hlive (by simp [howner]) hidx hwrong)

/-! ## Verification gate: the correct answer (C4) -/

theorem find_storeObs (k : Key) : StoreObs (fun w : World => w.store.find k) :=
  fun _ _ h _ => by simp only [h]

theorem relays_storeObs : StoreObs World.relays := fun _ _ _ h => h

theorem allows_find {k k1 : Key} (h : k1 ≠ k) : Allows (fun w : World => w.store.find k) k1 :=
  ⟨fun _ _ => ⟨fun w => by simp [Store.find_insert_of_ne _ _ h]⟩,
   ⟨fun w => by simp [Store.find_erase_of_ne _ h]⟩⟩

theorem allows_relays (k : Key) : Allows World.relays k :=
  ⟨fun _ _ => ⟨fun _ => rfl⟩, ⟨fun _ => rfl⟩⟩

theorem noteRelay_find (k : Key) (u m : Nat) :
    Preserves (fun w : World => w.store.find k) (noteRelay u m) := ⟨fun _ => rfl⟩

theorem forwardToTopic_preserves_find (k : Key) (msg : Msg) (userId : Nat) (env : Env)
    (huser : Key.user userId ≠ k) (hretry : Key.retry userId ≠ k)
    (hthread : ∀ t, Key.thread t ≠ k) (hmg : ∀ d g, Key.mg d g ≠ k) :
    Preserves (fun w : World => w.store.find k) (forwardToTopic msg userId (.user userId) env) := by
  unfold forwardToTopic
  refine Preserves.bind (noteRelay_find k _ _) ?_
  intro _
  exact forwardToTopicBody_preserves (find_storeObs k) msg userId _ env (allows_find huser)
    (allows_find hretry) (fun t => allows_find (hthread t)) (fun d g => allows_find (hmg d g))

theorem redeliverPending_preserves_find (k : Key) (query : CallbackQuery) (env : Env)
    (userId pending : Nat)
    (huser : Key.user userId ≠ k) (hretry : Key.retry userId ≠ k)
    (hthread : ∀ t, Key.thread t ≠ k) (hmg : ∀ d g, Key.mg d g ≠ k)
    (hfwd : Key.forwarded userId pending ≠ k) :
    Preserves (fun w : World => w.store.find k) (redeliverPending query env userId pending) := by
  unfold redeliverPending
  dsimp only
  repeat' (first
    | exact Preserves.pure _ _
    | exact Preserves.of_quiet (find_storeObs k) (tgCall_quiet _)
    | exact Preserves.of_quiet (find_storeObs k) (kvGet_quiet _)
    | exact forwardToTopic_preserves_find k _ _ _ huser hretry hthread hmg
    | exact (allows_find hfwd).1 _ _
    | refine Preserves.ite ?_ ?_
    | refine Preserves.bind ?_ ?_
    | refine Preserves.tryCatch ?_ ?_
    | intro _)

theorem announceSuccess_preserves_find (k : Key) (query : CallbackQuery) (env : Env)
    (userId : Nat) (pending : Option Nat)
    (huser : Key.user userId ≠ k) (hretry : Key.retry userId ≠ k)
    (hthread : ∀ t, Key.thread t ≠ k) (hmg : ∀ d g, Key.mg d g ≠ k)
    (hfwd : ∀ m, Key.forwarded userId m ≠ k) :
    Preserves (fun w : World => w.store.find k) (announceSuccess query env userId pending) := by
  unfold announceSuccess
  repeat' (first
    | exact Preserves.pure _ _
    | exact Preserves.raise _ _
    | exact Preserves.of_quiet (find_storeObs k) (tgCall_quiet _)
    | exact redeliverPending_preserves_find k _ _ _ _ huser hretry hthread hmg (hfwd _)
    | refine Preserves.ite ?_ ?_
    | refine Preserves.bind ?_ ?_
    | intro _
    | split)

theorem tryCatch_obs {α β : Type} {f : World → β} {m : M α} {h : String → M α}
    (hh : ∀ e, Preserves f (h e)) (w : World) : f (tryCatch m h w).2 = f (m w).2 := by
  simp only [tryCatch]
  cases hmw : m w with
  | mk o w1 =>
    cases o with
    | ok a => rfl
    | thrown e => exact (hh e).same w1

theorem validateCallback_correct (query : CallbackQuery) (env : Env) (verifyId idx : String)
    (w : World) (c : ChalState) (haddr : Addresses query verifyId idx)
    (h : w.store.get w.now (.chal verifyId) = some (.chalState c))
    (howner : c.userId = some query.sender.id)
    (hsel : parseInt idx = some c.answerIndex)
    (hrange : 0 ≤ c.answerIndex ∧ c.answerIndex < (c.options.length : Int)) :
    validateCallback query env w
      = passChallenge query env verifyId query.sender.id c.pending w := by
  obtain ⟨data, p, hd, hs, hsplit⟩ := haddr
  have hidx : indexOutOfRange (some c.answerIndex) c.options.length = false := by
    simp [indexOutOfRange]
    omega
  simp [validateCallback, hd, hs, hsplit, h, truthy, Val.truthy, howner, hsel, hidx]

/-- The store observed at key `k` after a passed challenge whose
acknowledgement the gateway answered. -/
theorem passChallenge_find (k : Key) (query : CallbackQuery) (env : Env) (verifyId : String)
    (userId : Nat) (pending : Option Nat) (w : World) (r : TgResult)
    (hgw : w.gateway w.calls.length = .resp r)
    (huser : Key.user userId ≠ k) (hretry : Key.retry userId ≠ k)
    (hthread : ∀ t, Key.thread t ≠ k) (hmg : ∀ d g, Key.mg d g ≠ k)
    (hfwd : ∀ m, Key.forwarded userId m ≠ k) :
    (passChallenge query env verifyId userId pending w).2.store.find k
      = (((w.store.insert (.verified userId)
            ⟨.text "1", some (w.now + CONFIG.VERIFIED_EXPIRE_SECONDS * 1000)⟩).erase
            (.chal verifyId)).erase (.user_challenge userId)).find k := by
  have h := (announceSuccess_preserves_find k query env userId pending huser hretry hthread hmg
    hfwd).same
  simp only [passChallenge, M.bind_apply, tgCall, hgw, kvPut_apply, kvDelete_apply]
  rw [h]
  simp

/-- C4. For a live challenge and its owner, and a gateway that answers the
acknowledgement call, a callback selecting the stored `answerIndex` leaves the
store with `verified:<userId>` set (value `1`, expiring after the verified
window) and with both `chal:<verifyId>` and `user_challenge:<userId>` absent;
handling the same callback again, from any world that has the resulting store,
answers with the expired alert and changes nothing in the store. -/
theorem correct_answer_verifies_once (query : CallbackQuery) (env : Env)
    (verifyId idx : String) (w : World) (c : ChalState) (r : TgResult)
    (haddr : Addresses query verifyId idx)
    (hlive : w.store.get w.now (.chal verifyId) = some (.chalState c))
    (howner : c.userId = some query.sender.id)
    (hsel : parseInt idx = some c.answerIndex)
    (hrange : 0 ≤ c.answerIndex ∧ c.answerIndex < (c.options.length : Int))
    (hgw : w.gateway w.calls.length = .resp r) :
    (handleCallbackQuery query env w).2.store.find (.verified query.sender.id)
        = some ⟨.text "1", some (w.now + CONFIG.VERIFIED_EXPIRE_SECONDS * 1000)⟩ ∧
      (handleCallbackQuery query env w).2.store.find (.chal verifyId) = none ∧
      (handleCallbackQuery query env w).2.store.find (.user_challenge query.sender.id) = none ∧
      ∀ w2 : World, w2.store = (handleCallbackQuery query env w).2.store →
        RejectedWith query "❌ 验证已过期，请重发消息" w2 (handleCallbackQuery query env w2).2 := by
  have hval := validateCallback_correct query env verifyId idx w c haddr hlive howner hsel hrange
  have key : ∀ k : Key, Key.user query.sender.id ≠ k → Key.retry query.sender.id ≠ k →
      (∀ t, Key.thread t ≠ k) → (∀ d g, Key.mg d g ≠ k) →
      (∀ m, Key.forwarded query.sender.id m ≠ k) →
      (handleCallbackQuery query env w).2.store.find k
        = (((w.store.insert (.verified query.sender.id)
            ⟨.text "1", some (w.now + CONFIG.VERIFIED_EXPIRE_SECONDS * 1000)⟩).erase
            (.chal verifyId)).erase (.user_challenge query.sender.id)).find k := by
    intro k h1 h2 h3 h4 h5
    have hcatch := tryCatch_obs (f := fun w : World => w.store.find k)
      (m := validateCallback query env) (h := fun _ => alert query "⚠️ 系统错误，请重试")
      (fun _ => Preserves.of_quiet (find_storeObs k) (alert_quiet _ _)) w
    simp only [handleCallbackQuery]
    rw [hcatch, hval]
    exact passChallenge_find k query env verifyId _ c.pending w r hgw h1 h2 h3 h4 h5
  have hchal : (handleCallbackQuery query env w).2.store.find (.chal verifyId) = none := by
    rw [key _ (by simp) (by simp) (by simp) (by simp) (by simp)]
    rw [Store.find_erase_of_ne _ (by simp), Store.find_erase_self]
  refine ⟨?_, hchal, ?_, ?_⟩
  · rw [key _ (by simp) (by simp) (by simp) (by simp) (by simp)]
    rw [Store.find_erase_of_ne _ (by simp), Store.find_erase_of_ne _ (by simp),
      Store.find_insert_self]
  · rw [key _ (by simp) (by simp) (by simp) (by simp) (by simp)]
    rw [Store.find_erase_self]
  · intro w2 hw2
    apply handleCallbackQuery_of_alert
    apply validateCallback_expired query env verifyId idx w2 haddr
    simp [Store.get, hw2, hchal, truthy]

theorem correct_answer_verifies_once_witness :
    Addresses (sampleQuery "2") "abcdefghijkl" "2" ∧
      challengedWorld.store.get challengedWorld.now (.chal "abcdefghijkl")
        = some (.chalState sampleChallenge) ∧
      sampleChallenge.userId = some (sampleQuery "2").sender.id ∧
      parseInt "2" = some sampleChallenge.answerIndex ∧
      (0 ≤ sampleChallenge.answerIndex ∧
        sampleChallenge.answerIndex < (sampleChallenge.options.length : Int)) ∧
      challengedWorld.gateway challengedWorld.calls.length
        = .resp { ok := true, result := some { message_thread_id := some 5, message_id := some 900 },
                  description := none } ∧
      ((handleCallbackQuery (sampleQuery "2") sampleEnv challengedWorld).2.store.find (.verified 7)
          = some ⟨.text "1", some (1000 + CONFIG.VERIFIED_EXPIRE_SECONDS * 1000)⟩ ∧
        (handleCallbackQuery (sampleQuery "2") sampleEnv challengedWorld).2.store.find
          (.chal "abcdefghijkl") = none ∧
        (handleCallbackQuery (sampleQuery "2") sampleEnv challengedWorld).2.store.find
          (.user_challenge 7) = none ∧
        ∀ w2 : World,
          w2.store = (handleCallbackQuery (sampleQuery "2") sampleEnv challengedWorld).2.store →
          RejectedWith (sampleQuery "2") "❌ 验证已过期，请重发消息" w2
            (handleCallbackQuery (sampleQuery "2") sampleEnv w2).2) :=
  ⟨⟨_, "verify", rfl, by decide, by decide⟩, by decide, by decide, by decide, by decide, rfl,
    correct_answer_verifies_once (sampleQuery "2") sampleEnv "abcdefghijkl" "2" challengedWorld
      sampleChallenge _ ⟨_, "verify", rfl, by decide, by decide⟩ (by decide) (by decide)
      (by decide) (by decide) rfl⟩

/-! ## Verification gate: redelivery of the pending message (C8) -/

theorem adds_of_preserves {α : Type} {n : Nat} {m : M α} (h : Preserves World.relays m) :
    Adds n m :=
  ⟨fun w => ⟨[], by simpa using h.same w, Nat.zero_le _⟩⟩

theorem adds_bind_after {α γ : Type} {n : Nat} {m : M α} {g : α → M γ}
    (hm : Preserves World.relays m) (hg : ∀ a, Adds n (g a)) : Adds n (m >>= g) := by
  constructor
  intro w
  have h1 := hm.same w
  simp only [M.bind_apply]
  cases hmw : m w with
  | mk o w1 =>
    rw [hmw] at h1
    simp only at h1
    cases o with
    | ok a =>
      obtain ⟨l, hl, hlen⟩ := (hg a).grows w1
      refine ⟨l, ?_, hlen⟩
      show (g a w1).2.relays = w.relays ++ l
      rw [hl, h1]
    | thrown e => exact ⟨[], by simpa using h1, Nat.zero_le _⟩

theorem adds_bind_before {α γ : Type} {n : Nat} {m : M α} {g : α → M γ}
    (hm : Adds n m) (hg : ∀ a, Preserves World.relays (g a)) : Adds n (m >>= g) := by
  constructor
  intro w
  obtain ⟨l, hl, hlen⟩ := hm.grows w
  simp only [M.bind_apply]
  cases hmw : m w with
  | mk o w1 =>
    rw [hmw] at hl
    simp only at hl
    cases o with
    | ok a =>
      refine ⟨l, ?_, hlen⟩
      show (g a w1).2.relays = w.relays ++ l
      rw [(hg a).same w1, hl]
    | thrown e => exact ⟨l, by simpa using hl, hlen⟩

theorem adds_tryCatch {α : Type} {n : Nat} {m : M α} {h : String → M α}
    (hm : Adds n m) (hh : ∀ e, Preserves World.relays (h e)) : Adds n (tryCatch m h) := by
  constructor
  intro w
  obtain ⟨l, hl, hlen⟩ := hm.grows w
  exact ⟨l, by rw [tryCatch_obs (f := World.relays) hh w]; exact hl, hlen⟩

theorem adds_ite {α : Type} {n : Nat} {c : Prop} [Decidable c] {m1 m2 : M α}
    (h1 : Adds n m1) (h2 : Adds n m2) : Adds n (if c then m1 else m2) := by
  split
  · exact h1
  · exact h2

theorem forwardToTopicBody_relays (msg : Msg) (userId : Nat) (key : Key) (env : Env) :
    Preserves World.relays (forwardToTopicBody msg userId key env) :=
  forwardToTopicBody_preserves relays_storeObs msg userId key env (allows_relays _)
    (allows_relays _) (fun _ => allows_relays _) (fun _ _ => allows_relays _)

/-- Every entry into `forwardToTopic` is recorded, once. -/
theorem forwardToTopic_relays (msg : Msg) (userId : Nat) (key : Key) (env : Env) (w : World) :
    (forwardToTopic msg userId key env w).2.relays = w.relays ++ [(userId, msg.message_id)] := by
  have h := (forwardToTopicBody_relays msg userId key env).same
  simp only [forwardToTopic, M.bind_apply, noteRelay]
  rw [h]

theorem forwardToTopic_adds (msg : Msg) (userId : Nat) (key : Key) (env : Env) :
    Adds 1 (forwardToTopic msg userId key env) :=
  ⟨fun w => ⟨[(userId, msg.message_id)], forwardToTopic_relays msg userId key env w, le_refl _⟩⟩

theorem redeliverPending_adds (query : CallbackQuery) (env : Env) (userId pending : Nat) :
    Adds 1 (redeliverPending query env userId pending) := by
  unfold redeliverPending
  dsimp only
  refine adds_tryCatch ?_ ?_
  · refine adds_bind_after (Preserves.of_quiet relays_storeObs (kvGet_quiet _)) ?_
    intro a
    refine adds_ite (adds_of_preserves (Preserves.pure _ _)) ?_
    refine adds_bind_before (forwardToTopic_adds _ _ _ _) ?_
    intro _
    refine Preserves.bind ((allows_relays _).1 _ _) ?_
    intro _
    refine Preserves.bind (Preserves.of_quiet relays_storeObs (tgCall_quiet _)) ?_
    intro _
    exact Preserves.pure _ _
  · intro _
    refine Preserves.bind (Preserves.of_quiet relays_storeObs (tgCall_quiet _)) ?_
    intro _
    exact Preserves.pure _ _

theorem announceSuccess_adds (query : CallbackQuery) (env : Env) (userId : Nat)
    (pending : Option Nat) : Adds 1 (announceSuccess query env userId pending) := by
  unfold announceSuccess
  split
  · exact adds_of_preserves (Preserves.raise _ _)
  · refine adds_bind_after (Preserves.of_quiet relays_storeObs (tgCall_quiet _)) ?_
    intro _
    split
    · exact adds_ite (redeliverPending_adds _ _ _ _) (adds_of_preserves (Preserves.pure _ _))
    · exact adds_of_preserves (Preserves.pure _ _)

theorem passChallenge_adds (query : CallbackQuery) (env : Env) (verifyId : String)
    (userId : Nat) (pending : Option Nat) :
    Adds 1 (passChallenge query env verifyId userId pending) := by
  unfold passChallenge
  refine adds_bind_after (Preserves.of_quiet relays_storeObs (tgCall_quiet _)) ?_
  intro _
  refine adds_bind_after ((allows_relays _).1 _ _) ?_
  intro _
  refine adds_bind_after (allows_relays _).2 ?_
  intro _
  refine adds_bind_after (allows_relays _).2 ?_
  intro _
  exact announceSuccess_adds _ _ _ _

/-- A passed challenge either relays nothing or leaves the challenge record
deleted. -/
theorem passChallenge_relays_or_deleted (query : CallbackQuery) (env : Env)
    (verifyId : String) (userId : Nat) (pending : Option Nat) (w : World) :
    (passChallenge query env verifyId userId pending w).2.relays = w.relays ∨
      (passChallenge query env verifyId userId pending w).2.store.find (.chal verifyId)
        = none := by
  cases hgw : w.gateway w.calls.length with
  | netError e =>
    left
    simp [passChallenge, tgCall, hgw]
  | resp r =>
    right
    rw [passChallenge_find (.chal verifyId) query env verifyId userId pending w r hgw
      (by simp) (by simp) (by simp) (by simp) (by simp)]
    rw [Store.find_erase_of_ne _ (by simp), Store.find_erase_self]

theorem alert_relays (query : CallbackQuery) (text : String) :
    Preserves World.relays (alert query text) :=
  Preserves.of_quiet relays_storeObs (alert_quiet query text)

/-- The `try` block of `handleCallbackQuery` either leaves the relay history as
it was or runs the success branch for the challenge the query addresses. -/
theorem validateCallback_cases (query : CallbackQuery) (env : Env) (w : World) :
    (validateCallback query env w).2.relays = w.relays ∨
      ∃ verifyId idx pending, Addresses query verifyId idx ∧
        validateCallback query env w
          = passChallenge query env verifyId query.sender.id pending w := by
  have hal : ∀ text, (alert query text w).2.relays = w.relays :=
    fun text => (alert_relays query text).same w
  cases hdata : query.data with
  | none => left; simp [validateCallback, hdata]
  | some data =>
    by_cases hs : jsStartsWith data "verify:" = true
    · rcases hsplit : jsSplitColon data with _ | ⟨p, _ | ⟨v, _ | ⟨idx, _ | ⟨x, rest⟩⟩⟩⟩
      · left; simp [validateCallback, hdata, hs, hsplit]
      · left; simp [validateCallback, hdata, hs, hsplit]
      · left; simp [validateCallback, hdata, hs, hsplit]
      · have haddr : Addresses query v idx := ⟨data, p, hdata, hs, hsplit⟩
        cases hget : w.store.get w.now (.chal v) with
        | none =>
          left
          rw [validateCallback_expired query env v idx w haddr (by simp [hget, truthy])]
          exact hal _
        | some val =>
          cases val with
          | text s =>
            left
            by_cases ht : s.data.isEmpty = true
            · rw [validateCallback_expired query env v idx w haddr
                (by simp [hget, truthy, Val.truthy, ht])]
              exact hal _
            · have : validateCallback query env w = alert query "❌ 数据错误" w := by
                simp [validateCallback, hdata, hs, hsplit, hget, truthy, Val.truthy, ht]
              rw [this]
              exact hal _
          | chalState c =>
            cases howner : (truthyNum c.userId && decide (c.userId ≠ some query.sender.id)) with
            | true =>
              left
              rw [validateCallback_foreign_test query env v idx w c haddr hget howner]
              exact hal _
            | false =>
              cases hidx : indexOutOfRange (parseInt idx) c.options.length with
              | true =>
                left
                rw [validateCallback_outOfRange query env v idx w c haddr hget howner hidx]
                exact hal _
              | false =>
                by_cases hsel : parseInt idx = some c.answerIndex
                · right
                  refine ⟨v, idx, c.pending, haddr, ?_⟩
                  have ho : ¬ (truthyNum c.userId = true ∧ ¬ c.userId = some query.sender.id) := by
                    intro h
                    simp [h.1, h.2] at howner
                  rw [hsel] at hidx
                  simp [validateCallback, hdata, hs, hsplit, hget, truthy, Val.truthy, hidx,
                    hsel, ho]
                · left
                  rw [validateCallback_wrong query env v idx w c haddr hget howner hidx hsel]
                  exact hal _
          | topicRec r =>
            left
            cases hp : parseInt idx with
            | none =>
              have : validateCallback query env w = alert query "❌ 无效选项" w := by
                simp [validateCallback, hdata, hs, hsplit, hget, truthy, Val.truthy, hp]
              rw [this]
              exact hal _
            | some x =>
              by_cases hx : x < 0
              · have : validateCallback query env w = alert query "❌ 无效选项" w := by
                  simp [validateCallback, hdata, hs, hsplit, hget, truthy, Val.truthy, hp, hx]
                rw [this]
                exact hal _
              · simp [validateCallback, hdata, hs, hsplit, hget, truthy, Val.truthy, hp, hx]
          | mediaBuf b =>
            left
            cases hp : parseInt idx with
            | none =>
              have : validateCallback query env w = alert query "❌ 无效选项" w := by
                simp [validateCallback, hdata, hs, hsplit, hget, truthy, Val.truthy, hp]
              rw [this]
              exact hal _
            | some x =>
              by_cases hx : x < 0
              · have : validateCallback query env w = alert query "❌ 无效选项" w := by
                  simp [validateCallback, hdata, hs, hsplit, hget, truthy, Val.truthy, hp, hx]
                rw [this]
                exact hal _
              · simp [validateCallback, hdata, hs, hsplit, hget, truthy, Val.truthy, hp, hx]
      · left; simp [validateCallback, hdata, hs, hsplit]
    · left; simp [validateCallback, hdata, hs]

/-- One handling of a callback appends at most one entry to the relay
history. -/
theorem handleCallbackQuery_adds (query : CallbackQuery) (env : Env) :
    Adds 1 (handleCallbackQuery query env) := by
  unfold handleCallbackQuery
  refine adds_tryCatch ?_ (fun _ => alert_relays _ _)
  constructor
  intro w
  rcases validateCallback_cases query env w with h | ⟨v, idx, p, _, h⟩
  · exact ⟨[], by simpa using h, Nat.zero_le _⟩
  · rw [h]
    exact (passChallenge_adds query env v _ p).grows w

/-- One handling of a callback either relays nothing or leaves the addressed
challenge record deleted. -/
theorem handleCallbackQuery_relays_or_deleted (query : CallbackQuery) (env : Env) (w : World) :
    (handleCallbackQuery query env w).2.relays = w.relays ∨
      ∃ verifyId idx, Addresses query verifyId idx ∧
        (handleCallbackQuery query env w).2.store.find (.chal verifyId) = none := by
  have hrel := tryCatch_obs (f := World.relays) (m := validateCallback query env)
    (h := fun _ => alert query "⚠️ 系统错误，请重试") (fun _ => alert_relays _ _) w
  rcases validateCallback_cases query env w with h | ⟨v, idx, p, haddr, h⟩
  · left
    simp only [handleCallbackQuery]
    rw [hrel, h]
  · rcases passChallenge_relays_or_deleted query env v query.sender.id p w with h1 | h1
    · left
      simp only [handleCallbackQuery]
      rw [hrel, h, h1]
    · right
      refine ⟨v, idx, haddr, ?_⟩
      have hfind := tryCatch_obs (f := fun w : World => w.store.find (.chal v))
        (m := validateCallback query env) (h := fun _ => alert query "⚠️ 系统错误，请重试")
        (fun _ => Preserves.of_quiet (find_storeObs _) (alert_quiet _ _)) w
      simp only [handleCallbackQuery]
      rw [hfind, h, h1]

theorem addresses_unique {query : CallbackQuery} {v v1 idx idx1 : String}
    (h : Addresses query v idx) (h1 : Addresses query v1 idx1) : v = v1 := by
  obtain ⟨d, p, hd, _, hs⟩ := h
  obtain ⟨d1, p1, hd1, _, hs1⟩ := h1
  rw [hd] at hd1
  cases hd1
  rw [hs] at hs1
  simp at hs1
  exact hs1.2.1

/-- C8. When one callback query is handled twice in sequence (the second
handling starts, at any instant, from the store and the relay history the
first one left), `forwardToTopic` is entered at most once across both runs:
for every user `u` and message id `m` the relay history gains at most one
entry `(u, m)` — in particular for the pending message of the challenge that
the success callback answers. -/
theorem pending_redelivered_at_most_once (query : CallbackQuery) (env : Env) (w w2 : World)
    (u m : Nat)
    (hstore : w2.store = (handleCallbackQuery query env w).2.store)
    (hrelays : w2.relays = (handleCallbackQuery query env w).2.relays) :
    List.count (u, m) (handleCallbackQuery query env w2).2.relays
      ≤ List.count (u, m) w.relays + 1 := by
  have total : ∃ l, (handleCallbackQuery query env w2).2.relays = w.relays ++ l ∧
      l.length ≤ 1 := by
    obtain ⟨l1, hl1, hlen1⟩ := (handleCallbackQuery_adds query env).grows w
    obtain ⟨l2, hl2, hlen2⟩ := (handleCallbackQuery_adds query env).grows w2
    rcases handleCallbackQuery_relays_or_deleted query env w with h | ⟨v, idx, haddr, hdel⟩
    · exact ⟨l2, by rw [hl2, hrelays, h], hlen2⟩
    · refine ⟨l1, ?_, hlen1⟩
      have hexp : validateCallback query env w2 = alert query "❌ 验证已过期，请重发消息" w2 :=
        validateCallback_expired query env v idx w2 haddr
          (by simp [Store.get, hstore, hdel, truthy])
      have hrel := tryCatch_obs (f := World.relays) (m := validateCallback query env)
        (h := fun _ => alert query "⚠️ 系统错误，请重试") (fun _ => alert_relays _ _) w2
      simp only [handleCallbackQuery]
      rw [hrel, hexp, (alert_relays _ _).same w2, hrelays, ← hl1]
  obtain ⟨l, hl, hlen⟩ := total
  rw [hl, List.count_append]
  have : List.count (u, m) l ≤ l.length := List.count_le_length _ _
  omega

theorem pending_redelivered_at_most_once_witness :
    ({ (handleCallbackQuery (sampleQuery "2") sampleEnv challengedWorld).2 with now := 5000 }
        : World).store = (handleCallbackQuery (sampleQuery "2") sampleEnv challengedWorld).2.store ∧
      ({ (handleCallbackQuery (sampleQuery "2") sampleEnv challengedWorld).2 with now := 5000 }
        : World).relays
        = (handleCallbackQuery (sampleQuery "2") sampleEnv challengedWorld).2.relays ∧
      List.count (7, 42)
          (handleCallbackQuery (sampleQuery "2") sampleEnv
            { (handleCallbackQuery (sampleQuery "2") sampleEnv challengedWorld).2
              with now := 5000 }).2.relays
        ≤ List.count (7, 42) challengedWorld.relays + 1 :=
  ⟨rfl, rfl,
    pending_redelivered_at_most_once (sampleQuery "2") sampleEnv challengedWorld
      { (handleCallbackQuery (sampleQuery "2") sampleEnv challengedWorld).2 with now := 5000 }
      7 42 rfl rfl⟩

/-- In the sample world the first handling of the success callback does relay
the pending message `42` of user `7`, and the second handling relays nothing
more. -/
theorem pending_redelivered_sample :
    (handleCallbackQuery (sampleQuery "2") sampleEnv challengedWorld).2.relays = [(7, 42)] ∧
      (handleCallbackQuery (sampleQuery "2") sampleEnv
        { (handleCallbackQuery (sampleQuery "2") sampleEnv challengedWorld).2
          with now := 5000 }).2.relays = [(7, 42)] := by
  decide

/-! ## Challenge construction (C7) -/

theorem cons_set_perm {α : Type} (x y : α) : ∀ (t : List α) (j : Nat), t[j]? = some y →
    (y :: t.set j x).Perm (x :: t)
  | [], j, h => by simp at h
  | h' :: t', 0, h => by
    simp at h
    subst h
    simpa using List.Perm.swap x h' t'
  | h' :: t', k + 1, h => by
    simp at h
    have ih := cons_set_perm x y t' k h
    simp only [List.set_cons_succ]
    exact ((List.Perm.swap h' y _).trans (ih.cons h')).trans (List.Perm.swap x h' t')

theorem swapAt_perm {α : Type} : ∀ (a : List α) (i j : Nat), (swapAt a i j).Perm a
  | [], i, j => by simp [swapAt]
  | h :: t, 0, 0 => by simp [swapAt]
  | h :: t, 0, j + 1 => by
    simp only [swapAt, List.getElem?_cons_zero, List.getElem?_cons_succ]
    cases hj : t[j]? with
    | none => exact List.Perm.refl _
    | some y =>
      simp only [List.set_cons_zero, List.set_cons_succ]
      exact cons_set_perm h y t j hj
  | h :: t, i + 1, 0 => by
    simp only [swapAt, List.getElem?_cons_zero, List.getElem?_cons_succ]
    cases hi : t[i]? with
    | none => exact List.Perm.refl _
    | some x =>
      simp only [List.set_cons_zero, List.set_cons_succ]
      exact cons_set_perm h x t i hi
  | h :: t, i + 1, j + 1 => by
    have ih := swapAt_perm t i j
    simp only [swapAt, List.getElem?_cons_succ] at ih ⊢
    cases hi : t[i]? with
    | none => exact List.Perm.refl _
    | some x =>
      cases hj : t[j]? with
      | none => exact List.Perm.refl _
      | some y =>
        simp only [hi, hj] at ih
        simp only [List.set_cons_succ]
        exact ih.cons h

/-- The shuffle loop returns a permutation of its input and only consumes
entropy. -/
theorem shuffleLoop_spec {α : Type} : ∀ (i : Nat) (a : List α) (w : World),
    ∃ out : List α, shuffleLoop i a w = (.ok out, { w with drawn := w.drawn + i }) ∧ out.Perm a
  | 0, a, w => ⟨a, rfl, List.Perm.refl _⟩
  | i + 1, a, w => by
    obtain ⟨out, hout, hperm⟩ := shuffleLoop_spec i
      (swapAt a (i + 1) (0 + (w.entropy w.drawn % 2 ^ 32) % (i + 1 + 1 - 0)))
      { w with drawn := w.drawn + 1 }
    refine ⟨out, ?_, hperm.trans (swapAt_perm _ _ _)⟩
    simp only [shuffleLoop, secureRandomInt, randomValue, M.bind_apply, M.pure_apply]
    rw [hout]
    simp only [Prod.mk.injEq, true_and]
    congr 1
    omega

theorem shuffleArray_spec {α : Type} (a : List α) (w : World) :
    ∃ out : List α, shuffleArray a w = (.ok out, { w with drawn := w.drawn + (a.length - 1) }) ∧
      out.Perm a :=
  shuffleLoop_spec (a.length - 1) a w

theorem randomBytes_spec : ∀ (n : Nat) (w : World),
    ∃ bs : List Nat, randomBytes n w = (.ok bs, { w with drawn := w.drawn + n }) ∧ bs.length = n
  | 0, w => ⟨[], rfl, rfl⟩
  | n + 1, w => by
    obtain ⟨bs, hbs, hlen⟩ := randomBytes_spec n { w with drawn := w.drawn + 1 }
    refine ⟨(w.entropy w.drawn % 2 ^ 8) :: bs, ?_, by simp [hlen]⟩
    simp only [randomBytes, randomValue, M.bind_apply, M.pure_apply]
    rw [hbs]
    simp only [Prod.mk.injEq, true_and]
    congr 1
    omega

theorem secureRandomId_spec (n : Nat) (w : World) :
    ∃ id : String, secureRandomId n w = (.ok id, { w with drawn := w.drawn + n }) ∧
      id.data.length = n := by
  obtain ⟨bs, hbs, hlen⟩ := randomBytes_spec n w
  refine ⟨String.mk (bs.map (fun b => idChars.getD (b % idChars.length) 'a')), ?_, by simp [hlen]⟩
  simp only [secureRandomId, M.bind_apply, M.pure_apply]
  rw [hbs]

theorem indexOfFrom_spec (x : String) : ∀ (l : List String) (i : Int), x ∈ l →
    ∃ k : Nat, k < l.length ∧ indexOfFrom i x l = i + k ∧ l[k]? = some x
  | [], _, h => by simp at h
  | y :: ys, i, h => by
    by_cases hy : y = x
    · exact ⟨0, by simp, by simp [indexOfFrom, hy], by simp [hy]⟩
    · have hx : x ∈ ys := by
        rcases List.mem_cons.mp h with h1 | h1
        · exact absurd h1.symm hy
        · exact h1
      obtain ⟨k, hk, hidx, hget⟩ := indexOfFrom_spec x ys (i + 1) hx
      refine ⟨k + 1, by simp [hk], ?_, by simpa using hget⟩
      simp only [indexOfFrom, hy, if_false, hidx]
      push_cast
      ring

theorem nodup_getElem?_unique {l : List String} (hl : l.Nodup) {j k : Nat} {x : String}
    (hj : l[j]? = some x) (hk : l[k]? = some x) : j = k := by
  obtain ⟨hj1, hj2⟩ := List.getElem?_eq_some_iff.mp hj
  obtain ⟨hk1, hk2⟩ := List.getElem?_eq_some_iff.mp hk
  exact (List.Nodup.getElem_inj_iff hl).mp (hj2.trans hk2.symm)

/-- Every question of the bank has four pairwise different options. -/
theorem LOCAL_QUESTIONS_options : ∀ q ∈ LOCAL_QUESTIONS,
    (q.incorrect_answers ++ [q.correct_answer]).Nodup ∧
      (q.incorrect_answers ++ [q.correct_answer]).length = 4 := by
  decide

theorem LOCAL_QUESTIONS_length : LOCAL_QUESTIONS.length = 15 := rfl

/-- The store after `sendVerificationChallenge` issued a challenge. -/
theorem sendVerificationChallenge_store (w : World) (userId : Nat) (pending : Option Nat)
    (q : Question)
    (hfree : truthy (w.store.get w.now (.user_challenge userId)) = false)
    (hq : LOCAL_QUESTIONS[(w.entropy w.drawn % 2 ^ 32) % 15]? = some q) :
    ∃ (verifyId : String) (options : List String),
      options.Perm (q.incorrect_answers ++ [q.correct_answer]) ∧
      verifyId.data.length = CONFIG.VERIFY_ID_LENGTH ∧
      (sendVerificationChallenge userId pending w).2.store
        = (w.store.insert (.chal verifyId)
            ⟨.chalState { answerIndex := jsIndexOf options q.correct_answer, options := options,
                          pending := pending, userId := some userId },
             some (w.now + CONFIG.VERIFY_EXPIRE_SECONDS * 1000)⟩).insert
            (.user_challenge userId)
            ⟨.text verifyId, some (w.now + CONFIG.VERIFY_EXPIRE_SECONDS * 1000)⟩ := by
  obtain ⟨options, hsh, hperm⟩ := shuffleArray_spec (q.incorrect_answers ++ [q.correct_answer])
    { w with drawn := w.drawn + 1 }
  obtain ⟨verifyId, hid, hidlen⟩ := secureRandomId_spec CONFIG.VERIFY_ID_LENGTH
    { w with drawn := w.drawn + 1 + ((q.incorrect_answers ++ [q.correct_answer]).length - 1) }
  refine ⟨verifyId, options, hperm, hidlen, ?_⟩
  simp only [sendVerificationChallenge, M.bind_apply, kvGet_apply, hfree, Bool.false_eq_true,
    if_false, secureRandomInt, randomValue, M.pure_apply, LOCAL_QUESTIONS_length, Nat.sub_zero,
    Nat.zero_add, hq, hsh, hid, kvPut_apply, tgCall]
  cases hgw : w.gateway w.calls.length <;> simp

/-- C7. Whenever `sendVerificationChallenge` issues a challenge (no lock is
present), for every value of the entropy source: the question `q` is the bank
entry selected by the first random word, and the challenge persisted under
`chal:<verifyId>` has an option list that is a permutation of the three
incorrect answers of `q` plus its correct answer (4 options), while its
`answerIndex` is a valid position that holds the correct answer, the only
position that does. -/
theorem challenge_options_shuffled (w : World) (userId : Nat) (pending : Option Nat)
    (hfree : truthy (w.store.get w.now (.user_challenge userId)) = false) :
    ∃ (q : Question) (verifyId : String) (c : ChalState) (k : Nat),
      q ∈ LOCAL_QUESTIONS ∧
      LOCAL_QUESTIONS[(w.entropy w.drawn % 2 ^ 32) % 15]? = some q ∧
      (sendVerificationChallenge userId pending w).2.store.find (.chal verifyId)
        = some ⟨.chalState c, some (w.now + CONFIG.VERIFY_EXPIRE_SECONDS * 1000)⟩ ∧
      c.options.Perm (q.incorrect_answers ++ [q.correct_answer]) ∧
      c.options.length = 4 ∧
      c.answerIndex = (k : Int) ∧ k < c.options.length ∧
      c.options[k]? = some q.correct_answer ∧
      ∀ j, c.options[j]? = some q.correct_answer → j = k := by
  have hlt : (w.entropy w.drawn % 2 ^ 32) % 15 < LOCAL_QUESTIONS.length := by
    rw [LOCAL_QUESTIONS_length]
    exact Nat.mod_lt _ (by decide)
  obtain ⟨q, hq⟩ : ∃ q, LOCAL_QUESTIONS[(w.entropy w.drawn % 2 ^ 32) % 15]? = some q :=
    ⟨_, List.getElem?_eq_getElem hlt⟩
  have hmem : q ∈ LOCAL_QUESTIONS := List.getElem?_mem hq
  obtain ⟨hnodup, hfour⟩ := LOCAL_QUESTIONS_options q hmem
  obtain ⟨verifyId, options, hperm, _, hstore⟩ :=
    sendVerificationChallenge_store w userId pending q hfree hq
  have hin : q.correct_answer ∈ options := hperm.mem_iff.mpr (by simp)
  obtain ⟨k, hk, hidx, hget⟩ := indexOfFrom_spec q.correct_answer options 0 hin
  refine ⟨q, verifyId,
    { answerIndex := jsIndexOf options q.correct_answer, options := options,
      pending := pending, userId := some userId }, k, hmem, hq, ?_, hperm, ?_, ?_, hk, hget, ?_⟩
  · rw [hstore, Store.find_insert_of_ne _ _ (by simp), Store.find_insert_self]
  · rw [hperm.length_eq, hfour]
  · simpa [jsIndexOf] using hidx
  · intro j hj
    exact nodup_getElem?_unique (hperm.nodup_iff.mpr hnodup) hj hget

theorem challenge_options_shuffled_witness :
    truthy (freshWorld.store.get freshWorld.now (.user_challenge 7)) = false ∧
      ∃ (q : Question) (verifyId : String) (c : ChalState) (k : Nat),
        q ∈ LOCAL_QUESTIONS ∧
        LOCAL_QUESTIONS[(freshWorld.entropy freshWorld.drawn % 2 ^ 32) % 15]? = some q ∧
        (sendVerificationChallenge 7 (some 42) freshWorld).2.store.find (.chal verifyId)
          = some ⟨.chalState c, some (freshWorld.now + CONFIG.VERIFY_EXPIRE_SECONDS * 1000)⟩ ∧
        c.options.Perm (q.incorrect_answers ++ [q.correct_answer]) ∧
        c.options.length = 4 ∧
        c.answerIndex = (k : Int) ∧ k < c.options.length ∧
        c.options[k]? = some q.correct_answer ∧
        ∀ j, c.options[j]? = some q.correct_answer → j = k :=
  ⟨by decide, challenge_options_shuffled freshWorld 7 (some 42) (by decide)⟩


/-! ## Verification gate: re-entry after a challenge was issued -/

/-- Re-triggering verification before the challenge expires: once
`sendVerificationChallenge` has issued a challenge for a user, a further call
for that user at any instant before the expiry of the lock, with any pending
message, returns at once and leaves the world as it was, so no second
challenge comes to exist. -/
theorem sendVerificationChallenge_retrigger (w : World) (userId : Nat)
    (pending pending2 : Option Nat) (t : Nat)
    (hfree : truthy (w.store.get w.now (.user_challenge userId)) = false)
    (ht : t < w.now + CONFIG.VERIFY_EXPIRE_SECONDS * 1000) :
    sendVerificationChallenge userId pending2
        { (sendVerificationChallenge userId pending w).2 with now := t }
      = (.ok (), { (sendVerificationChallenge userId pending w).2 with now := t }) := by
  have hlt : (w.entropy w.drawn % 2 ^ 32) % 15 < LOCAL_QUESTIONS.length := by
    rw [LOCAL_QUESTIONS_length]
    exact Nat.mod_lt _ (by decide)
  obtain ⟨verifyId, options, _, hlen, hstore⟩ :=
    sendVerificationChallenge_store w userId pending _ hfree (List.getElem?_eq_getElem hlt)
  have hne : verifyId.data.isEmpty = false := by
    cases hd : verifyId.data with
    | nil => simp [hd, CONFIG.VERIFY_ID_LENGTH] at hlen
    | cons c cs => rfl
  generalize (sendVerificationChallenge userId pending w).2 = W at hstore ⊢
  have hlock : truthy (W.store.get t (.user_challenge userId)) = true := by
    simp only [hstore, Store.get_insert_self, Entry.live, ht, decide_True, if_true, truthy,
      Val.truthy, hne, Bool.not_false]
  simp only [sendVerificationChallenge, M.bind_apply, kvGet_apply, hlock, if_true, M.pure_apply]

/-! ## Self-healing of the topic (C9, C1, C10) -/

@[simp] theorem cacheGet_apply (k : Nat) (w : World) :
    cacheGet (some k) w = (.ok (cacheFind w.cache k), w) := rfl

@[simp] theorem cacheDelete_apply (k : Nat) (w : World) :
    cacheDelete (some k) w
      = (.ok (), { w with cache := w.cache.filter (fun p => decide (p.1 ≠ k)) }) := rfl

/-- A successful `createTopic`: one gateway call, the record and the reverse
index are written. -/
theorem createTopic_created (sender : Sender) (key : Key) (env : Env) (userId : Nat)
    (w : World) (cr : TgResult) (m : TgMessage)
    (henv : jsStartsWith env.SUPERGROUP_ID "-100" = true)
    (hgw : w.gateway w.calls.length = .resp cr) (hok : cr.ok = true)
    (hres : cr.result = some m) (hu : userId ≠ 0) :
    createTopic sender key env userId w
      = (.ok (newRec sender m.message_thread_id),
         { w with
           calls := w.calls ++ [.createForumTopic .supergroup (buildTopicTitle sender)],
           store := (w.store.insert key ⟨.topicRec (newRec sender m.message_thread_id), none⟩).insert
             (.thread m.message_thread_id) ⟨.text (jsString (some (userId : Int))), none⟩ }) := by
  simp [createTopic, tgCall, henv, hgw, hok, hres, hu, newRec]

/-- The health check on a topic whose probe comes back failed, without the
topic id or with another topic id: whatever the error description, the retry
counter is incremented, the reverse index of the old topic is deleted and the
topic is recreated. -/
theorem probeTopic_repairs (msg : Msg) (userId : Nat) (key : Key) (env : Env) (retryKey : Key)
    (retryCount : Option Int) (r : TopicRec) (w : World) (T N : Nat) (tr cr : TgResult)
    (m : TgMessage)
    (hT : r.thread_id = some T)
    (hdue : ProbeDue w T)
    (hprobe : w.gateway w.calls.length = .resp tr)
    (hlost : probeReportsLoss tr T = true)
    (henv : jsStartsWith env.SUPERGROUP_ID "-100" = true)
    (hcreate : w.gateway (w.calls.length + 1) = .resp cr) (hok : cr.ok = true)
    (hres : cr.result = some m) (hN : m.message_thread_id = some N) (hN0 : N ≠ 0)
    (hu : userId ≠ 0) :
    probeTopic msg userId key env retryKey retryCount r w
      = (.ok (newRec msg.sender (some N)),
         { w with
           calls := w.calls ++ [probeCall T,
             .createForumTopic .supergroup (buildTopicTitle msg.sender)],
           cache := w.cache.filter (fun p => decide (p.1 ≠ T)),
           store := ((((w.store.insert retryKey
               ⟨.text (jsString (jsAdd retryCount 1)), some (w.now + 60 * 1000)⟩).erase
               (.thread (some T))).insert key ⟨.topicRec (newRec msg.sender (some N)), none⟩).insert
               (.thread (some N)) ⟨.text (jsString (some (userId : Int))), none⟩) }) := by
  have hwithin : (match cacheFind w.cache T with
      | some ts => decide ((w.now : Int) - (ts : Int) < (CONFIG.THREAD_HEALTH_TTL_MS : Int))
      | none => false) = false := by
    cases hc : cacheFind w.cache T with
    | none => rfl
    | some ts => simpa using hdue ts hc
  have hc := createTopic_created msg.sender key env userId
    { w with
      calls := w.calls ++ [probeCall T],
      cache := w.cache.filter (fun p => decide (p.1 ≠ T)),
      store := (w.store.insert retryKey
        ⟨.text (jsString (jsAdd retryCount 1)), some (w.now + 60 * 1000)⟩).erase
        (.thread (some T)) } cr m henv (by simpa using hcreate) hok hres hu
  simp only [probeReportsLoss] at hlost
  simp only [probeTopic, hT, M.bind_apply, dateNow_apply, cacheGet_apply, hwithin,
    Bool.false_eq_true, if_false, tgCall, hprobe, hlost, if_true, Bool.true_or, kvPut_apply,
    kvDelete_apply, cacheDelete_apply, Option.map_some']
  simp only [probeCall] at hc
  rw [hc]
  simp [hN, truthyNum, hN0, newRec, probeCall]

/-- The relay of a message of a user whose stored topic `T` is found lost by the
probe, while the retry counter does not exceed the bound: after the health
check the send goes on with the recreated topic `N`. -/
theorem forwardToTopicBody_heals (msg : Msg) (userId : Nat) (env : Env) (w : World)
    (r : TopicRec) (T N : Nat) (tr cr : TgResult) (m : TgMessage)
    (hrec : w.store.get w.now (.user userId) = some (.topicRec r))
    (hopen : r.closed = false) (hT : r.thread_id = some T) (hT0 : T ≠ 0)
    (hretry : jsGt (parseIntOr0 (w.store.get w.now (.retry userId)))
      (CONFIG.MAX_RETRY_ATTEMPTS : Int) = false)
    (hdue : ProbeDue w T)
    (hprobe : w.gateway w.calls.length = .resp tr)
    (hlost : probeReportsLoss tr T = true)
    (henv : jsStartsWith env.SUPERGROUP_ID "-100" = true)
    (hcreate : w.gateway (w.calls.length + 1) = .resp cr) (hok : cr.ok = true)
    (hres : cr.result = some m) (hN : m.message_thread_id = some N) (hN0 : N ≠ 0)
    (hu : userId ≠ 0) :
    ∃ W : World,
      forwardToTopicBody msg userId (.user userId) env w
        = sendToTopic msg userId (.user userId) env (newRec msg.sender (some N)) W ∧
      W.gateway = w.gateway ∧ W.now = w.now ∧ W.relays = w.relays ∧
      W.calls = w.calls ++ [probeCall T,
        .createForumTopic .supergroup (buildTopicTitle msg.sender)] ∧
      W.store = (((((if truthy (w.store.get w.now (.thread (some T))) then w.store
          else w.store.insert (.thread (some T))
            ⟨.text (jsString (some (userId : Int))), none⟩).insert (.retry userId)
          ⟨.text (jsString (jsAdd (parseIntOr0 (w.store.get w.now (.retry userId))) 1)),
           some (w.now + 60 * 1000)⟩).erase
          (.thread (some T))).insert (.user userId)
            ⟨.topicRec (newRec msg.sender (some N)), none⟩).insert
          (.thread (some N)) ⟨.text (jsString (some (userId : Int))), none⟩) := by
  have hT1 : truthyNum (some T) = true := by simp [truthyNum, hT0]
  cases hmap : truthy (w.store.get w.now (.thread (some T))) with
  | true =>
    have hp := probeTopic_repairs msg userId (.user userId) env (.retry userId)
      (parseIntOr0 (w.store.get w.now (.retry userId))) r w T N tr cr m hT hdue hprobe hlost henv
      hcreate hok hres hN hN0 hu
    refine ⟨{ w with
        calls := w.calls ++ [probeCall T,
          .createForumTopic .supergroup (buildTopicTitle msg.sender)],
        cache := w.cache.filter (fun p => decide (p.1 ≠ T)),
        store := ((((w.store.insert (.retry userId)
            ⟨.text (jsString (jsAdd (parseIntOr0 (w.store.get w.now (.retry userId))) 1)),
             some (w.now + 60 * 1000)⟩).erase
            (.thread (some T))).insert (.user userId)
              ⟨.topicRec (newRec msg.sender (some N)), none⟩).insert
            (.thread (some N)) ⟨.text (jsString (some (userId : Int))), none⟩) },
      ?_, rfl, rfl, rfl, rfl, rfl⟩
    simp only [forwardToTopicBody, safeGetRec, M.bind_apply, kvGet_apply, hrec, M.pure_apply,
      hopen, Bool.false_eq_true, if_false, hretry, hT, hT1, if_true, M.ite_apply, hmap,
      Bool.not_true, hp]
  | false =>
    have hp := probeTopic_repairs msg userId (.user userId) env (.retry userId)
      (parseIntOr0 (w.store.get w.now (.retry userId))) r
      { w with
        store := w.store.insert (.thread (some T))
                   ⟨.text (jsString (some (userId : Int))), none⟩ }
      T N tr cr m hT hdue hprobe hlost henv hcreate hok hres hN hN0 hu
    refine ⟨{ w with
        calls := w.calls ++ [probeCall T,
          .createForumTopic .supergroup (buildTopicTitle msg.sender)],
        cache := w.cache.filter (fun p => decide (p.1 ≠ T)),
        store := (((((w.store.insert (.thread (some T))
              ⟨.text (jsString (some (userId : Int))), none⟩).insert (.retry userId)
            ⟨.text (jsString (jsAdd (parseIntOr0 (w.store.get w.now (.retry userId))) 1)),
             some (w.now + 60 * 1000)⟩).erase
            (.thread (some T))).insert (.user userId)
              ⟨.topicRec (newRec msg.sender (some N)), none⟩).insert
            (.thread (some N)) ⟨.text (jsString (some (userId : Int))), none⟩) },
      ?_, rfl, rfl, rfl, rfl, rfl⟩
    simp only [forwardToTopicBody, safeGetRec, M.bind_apply, kvGet_apply, hrec, M.pure_apply,
      hopen, Bool.false_eq_true, if_false, hretry, hT, hT1, if_true, M.ite_apply, hmap,
      Bool.not_false, kvPut_apply, Option.map_none', hp]

/-- The primary send of a plain message whose response does not call for
another recreation: the store is not touched and the first call made is the
forward into the topic of the record. -/
theorem sendToTopic_settled (msg : Msg) (userId : Nat) (key : Key) (env : Env) (r : TopicRec)
    (w : World) (sr : TgResult)
    (hplain : truthyStr msg.media_group_id = false)
    (hsend : w.gateway w.calls.length = .resp sr)
    (hsettled : sendReportsLoss sr r.thread_id = false) :
    (sendToTopic msg userId key env r w).2.store = w.store ∧
      ∃ rest, (sendToTopic msg userId key env r w).2.calls
        = w.calls ++ [.forwardMessage .supergroup (.user userId) msg.message_id r.thread_id]
            ++ rest := by
  simp only [sendReportsLoss, Bool.or_eq_false_iff, Bool.and_eq_false_iff] at hsettled
  obtain ⟨h1, h2⟩ := hsettled
  cases hok : sr.ok with
  | true =>
    have hm : threadMismatch (sr.result.bind (fun m => m.message_thread_id)) r.thread_id
        = false := by
      rcases h1 with h | h
      · simp [hok] at h
      · exact h
    refine ⟨?_, [], ?_⟩ <;>
      simp [sendToTopic, hplain, tgCall, hsend, hok, hm]
  | false =>
    have hd : sendDeletionText (jsToLowerCase (orEmpty sr.description)) = false := by
      rcases h2 with h | h
      · simp [hok] at h
      · exact h
    by_cases hc : jsIncludes (jsToLowerCase (orEmpty sr.description)) "chat not found" = true
    · refine ⟨?_, [], ?_⟩ <;>
        simp [sendToTopic, hplain, tgCall, hsend, hok, hd, hc]
    · by_cases hr : jsIncludes (jsToLowerCase (orEmpty sr.description)) "not enough rights"
          = true
      · refine ⟨?_, [], ?_⟩ <;>
          simp [sendToTopic, hplain, tgCall, hsend, hok, hd, hc, hr]
      · cases hg : w.gateway (w.calls.length + 1) with
        | resp x =>
          refine ⟨?_, [.copyMessage .supergroup (.user userId) msg.message_id r.thread_id],
            ?_⟩ <;>
            simp [sendToTopic, hplain, tgCall, hsend, hok, hd, hc, hr, hg]
        | netError x =>
          refine ⟨?_, [.copyMessage .supergroup (.user userId) msg.message_id r.thread_id],
            ?_⟩ <;>
            simp [sendToTopic, hplain, tgCall, hsend, hok, hd, hc, hr, hg]

/-- C9, as the code has it. When `forwardToTopic` relays a plain message of
user `userId` whose
record holds topic `T`, the probe is due and its response reports the topic
lost (failed, no topic id, or another topic id) while the retry counter does
not exceed the bound, and the gateway creates the new topic `N`, then the
third gateway call is the primary send, a forward addressed to `N`; and when
the response to that send does not itself call for another recreation, the
store afterwards has `user:<userId>` holding the record with `thread_id = N`,
`thread:<N>` holding the user id, and no `thread:<T>` entry. -/
theorem forwardToTopic_self_heals (msg : Msg) (userId : Nat) (env : Env) (w : World)
    (r : TopicRec) (T N : Nat) (tr cr sr : TgResult) (m : TgMessage)
    (hrec : w.store.get w.now (.user userId) = some (.topicRec r))
    (hopen : r.closed = false) (hT : r.thread_id = some T) (hT0 : T ≠ 0)
    (hretry : jsGt (parseIntOr0 (w.store.get w.now (.retry userId)))
      (CONFIG.MAX_RETRY_ATTEMPTS : Int) = false)
    (hdue : ProbeDue w T)
    (hprobe : w.gateway w.calls.length = .resp tr)
    (hlost : probeReportsLoss tr T = true)
    (henv : jsStartsWith env.SUPERGROUP_ID "-100" = true)
    (hcreate : w.gateway (w.calls.length + 1) = .resp cr) (hok : cr.ok = true)
    (hres : cr.result = some m) (hN : m.message_thread_id = some N) (hN0 : N ≠ 0)
    (hNT : N ≠ T) (hu : userId ≠ 0)
    (hplain : truthyStr msg.media_group_id = false)
    (hsend : w.gateway (w.calls.length + 2) = .resp sr)
    (hsettled : sendReportsLoss sr (some N) = false) :
    (forwardToTopic msg userId (.user userId) env w).2.store.find (.user userId)
        = some ⟨.topicRec (newRec msg.sender (some N)), none⟩ ∧
      (newRec msg.sender (some N)).thread_id = some N ∧
      (forwardToTopic msg userId (.user userId) env w).2.store.find (.thread (some N))
        = some ⟨.text (jsString (some (userId : Int))), none⟩ ∧
      (forwardToTopic msg userId (.user userId) env w).2.store.find (.thread (some T)) = none ∧
      ∃ rest, (forwardToTopic msg userId (.user userId) env w).2.calls
        = w.calls ++ [probeCall T, .createForumTopic .supergroup (buildTopicTitle msg.sender),
            .forwardMessage .supergroup (.user userId) msg.message_id (some N)] ++ rest := by
  obtain ⟨W, hbody, hgw, _, _, hcallsW, hstoreW⟩ := forwardToTopicBody_heals msg userId env
    { w with relays := w.relays ++ [(userId, msg.message_id)] } r T N tr cr m hrec hopen hT hT0
    hretry hdue hprobe hlost henv hcreate hok hres hN hN0 hu
  have hfwd : forwardToTopic msg userId (.user userId) env w
      = forwardToTopicBody msg userId (.user userId) env
          { w with relays := w.relays ++ [(userId, msg.message_id)] } := by
    simp [forwardToTopic, noteRelay]
  have hsendW : W.gateway W.calls.length = .resp sr := by
    rw [hgw, hcallsW]
    simpa using hsend
  obtain ⟨hstore, rest, hcalls⟩ := sendToTopic_settled msg userId (.user userId) env
    (newRec msg.sender (some N)) W sr hplain hsendW hsettled
  rw [hfwd, hbody, hstore, hstoreW]
  refine ⟨?_, rfl, ?_, ?_, rest, ?_⟩
  · rw [Store.find_insert_of_ne _ _ (by simp), Store.find_insert_self]
  · rw [Store.find_insert_self]
  · rw [Store.find_insert_of_ne _ _ (by simpa using hNT),
      Store.find_insert_of_ne _ _ (by simp), Store.find_erase_self]
  · rw [hcalls, hcallsW]
    simp [newRec]

theorem forwardToTopic_self_heals_witness :
    (topicWorld (failingProbeGateway "Bad Request: message thread not found")).store.get
        (topicWorld (failingProbeGateway "Bad Request: message thread not found")).now (.user 7)
        = some (.topicRec { thread_id := some 5, title := some "Alice", closed := false }) ∧
      jsGt (parseIntOr0
        ((topicWorld (failingProbeGateway "Bad Request: message thread not found")).store.get
          (topicWorld (failingProbeGateway "Bad Request: message thread not found")).now
          (.retry 7))) (CONFIG.MAX_RETRY_ATTEMPTS : Int) = false ∧
      ProbeDue (topicWorld (failingProbeGateway "Bad Request: message thread not found")) 5 ∧
      probeReportsLoss (failure "Bad Request: message thread not found") 5 = true ∧
      jsStartsWith sampleEnv.SUPERGROUP_ID "-100" = true ∧
      truthyStr (plainMsg 1).media_group_id = false ∧
      sendReportsLoss (success 9) (some 9) = false ∧
      ((forwardToTopic (plainMsg 1) 7 (.user 7) sampleEnv
          (topicWorld (failingProbeGateway "Bad Request: message thread not found"))).2.store.find
          (.user 7) = some ⟨.topicRec (newRec (plainMsg 1).sender (some 9)), none⟩ ∧
        (newRec (plainMsg 1).sender (some 9)).thread_id = some 9 ∧
        (forwardToTopic (plainMsg 1) 7 (.user 7) sampleEnv
          (topicWorld (failingProbeGateway "Bad Request: message thread not found"))).2.store.find
          (.thread (some 9)) = some ⟨.text (jsString (some ((7 : Nat) : Int))), none⟩ ∧
        (forwardToTopic (plainMsg 1) 7 (.user 7) sampleEnv
          (topicWorld (failingProbeGateway "Bad Request: message thread not found"))).2.store.find
          (.thread (some 5)) = none ∧
        ∃ rest, (forwardToTopic (plainMsg 1) 7 (.user 7) sampleEnv
          (topicWorld (failingProbeGateway "Bad Request: message thread not found"))).2.calls
          = (topicWorld (failingProbeGateway "Bad Request: message thread not found")).calls ++
              [probeCall 5, .createForumTopic .supergroup (buildTopicTitle (plainMsg 1).sender),
               .forwardMessage .supergroup (.user 7) (plainMsg 1).message_id (some 9)] ++ rest) :=
  have hdue : ProbeDue
      (topicWorld (failingProbeGateway "Bad Request: message thread not found")) 5 :=
    fun _ h => by cases h
  ⟨by decide, by decide, hdue, by decide, by decide, by decide, by decide,
    forwardToTopic_self_heals (plainMsg 1) 7 sampleEnv
      (topicWorld (failingProbeGateway "Bad Request: message thread not found"))
      { thread_id := some 5, title := some "Alice", closed := false } 5 9
      (failure "Bad Request: message thread not found") (success 9) (success 9)
      { message_thread_id := some 9, message_id := some 900 }
      (by decide) rfl rfl (by decide) (by decide) hdue rfl (by decide) (by decide) rfl rfl rfl
      rfl (by decide) (by decide) (by decide) (by decide) rfl (by decide)⟩

/-- A failed probe counts as a lost topic whatever its error description. -/
theorem probeReportsLoss_of_failed (tr : TgResult) (T : Nat) (h : tr.ok = false) :
    probeReportsLoss tr T = true := by
  simp [probeReportsLoss, h]

/-! ## The retry bound (C1) and ambiguous probe failures (C10) on the code -/

/-- C1, on the code. User 7 has topic 5 and no retry counter; every probe
reports the topic deleted.  Four messages arrive within five seconds, well
inside the 60 s retry window.  After the third relay the counter holds `3`;
the fourth relay is not refused: it makes the probe, a fourth
`createForumTopic` call and the forward, and stores `4` under `retry:7`.
So the topic is recreated four times and the stored counter exceeds
`MAX_RETRY_ATTEMPTS = 3`. -/
theorem retry_counter_reaches_four :
    (relayCalls sampleEnv 7 [(2000, plainMsg 1), (3000, plainMsg 2), (4000, plainMsg 3)]
        (topicWorld deletingGateway)).store.get 5000 (.retry 7) = some (.text "3") ∧
      (relayCalls sampleEnv 7
        [(2000, plainMsg 1), (3000, plainMsg 2), (4000, plainMsg 3), (5000, plainMsg 4)]
        (topicWorld deletingGateway)).calls.drop 9
        = [probeCall 102, .createForumTopic .supergroup "Alice",
           .forwardMessage .supergroup (.user 7) 4 (some 103)] ∧
      ((relayCalls sampleEnv 7
        [(2000, plainMsg 1), (3000, plainMsg 2), (4000, plainMsg 3), (5000, plainMsg 4)]
        (topicWorld deletingGateway)).calls.filter Call.isCreateForumTopic).length = 4 ∧
      (relayCalls sampleEnv 7
        [(2000, plainMsg 1), (3000, plainMsg 2), (4000, plainMsg 3), (5000, plainMsg 4)]
        (topicWorld deletingGateway)).store.find (.retry 7)
        = some ⟨.text "4", some 65000⟩ := by
  decide

/-- C10, on the code. The probe of topic 5 fails with a description that
contains none of the deletion-class substrings (a rate-limit error).  The
relay does not fall through to the send against the stored topic: it
increments the retry counter, deletes the reverse index of topic 5, calls
`createForumTopic`, rewrites the record to the new topic 9 and sends there. -/
theorem ambiguous_probe_failure_recreates :
    probeDeletionText (jsToLowerCase "Too Many Requests: retry after 5") = false ∧
      (forwardToTopic (plainMsg 1) 7 (.user 7) sampleEnv
        (topicWorld (failingProbeGateway "Too Many Requests: retry after 5"))).2.calls
        = [probeCall 5, .createForumTopic .supergroup "Alice",
           .forwardMessage .supergroup (.user 7) 1 (some 9)] ∧
      (forwardToTopic (plainMsg 1) 7 (.user 7) sampleEnv
        (topicWorld (failingProbeGateway "Too Many Requests: retry after 5"))).2.store
        = [(.thread (some 9), ⟨.text "7", none⟩),
           (.user 7, ⟨.topicRec { thread_id := some 9, title := some "Alice", closed := false },
              none⟩),
           (.retry 7, ⟨.text "1", some 61000⟩),
           (.verified 7, ⟨.text "1", some 2592001000⟩)] := by
  decide

/-! ## The rate-limit window (C13) -/

/-- C13, on the code. With `window = 60` and `limit = 2`, two allowed actions at
1.0 s and 31.0 s leave the counter expiring at 91.0 s, not at 61.0 s (the end of
the window opened by the first action); and a third action at 62.0 s, more than
`window` seconds after the first one, is still refused: the counter has not
reset. -/
theorem rate_window_slides :
    (rateLimitCalls 7 "message" 2 60 [1000, 31000] freshWorld).2.store.find
        (.ratelimit "message" 7) = some ⟨.text "2", some 91000⟩ ∧
      (rateLimitCalls 7 "message" 2 60 [1000, 31000, 62000] freshWorld).1
        = [.ok ⟨true, some 1⟩, .ok ⟨true, some 0⟩, .ok ⟨false, some 0⟩] := by
  decide

/-- C13, as the code has it. An allowed `checkRateLimit` call persists the
incremented counter with a time to live of the full `window`: the expiry
instant of the counter is `window` seconds after this (the latest) allowed
action, whatever it was before; and from that instant on the key reads as
absent, so the counter has reset once `window` seconds have elapsed since the
last allowed action. -/
theorem checkRateLimit_window_restarts (w : World) (userId : Nat) (action : String)
    (limit window : Nat)
    (hallowed : jsGe (parseIntOr0 (w.store.get w.now (.ratelimit action userId))) limit
      = false) :
    (checkRateLimit userId action limit window w).2.store.find (.ratelimit action userId)
        = some ⟨.text (jsString (jsAdd
            (parseIntOr0 (w.store.get w.now (.ratelimit action userId))) 1)),
          some (w.now + window * 1000)⟩ ∧
      ∀ t, w.now + window * 1000 ≤ t →
        (checkRateLimit userId action limit window w).2.store.get t (.ratelimit action userId)
          = none := by
  have hfind : (checkRateLimit userId action limit window w).2.store.find
      (.ratelimit action userId)
        = some ⟨.text (jsString (jsAdd
            (parseIntOr0 (w.store.get w.now (.ratelimit action userId))) 1)),
          some (w.now + window * 1000)⟩ := by
    simp [checkRateLimit, hallowed, Store.find_insert_self]
  refine ⟨hfind, ?_⟩
  intro t ht
  have hdead : ¬ t < w.now + window * 1000 := by omega
  simp [Store.get, hfind, Entry.live, hdead]

theorem checkRateLimit_window_restarts_witness :
    jsGe (parseIntOr0
        ((rateLimitCalls 7 "message" 2 60 [1000] freshWorld).2.store.get
          (rateLimitCalls 7 "message" 2 60 [1000] freshWorld).2.now (.ratelimit "message" 7)))
        (2 : Nat) = false ∧
      ((checkRateLimit 7 "message" 2 60
          (rateLimitCalls 7 "message" 2 60 [1000] freshWorld).2).2.store.find
          (.ratelimit "message" 7)
          = some ⟨.text (jsString (jsAdd (parseIntOr0
              ((rateLimitCalls 7 "message" 2 60 [1000] freshWorld).2.store.get
                (rateLimitCalls 7 "message" 2 60 [1000] freshWorld).2.now
                (.ratelimit "message" 7))) 1)),
            some ((rateLimitCalls 7 "message" 2 60 [1000] freshWorld).2.now + 60 * 1000)⟩ ∧
        ∀ t, (rateLimitCalls 7 "message" 2 60 [1000] freshWorld).2.now + 60 * 1000 ≤ t →
          (checkRateLimit 7 "message" 2 60
            (rateLimitCalls 7 "message" 2 60 [1000] freshWorld).2).2.store.get t
            (.ratelimit "message" 7) = none) :=
  ⟨by decide,
    checkRateLimit_window_restarts (rateLimitCalls 7 "message" 2 60 [1000] freshWorld).2 7
      "message" 2 60 (by decide)⟩

/-! ## Refusal of a relay (C18) -/

/-- C18, on the code. User 7 has an open topic and `retry:7` holds `4`, above
the bound.  The relay is refused with the busy notice, and afterwards the
`retry:7` key is gone from the store: the counter is not left to expire, it is
deleted. -/
theorem refusal_deletes_retry_counter :
    overBoundWorld.store.get overBoundWorld.now (.retry 7) = some (.text "4") ∧
      (forwardToTopic (plainMsg 5) 7 (.user 7) sampleEnv overBoundWorld).2.calls
        = [.sendMessage (.user 7) none "❌ 系统繁忙，请稍后再试。" none []] ∧
      (forwardToTopic (plainMsg 5) 7 (.user 7) sampleEnv overBoundWorld).2.store.find
        (.retry 7) = none := by
  decide

/-- C18, as the code has it. When `forwardToTopic` finds the retry counter
above the bound (for a user whose record is not closed) and the gateway answers
the notice call, the relay is refused: the busy notice is the only gateway
call, the `retry:<userId>` key is deleted from the store, and every other key
is left as it was. -/
theorem forwardToTopic_refusal (msg : Msg) (userId : Nat) (env : Env) (w : World)
    (res : TgResult)
    (hopen : ∀ r, w.store.get w.now (.user userId) = some (.topicRec r) → r.closed = false)
    (hover : jsGt (parseIntOr0 (w.store.get w.now (.retry userId)))
      (CONFIG.MAX_RETRY_ATTEMPTS : Int) = true)
    (hgw : w.gateway w.calls.length = .resp res) :
    (forwardToTopic msg userId (.user userId) env w).1 = .ok () ∧
      (forwardToTopic msg userId (.user userId) env w).2.calls
        = w.calls ++ [.sendMessage (.user userId) none "❌ 系统繁忙，请稍后再试。" none []] ∧
      (forwardToTopic msg userId (.user userId) env w).2.store = w.store.erase (.retry userId) ∧
      (forwardToTopic msg userId (.user userId) env w).2.store.find (.retry userId) = none ∧
      ∀ k, k ≠ .retry userId →
        (forwardToTopic msg userId (.user userId) env w).2.store.find k = w.store.find k := by
  have hrun : forwardToTopic msg userId (.user userId) env w
      = (.ok (), { w with
          relays := w.relays ++ [(userId, msg.message_id)],
          calls := w.calls ++ [.sendMessage (.user userId) none "❌ 系统繁忙，请稍后再试。" none []],
          store := w.store.erase (.retry userId) }) := by
    cases hrec : w.store.get w.now (.user userId) with
    | none =>
      simp [forwardToTopic, noteRelay, forwardToTopicBody, safeGetRec, hrec, hover, tgCall, hgw]
    | some v =>
      cases v with
      | topicRec r =>
        have hc := hopen r hrec
        simp [forwardToTopic, noteRelay, forwardToTopicBody, safeGetRec, hrec, hc, hover, tgCall,
          hgw]
      | text s =>
        simp [forwardToTopic, noteRelay, forwardToTopicBody, safeGetRec, hrec, hover, tgCall, hgw]
      | chalState c =>
        simp [forwardToTopic, noteRelay, forwardToTopicBody, safeGetRec, hrec, hover, tgCall, hgw]
      | mediaBuf b =>
        simp [forwardToTopic, noteRelay, forwardToTopicBody, safeGetRec, hrec, hover, tgCall, hgw]
  rw [hrun]
  refine ⟨rfl, rfl, rfl, Store.find_erase_self _ _, ?_⟩
  intro k hk
  exact Store.find_erase_of_ne _ (Ne.symm hk)

theorem forwardToTopic_refusal_witness :
    (∀ r, overBoundWorld.store.get overBoundWorld.now (.user 7) = some (.topicRec r) →
        r.closed = false) ∧
      jsGt (parseIntOr0 (overBoundWorld.store.get overBoundWorld.now (.retry 7)))
        (CONFIG.MAX_RETRY_ATTEMPTS : Int) = true ∧
      overBoundWorld.gateway overBoundWorld.calls.length
        = .resp (failure "Bad Request: message thread not found") ∧
      ((forwardToTopic (plainMsg 5) 7 (.user 7) sampleEnv overBoundWorld).1 = .ok () ∧
        (forwardToTopic (plainMsg 5) 7 (.user 7) sampleEnv overBoundWorld).2.calls
          = overBoundWorld.calls ++
              [.sendMessage (.user 7) none "❌ 系统繁忙，请稍后再试。" none []] ∧
        (forwardToTopic (plainMsg 5) 7 (.user 7) sampleEnv overBoundWorld).2.store
          = overBoundWorld.store.erase (.retry 7) ∧
        (forwardToTopic (plainMsg 5) 7 (.user 7) sampleEnv overBoundWorld).2.store.find
          (.retry 7) = none ∧
        ∀ k, k ≠ .retry 7 →
          (forwardToTopic (plainMsg 5) 7 (.user 7) sampleEnv overBoundWorld).2.store.find k
            = overBoundWorld.store.find k) :=
  have hopen : ∀ r, overBoundWorld.store.get overBoundWorld.now (.user 7)
      = some (.topicRec r) → r.closed = false := by
    intro r h
    have h0 : overBoundWorld.store.get overBoundWorld.now (.user 7)
        = some (.topicRec { thread_id := some 5, title := some "Alice", closed := false }) := by
      decide
    rw [h0] at h
    cases h
    rfl
  ⟨hopen, by decide, rfl,
    forwardToTopic_refusal (plainMsg 5) 7 sampleEnv overBoundWorld _ hopen (by decide) rfl⟩

/-! ## Gateway timeouts while relaying (C19) -/

/-- C19, on the code. User 7 has no topic yet and the gateway call runs into
the timeout.  The relay starts with `createForumTopic`; its timeout makes
`createTopic`, and with it `forwardToTopic`, throw. -/
theorem creation_timeout_is_thrown :
    (createTopic alice (.user 7) sampleEnv 7 (freshWorldWith timeoutGateway)).1
        = .thrown "创建话题失败: Request timeout" ∧
      (forwardToTopic (plainMsg 1) 7 (.user 7) sampleEnv (freshWorldWith timeoutGateway)).1
        = .thrown "创建话题失败: Request timeout" ∧
      (forwardToTopic (plainMsg 1) 7 (.user 7) sampleEnv (freshWorldWith timeoutGateway)).2.calls
        = [.createForumTopic .supergroup "Alice"] := by
  decide

theorem timeout_text_plain :
    sendDeletionText (jsToLowerCase (orEmpty timeoutResult.description)) = false ∧
      jsIncludes (jsToLowerCase (orEmpty timeoutResult.description)) "chat not found" = false ∧
      jsIncludes (jsToLowerCase (orEmpty timeoutResult.description)) "not enough rights"
        = false := by
  decide

/-- The timeout of `createForumTopic` makes `createTopic` throw. -/
theorem createTopic_timeout (sender : Sender) (key : Key) (env : Env) (userId : Nat) (w : World)
    (henv : jsStartsWith env.SUPERGROUP_ID "-100" = true)
    (hgw : w.gateway w.calls.length = .resp timeoutResult) :
    createTopic sender key env userId w
      = (.thrown "创建话题失败: Request timeout",
         { w with calls := w.calls ++
            [.createForumTopic .supergroup (buildTopicTitle sender)] }) := by
  simp [createTopic, henv, tgCall, hgw, timeoutResult, descText]

/-- The send whose forward is answered as redirected and whose creation of a
new topic runs into the timeout throws the error of `createTopic`. -/
theorem sendToTopic_creation_timeout (msg : Msg) (userId : Nat) (key : Key) (env : Env)
    (r : TopicRec) (w : World) (res : TgResult)
    (hplain : truthyStr msg.media_group_id = false)
    (hfwd : w.gateway w.calls.length = .resp res) (hok : res.ok = true)
    (hmis : threadMismatch (res.result.bind fun m => m.message_thread_id) r.thread_id = true)
    (henv : jsStartsWith env.SUPERGROUP_ID "-100" = true)
    (hcreate : w.gateway (w.calls.length + 1) = .resp timeoutResult) :
    (sendToTopic msg userId key env r w).1 = .thrown "创建话题失败: Request timeout" := by
  have hc : ∀ W : World, W.gateway W.calls.length = .resp timeoutResult →
      createTopic msg.sender key env userId W
        = (.thrown "创建话题失败: Request timeout",
           { W with calls := W.calls ++
              [.createForumTopic .supergroup (buildTopicTitle msg.sender)] }) :=
    fun W h => createTopic_timeout msg.sender key env userId W henv h
  cases ht : r.thread_id <;> rw [ht] at hmis <;>
    simp [sendToTopic, hplain, tgCall, hfwd, hok, hmis, M.bind_apply, kvDelete_apply,
      cacheDelete, hcreate, hc, ht]

/-- The health check is skipped while a positive result younger than the cache
lifetime is cached for the topic. -/
theorem probeTopic_cached (msg : Msg) (userId : Nat) (key : Key) (env : Env) (retryKey : Key)
    (retryCount : Option Int) (r : TopicRec) (w : World) (T ts : Nat)
    (hT : r.thread_id = some T) (hcache : cacheFind w.cache T = some ts)
    (hfresh : (w.now : Int) - (ts : Int) < (CONFIG.THREAD_HEALTH_TTL_MS : Int)) :
    probeTopic msg userId key env retryKey retryCount r w = (.ok r, w) := by
  simp [probeTopic, dateNow_apply, cacheGet_apply, hT, hcache, hfresh]

/-- C19, as the code has it.  `tgCall` never raises a timeout: it returns the
timeout response to its caller.  While a private message is relayed:
* a timeout of the forward of a plain message falls back to the copy call, and
  whatever the gateway answers to it, a timeout included, the send returns
  normally;
* a timeout of `createForumTopic` makes `createTopic` throw the error
  `创建话题失败: Request timeout`, and `forwardToTopic` lets the exception
  through: for a user without a record, whose relay starts with the creation,
  and for the creation that follows a redirected primary send (into a topic
  whose health is cached). -/
theorem timeouts_while_relaying :
    (∀ (c : Call) (w : World), w.gateway w.calls.length = .resp timeoutResult →
        tgCall c w = (.ok timeoutResult, { w with calls := w.calls ++ [c] })) ∧
      (∀ (msg : Msg) (userId : Nat) (key : Key) (env : Env) (r : TopicRec) (w : World)
        (res : TgResult),
        truthyStr msg.media_group_id = false →
        w.gateway w.calls.length = .resp timeoutResult →
        w.gateway (w.calls.length + 1) = .resp res →
        sendToTopic msg userId key env r w
          = (.ok (), { w with calls := w.calls ++
              [.forwardMessage .supergroup (.user userId) msg.message_id r.thread_id,
               .copyMessage .supergroup (.user userId) msg.message_id r.thread_id] })) ∧
      (∀ (sender : Sender) (key : Key) (env : Env) (userId : Nat) (w : World),
        jsStartsWith env.SUPERGROUP_ID "-100" = true →
        w.gateway w.calls.length = .resp timeoutResult →
        createTopic sender key env userId w
          = (.thrown "创建话题失败: Request timeout",
             { w with calls := w.calls ++
                [.createForumTopic .supergroup (buildTopicTitle sender)] })) ∧
      (∀ (msg : Msg) (userId : Nat) (env : Env) (w : World),
        w.store.get w.now (.user userId) = none →
        jsGt (parseIntOr0 (w.store.get w.now (.retry userId)))
          (CONFIG.MAX_RETRY_ATTEMPTS : Int) = false →
        jsStartsWith env.SUPERGROUP_ID "-100" = true →
        w.gateway w.calls.length = .resp timeoutResult →
        (forwardToTopic msg userId (.user userId) env w).1
            = .thrown "创建话题失败: Request timeout" ∧
          (forwardToTopic msg userId (.user userId) env w).2.calls
            = w.calls ++ [.createForumTopic .supergroup (buildTopicTitle msg.sender)]) ∧
      (∀ (msg : Msg) (userId : Nat) (env : Env) (r : TopicRec) (w : World) (T ts : Nat)
        (res : TgResult),
        w.store.get w.now (.user userId) = some (.topicRec r) → r.closed = false →
        r.thread_id = some T → T ≠ 0 →
        jsGt (parseIntOr0 (w.store.get w.now (.retry userId)))
          (CONFIG.MAX_RETRY_ATTEMPTS : Int) = false →
        cacheFind w.cache T = some ts →
        (w.now : Int) - (ts : Int) < (CONFIG.THREAD_HEALTH_TTL_MS : Int) →
        truthyStr msg.media_group_id = false →
        w.gateway w.calls.length = .resp res → res.ok = true →
        threadMismatch (res.result.bind fun m => m.message_thread_id) (some T) = true →
        jsStartsWith env.SUPERGROUP_ID "-100" = true →
        w.gateway (w.calls.length + 1) = .resp timeoutResult →
        (forwardToTopic msg userId (.user userId) env w).1
          = .thrown "创建话题失败: Request timeout") := by
  refine ⟨?_, ?_, ?_, ?_, ?_⟩
  · intro c w hgw
    simp [tgCall, hgw]
  · intro msg userId key env r w res hplain hfwd hcopy
    obtain ⟨h1, h2, h3⟩ := timeout_text_plain
    simp [sendToTopic, hplain, tgCall, hfwd, hcopy, timeoutResult] at h1 h2 h3 ⊢
    simp [h1, h2, h3]
  · intro sender key env userId w henv hgw
    exact createTopic_timeout sender key env userId w henv hgw
  · intro msg userId env w hrec hretry henv hgw
    have hc1 := createTopic_timeout msg.sender (.user userId) env userId
      { w with relays := w.relays ++ [(userId, msg.message_id)] } henv hgw
    constructor <;>
      simp [forwardToTopic, noteRelay, forwardToTopicBody, safeGetRec, M.bind_apply, kvGet_apply,
        hrec, hretry, hc1]
  · intro msg userId env r w T ts res hrec hopen hT hT0 hretry hcache hfresh hplain hfwd hok hmis
      henv hcreate
    have hT1 : truthyNum (some T) = true := by simp [truthyNum, hT0]
    rw [← hT] at hmis
    cases hmap : truthy (w.store.get w.now (.thread (some T))) with
    | true =>
      have hp := probeTopic_cached msg userId (.user userId) env (.retry userId)
        (parseIntOr0 (w.store.get w.now (.retry userId))) r
        { w with relays := w.relays ++ [(userId, msg.message_id)] } T ts hT hcache hfresh
      have hs := sendToTopic_creation_timeout msg userId (.user userId) env r
        { w with relays := w.relays ++ [(userId, msg.message_id)] } res hplain hfwd hok hmis
        henv hcreate
      simp only [forwardToTopic, noteRelay, forwardToTopicBody, safeGetRec, M.bind_apply,
        kvGet_apply, hrec, M.pure_apply, hopen, Bool.false_eq_true, if_false, hretry, hT, hT1,
        if_true, M.ite_apply, hmap, Bool.not_true, hp]
      exact hs
    | false =>
      have hp := probeTopic_cached msg userId (.user userId) env (.retry userId)
        (parseIntOr0 (w.store.get w.now (.retry userId))) r
        { w with
          relays := w.relays ++ [(userId, msg.message_id)],
          store := w.store.insert (.thread (some T))
                     ⟨.text (jsString (some (userId : Int))), none⟩ } T ts hT hcache hfresh
      have hs := sendToTopic_creation_timeout msg userId (.user userId) env r
        { w with
          relays := w.relays ++ [(userId, msg.message_id)],
          store := w.store.insert (.thread (some T))
                     ⟨.text (jsString (some (userId : Int))), none⟩ } res hplain hfwd hok hmis
        henv hcreate
      simp only [forwardToTopic, noteRelay, forwardToTopicBody, safeGetRec, M.bind_apply,
        kvGet_apply, hrec, M.pure_apply, hopen, Bool.false_eq_true, if_false, hretry, hT, hT1,
        if_true, M.ite_apply, hmap, Bool.not_false, kvPut_apply, Option.map_none', hp]
      exact hs

theorem timeouts_while_relaying_witness :
    ((topicWorld timeoutGateway).gateway (topicWorld timeoutGateway).calls.length
          = .resp timeoutResult ∧
        tgCall (probeCall 5) (topicWorld timeoutGateway)
          = (.ok timeoutResult, { topicWorld timeoutGateway with
              calls := (topicWorld timeoutGateway).calls ++ [probeCall 5] })) ∧
      (truthyStr (plainMsg 1).media_group_id = false ∧
        (topicWorld timeoutGateway).gateway ((topicWorld timeoutGateway).calls.length + 1)
          = .resp timeoutResult ∧
        sendToTopic (plainMsg 1) 7 (.user 7) sampleEnv
            { thread_id := some 5, title := some "Alice", closed := false }
            (topicWorld timeoutGateway)
          = (.ok (), { topicWorld timeoutGateway with
              calls := (topicWorld timeoutGateway).calls ++
                [.forwardMessage .supergroup (.user 7) (plainMsg 1).message_id (some 5),
                 .copyMessage .supergroup (.user 7) (plainMsg 1).message_id (some 5)] })) ∧
      (jsStartsWith sampleEnv.SUPERGROUP_ID "-100" = true ∧
        createTopic alice (.user 7) sampleEnv 7 (topicWorld timeoutGateway)
          = (.thrown "创建话题失败: Request timeout",
             { topicWorld timeoutGateway with
               calls := (topicWorld timeoutGateway).calls ++
                 [.createForumTopic .supergroup (buildTopicTitle alice)] })) ∧
      ((freshWorldWith timeoutGateway).store.get (freshWorldWith timeoutGateway).now (.user 7)
          = none ∧
        jsGt (parseIntOr0 ((freshWorldWith timeoutGateway).store.get
          (freshWorldWith timeoutGateway).now (.retry 7))) (CONFIG.MAX_RETRY_ATTEMPTS : Int)
          = false ∧
        (freshWorldWith timeoutGateway).gateway (freshWorldWith timeoutGateway).calls.length
          = .resp timeoutResult ∧
        (forwardToTopic (plainMsg 1) 7 (.user 7) sampleEnv (freshWorldWith timeoutGateway)).1
          = .thrown "创建话题失败: Request timeout" ∧
        (forwardToTopic (plainMsg 1) 7 (.user 7) sampleEnv
          (freshWorldWith timeoutGateway)).2.calls
          = (freshWorldWith timeoutGateway).calls ++
              [.createForumTopic .supergroup (buildTopicTitle (plainMsg 1).sender)]) ∧
      ((healthyWorld redirectThenTimeout).store.get (healthyWorld redirectThenTimeout).now
          (.user 7)
          = some (.topicRec { thread_id := some 5, title := some "Alice", closed := false }) ∧
        cacheFind (healthyWorld redirectThenTimeout).cache 5 = some 900 ∧
        (healthyWorld redirectThenTimeout).gateway (healthyWorld redirectThenTimeout).calls.length
          = .resp silentResponse ∧
        silentResponse.ok = true ∧
        threadMismatch (silentResponse.result.bind fun m => m.message_thread_id) (some 5) = true ∧
        (healthyWorld redirectThenTimeout).gateway
          ((healthyWorld redirectThenTimeout).calls.length + 1) = .resp timeoutResult ∧
        (forwardToTopic (plainMsg 1) 7 (.user 7) sampleEnv (healthyWorld redirectThenTimeout)).1
          = .thrown "创建话题失败: Request timeout") :=
  ⟨⟨rfl, timeouts_while_relaying.1 (probeCall 5) (topicWorld timeoutGateway) rfl⟩,
    ⟨by decide, rfl,
      timeouts_while_relaying.2.1 (plainMsg 1) 7 (.user 7) sampleEnv
        { thread_id := some 5, title := some "Alice", closed := false }
        (topicWorld timeoutGateway) timeoutResult (by decide) rfl rfl⟩,
    ⟨by decide,
      timeouts_while_relaying.2.2.1 alice (.user 7) sampleEnv 7 (topicWorld timeoutGateway)
        (by decide) rfl⟩,
    ⟨by decide, by decide, rfl,
      timeouts_while_relaying.2.2.2.1 (plainMsg 1) 7 sampleEnv (freshWorldWith timeoutGateway)
        (by decide) (by decide) (by decide) rfl⟩,
    ⟨by decide, rfl, rfl, rfl, by decide, rfl,
      timeouts_while_relaying.2.2.2.2 (plainMsg 1) 7 sampleEnv
        { thread_id := some 5, title := some "Alice", closed := false }
        (healthyWorld redirectThenTimeout) 5 900 silentResponse (by decide) rfl rfl (by decide)
        (by decide) rfl (by decide) (by decide) rfl rfl (by decide) (by decide) rfl⟩⟩

/-! ## The pending message of a challenge (C20) -/

theorem Store.get_insert_ne (s : Store) (now : Nat) (k k1 : Key) (e : Entry) (h : k1 ≠ k) :
    (Store.insert s k1 e).get now k = s.get now k :=
  Store.get_insert_of_ne s now e h

theorem isStart_iff (text : Option String) :
    (truthyStr text && decide (jsTrim (orEmpty text) = "/start")) = true
      ↔ jsTrim (orEmpty text) = "/start" := by
  constructor
  · intro h
    simp only [Bool.and_eq_true, decide_eq_true_eq] at h
    exact h.2
  · intro h
    simp only [Bool.and_eq_true, decide_eq_true_eq]
    refine ⟨?_, h⟩
    cases text with
    | none => exact absurd h (by decide)
    | some s =>
      cases hs : s.data with
      | nil =>
        have : s = "" := by
          cases s
          simp only at hs
          rw [hs]
        subst this
        exact absurd h (by decide)
      | cons c cs => simp [truthyStr, hs]

/-- The run of `handlePrivateMessage` for an unverified user who passes both
rate limits and is not banned: the message is dropped if it is a command,
otherwise the verification challenge is sent from the world in which the two
rate-limit counters are incremented. -/
theorem handlePrivateMessage_unverified (msg : Msg) (env : Env) (w : World) (userId : Nat)
    (hchat : msg.chat = .user userId)
    (hrate : jsGe (parseIntOr0 (w.store.get w.now (.ratelimit "message" userId)))
      CONFIG.RATE_LIMIT_MESSAGE = false)
    (hban : truthy (w.store.get w.now (.banned userId)) = false)
    (hver : truthy (w.store.get w.now (.verified userId)) = false)
    (hvrate : jsGe (parseIntOr0 (w.store.get w.now (.ratelimit "verify" userId)))
      CONFIG.RATE_LIMIT_VERIFY = false)
    (hcmd : isDroppedCommand msg = false) :
    handlePrivateMessage msg env w
      = sendVerificationChallenge userId
          (if jsTrim (orEmpty msg.text) = "/start" then none else some msg.message_id)
          { w with
            store := (w.store.insert (.ratelimit "message" userId)
                ⟨.text (jsString (jsAdd
                  (parseIntOr0 (w.store.get w.now (.ratelimit "message" userId))) 1)),
                 some (w.now + CONFIG.RATE_LIMIT_WINDOW * 1000)⟩).insert
              (.ratelimit "verify" userId)
                ⟨.text (jsString (jsAdd
                  (parseIntOr0 (w.store.get w.now (.ratelimit "verify" userId))) 1)),
                 some (w.now + 300 * 1000)⟩ } := by
  have hmv : (Key.ratelimit "message" userId) ≠ (Key.ratelimit "verify" userId) := by
    intro h
    injection h with h1 _
    exact absurd h1 (by decide)
  have hpend : (if (truthyStr msg.text && decide (jsTrim (orEmpty msg.text) = "/start")) = true
      then (none : Option Nat) else some msg.message_id)
      = if jsTrim (orEmpty msg.text) = "/start" then none else some msg.message_id := by
    by_cases h : jsTrim (orEmpty msg.text) = "/start"
    · rw [if_pos ((isStart_iff msg.text).mpr h), if_pos h]
    · rw [if_neg (fun h1 => h ((isStart_iff msg.text).mp h1)), if_neg h]
  simp only [isDroppedCommand] at hcmd
  simp only [handlePrivateMessage, hchat, checkRateLimit, M.bind_apply, kvGet_apply, hrate,
    Bool.false_eq_true, if_false, kvPut_apply, M.pure_apply, Bool.not_true, M.ite_apply, hcmd,
    Store.get_insert_ne _ _ _ _ _ (show Key.ratelimit "message" userId ≠ Key.banned userId by simp),
    Store.get_insert_ne _ _ _ _ _ (show Key.ratelimit "message" userId ≠ Key.verified userId by simp),
    Store.get_insert_ne _ _ _ _ _ hmv, hban, hver, hvrate, Option.map_some', hpend,
    Bool.not_false, if_true]

/-- C20. For a private message of a user who is not banned, not verified,
within both rate limits and without a live challenge: a command other than
`/start` is dropped and no challenge is written; every other message makes
`handlePrivateMessage` persist a challenge record, under the id held by the
lock `user_challenge:<userId>`, whose `pending` field is `null` if the trimmed
text is exactly `/start` and the `message_id` of the message otherwise. -/
theorem handlePrivateMessage_pending (msg : Msg) (env : Env) (w : World) (userId : Nat)
    (hchat : msg.chat = .user userId)
    (hrate : jsGe (parseIntOr0 (w.store.get w.now (.ratelimit "message" userId)))
      CONFIG.RATE_LIMIT_MESSAGE = false)
    (hban : truthy (w.store.get w.now (.banned userId)) = false)
    (hver : truthy (w.store.get w.now (.verified userId)) = false)
    (hvrate : jsGe (parseIntOr0 (w.store.get w.now (.ratelimit "verify" userId)))
      CONFIG.RATE_LIMIT_VERIFY = false)
    (hfree : truthy (w.store.get w.now (.user_challenge userId)) = false) :
    (isDroppedCommand msg = true →
        (handlePrivateMessage msg env w).2.store.find (.user_challenge userId)
          = w.store.find (.user_challenge userId) ∧
        ∀ verifyId, (handlePrivateMessage msg env w).2.store.find (.chal verifyId)
          = w.store.find (.chal verifyId)) ∧
      (isDroppedCommand msg = false →
        ∃ (verifyId : String) (c : ChalState),
          (handlePrivateMessage msg env w).2.store.find (.user_challenge userId)
            = some ⟨.text verifyId, some (w.now + CONFIG.VERIFY_EXPIRE_SECONDS * 1000)⟩ ∧
          (handlePrivateMessage msg env w).2.store.find (.chal verifyId)
            = some ⟨.chalState c, some (w.now + CONFIG.VERIFY_EXPIRE_SECONDS * 1000)⟩ ∧
          c.userId = some userId ∧
          c.pending = if jsTrim (orEmpty msg.text) = "/start" then none
            else some msg.message_id) := by
  refine ⟨?_, ?_⟩
  · intro hcmd
    simp only [isDroppedCommand] at hcmd
    have hrun : (handlePrivateMessage msg env w).2.store
        = w.store.insert (.ratelimit "message" userId)
            ⟨.text (jsString (jsAdd
              (parseIntOr0 (w.store.get w.now (.ratelimit "message" userId))) 1)),
             some (w.now + CONFIG.RATE_LIMIT_WINDOW * 1000)⟩ := by
      simp only [handlePrivateMessage, hchat, checkRateLimit, M.bind_apply, kvGet_apply, hrate,
        Bool.false_eq_true, if_false, kvPut_apply, M.pure_apply, Bool.not_true, M.ite_apply,
        hcmd, if_true, Option.map_some']
    rw [hrun]
    exact ⟨Store.find_insert_of_ne _ _ (by simp), fun v => Store.find_insert_of_ne _ _ (by simp)⟩
  · intro hcmd
    rw [handlePrivateMessage_unverified msg env w userId hchat hrate hban hver hvrate hcmd]
    have hlt : (w.entropy w.drawn % 2 ^ 32) % 15 < LOCAL_QUESTIONS.length := by
      rw [LOCAL_QUESTIONS_length]
      exact Nat.mod_lt _ (by decide)
    have hfree2 : truthy
        ((({ w with
            store := (w.store.insert (.ratelimit "message" userId)
                ⟨.text (jsString (jsAdd
                  (parseIntOr0 (w.store.get w.now (.ratelimit "message" userId))) 1)),
                 some (w.now + CONFIG.RATE_LIMIT_WINDOW * 1000)⟩).insert
              (.ratelimit "verify" userId)
                ⟨.text (jsString (jsAdd
                  (parseIntOr0 (w.store.get w.now (.ratelimit "verify" userId))) 1)),
                 some (w.now + 300 * 1000)⟩ } : World).store).get w.now
          (.user_challenge userId)) = false := by
      simp only
      rw [Store.get_insert_of_ne _ _ _ (by simp), Store.get_insert_of_ne _ _ _ (by simp)]
      exact hfree
    obtain ⟨verifyId, options, _, _, hstore⟩ := sendVerificationChallenge_store _ userId
      (if jsTrim (orEmpty msg.text) = "/start" then none else some msg.message_id)
      _ hfree2 (List.getElem?_eq_getElem hlt)
    refine ⟨verifyId,
      { answerIndex := jsIndexOf options
          (LOCAL_QUESTIONS[(w.entropy w.drawn % 2 ^ 32) % 15]).correct_answer,
        options := options,
        pending := if jsTrim (orEmpty msg.text) = "/start" then none else some msg.message_id,
        userId := some userId }, ?_, ?_, rfl, rfl⟩
    · rw [hstore, Store.find_insert_self]
    · rw [hstore, Store.find_insert_of_ne _ _ (by simp), Store.find_insert_self]

theorem handlePrivateMessage_pending_witness :
    (plainMsg 42).chat = .user 7 ∧
      jsGe (parseIntOr0 (freshWorld.store.get freshWorld.now (.ratelimit "message" 7)))
        CONFIG.RATE_LIMIT_MESSAGE = false ∧
      truthy (freshWorld.store.get freshWorld.now (.banned 7)) = false ∧
      truthy (freshWorld.store.get freshWorld.now (.verified 7)) = false ∧
      jsGe (parseIntOr0 (freshWorld.store.get freshWorld.now (.ratelimit "verify" 7)))
        CONFIG.RATE_LIMIT_VERIFY = false ∧
      truthy (freshWorld.store.get freshWorld.now (.user_challenge 7)) = false ∧
      isDroppedCommand (plainMsg 42) = false ∧
      ((isDroppedCommand (plainMsg 42) = true →
          (handlePrivateMessage (plainMsg 42) sampleEnv freshWorld).2.store.find
            (.user_challenge 7) = freshWorld.store.find (.user_challenge 7) ∧
          ∀ verifyId, (handlePrivateMessage (plainMsg 42) sampleEnv freshWorld).2.store.find
            (.chal verifyId) = freshWorld.store.find (.chal verifyId)) ∧
        (isDroppedCommand (plainMsg 42) = false →
          ∃ (verifyId : String) (c : ChalState),
            (handlePrivateMessage (plainMsg 42) sampleEnv freshWorld).2.store.find
              (.user_challenge 7)
              = some ⟨.text verifyId,
                  some (freshWorld.now + CONFIG.VERIFY_EXPIRE_SECONDS * 1000)⟩ ∧
            (handlePrivateMessage (plainMsg 42) sampleEnv freshWorld).2.store.find
              (.chal verifyId)
              = some ⟨.chalState c,
                  some (freshWorld.now + CONFIG.VERIFY_EXPIRE_SECONDS * 1000)⟩ ∧
            c.userId = some 7 ∧
            c.pending = if jsTrim (orEmpty (plainMsg 42).text) = "/start" then none
              else some (plainMsg 42).message_id)) :=
  ⟨rfl, by decide, by decide, by decide, by decide, by decide, by decide,
    handlePrivateMessage_pending (plainMsg 42) sampleEnv freshWorld 7 rfl (by decide) (by decide)
      (by decide) (by decide) (by decide)⟩

/-! ## Distribution of `secureRandomInt` (C17) -/

/-- The number of 32-bit words that `secureRandomInt(0, n)` maps to `v`. -/
theorem randomIntOfWord_eq (n v word : Nat) :
    randomIntOfWord 0 n word = .ok v ↔ word % 2 ^ 32 % n = v := by
  simp only [randomIntOfWord, secureRandomInt, randomValue, M.bind_apply, M.pure_apply,
    Nat.sub_zero, Nat.zero_add, Outcome.ok.injEq]

theorem count_words_eq (b n v : Nat) (hb : b ≤ 2 ^ 32) (hn : 0 < n) (hv : v < n) :
    Nat.count (fun word => randomIntOfWord 0 n word = .ok v) b =
      b / n + if v < b % n then 1 else 0 := by
  have h := Nat.count_modEq_card b hn v
  rw [Nat.mod_eq_of_lt hv] at h
  rw [← h, Nat.count_eq_card_filter_range, Nat.count_eq_card_filter_range]
  congr 1
  apply Finset.filter_congr
  intro word hword
  have hlt : word < 2 ^ 32 := lt_of_lt_of_le (Finset.mem_range.mp hword) hb
  rw [randomIntOfWord_eq, Nat.mod_eq_of_lt hlt, Nat.ModEq, Nat.mod_eq_of_lt hv]

/-- The number of 32-bit words that `secureRandomInt(0, n)` maps to `v`. -/
theorem wordsMappedTo_eq (n v : Nat) (hn : 0 < n) (hv : v < n) :
    wordsMappedTo n v = 2 ^ 32 / n + if v < 2 ^ 32 % n then 1 else 0 :=
  count_words_eq (2 ^ 32) n v le_rfl hn hv

/-- C17, on the code. For the range `n = 15` of the question selection more
32-bit words are mapped to the value 0 than to the value 1: the selection is
not uniform. -/
theorem question_selection_is_biased :
    wordsMappedTo 15 0 = 286331154 ∧ wordsMappedTo 15 1 = 286331153 ∧
      wordsMappedTo 15 0 ≠ wordsMappedTo 15 1 := by
  have h0 := wordsMappedTo_eq 15 0 (by decide) (by decide)
  have h1 := wordsMappedTo_eq 15 1 (by decide) (by decide)
  norm_num at h0 h1
  rw [h0, h1]
  decide

/-- C17, as the code has it. `secureRandomInt(0, n)` reduces a 32-bit word
modulo `n`.  For `n = 4` and `n = 2` (two of the three draws of the shuffle)
every value receives the same number of the `2^32` words; for `n = 15` (the
question selection) and `n = 3` (the remaining draw of the shuffle) the value 0
receives exactly one word more than each other value. -/
theorem secureRandomInt_distribution :
    (∀ v, v < 4 → wordsMappedTo 4 v = 1073741824) ∧
      (∀ v, v < 2 → wordsMappedTo 2 v = 2147483648) ∧
      wordsMappedTo 15 0 = 286331154 ∧
      (∀ v, 0 < v → v < 15 → wordsMappedTo 15 v = 286331153) ∧
      wordsMappedTo 3 0 = 1431655766 ∧
      (∀ v, 0 < v → v < 3 → wordsMappedTo 3 v = 1431655765) := by
  refine ⟨?_, ?_, ?_, ?_, ?_, ?_⟩
  · intro v hv
    rw [wordsMappedTo_eq 4 v (by decide) hv]
    norm_num
  · intro v hv
    rw [wordsMappedTo_eq 2 v (by decide) hv]
    norm_num
  · rw [wordsMappedTo_eq 15 0 (by decide) (by decide)]
    norm_num
  · intro v h0 hv
    rw [wordsMappedTo_eq 15 v (by decide) hv]
    have : ¬ v < 2 ^ 32 % 15 := by
      norm_num
      omega
    rw [if_neg this]
    norm_num
  · rw [wordsMappedTo_eq 3 0 (by decide) (by decide)]
    norm_num
  · intro v h0 hv
    rw [wordsMappedTo_eq 3 v (by decide) hv]
    have : ¬ v < 2 ^ 32 % 3 := by
      norm_num
      omega
    rw [if_neg this]
    norm_num

theorem secureRandomInt_distribution_witness :
    (1 : Nat) < 4 ∧ wordsMappedTo 4 1 = 1073741824 ∧
      (1 : Nat) < 2 ∧ wordsMappedTo 2 1 = 2147483648 ∧
      (0 : Nat) < 14 ∧ (14 : Nat) < 15 ∧ wordsMappedTo 15 14 = 286331153 ∧
      (0 : Nat) < 2 ∧ (2 : Nat) < 3 ∧ wordsMappedTo 3 2 = 1431655765 :=
  ⟨by decide, secureRandomInt_distribution.1 1 (by decide),
    by decide, secureRandomInt_distribution.2.1 1 (by decide),
    by decide, by decide, secureRandomInt_distribution.2.2.2.1 14 (by decide) (by decide),
    by decide, by decide, secureRandomInt_distribution.2.2.2.2.2 2 (by decide) (by decide)⟩

/-! ## The payload of a media group flush (C11) -/

theorem mediaEntry_valid (it : MediaItem) (i : Nat)
    (h : it.type.data.isEmpty = false ∧ it.id.data.isEmpty = false) :
    mediaEntry it i =
      some { type := it.type, media := it.id,
             caption := if i = 0 then jsSubstring0 it.cap 1024 else "" } := by
  simp [mediaEntry, h.1, h.2]

theorem buildMediaFrom_valid (items : List MediaItem) :
    ∀ start : Nat,
      (∀ it ∈ items, it.type.data.isEmpty = false ∧ it.id.data.isEmpty = false) →
      buildMediaFrom start items =
        (items.enumFrom start).map (fun p =>
          ({ type := p.2.type, media := p.2.id,
             caption := if p.1 = 0 then jsSubstring0 p.2.cap 1024 else "" } : MediaEntry)) := by
  induction items with
  | nil => intro start _; rfl
  | cons it rest ih =>
    intro start h
    have hit := h it (List.mem_cons_self _ _)
    have hrest := ih (start + 1) (fun x hx => h x (List.mem_cons_of_mem _ hx))
    simp only [buildMediaFrom, mediaEntry_valid it start hit, hrest, List.enumFrom_cons,
      List.map_cons]

/-- The flush of a buffer whose timestamp is the one of the flush and whose
items all yield an entry: one `sendMediaGroup` call, then the key is deleted. -/
theorem delaySend_sends (key : Key) (ts : Nat) (b : MediaBuf) (w : World)
    (hget : w.store.get w.now key = some (.mediaBuf b)) (hts : b.last_ts = ts)
    (hne : b.items ≠ []) (hmedia : buildMedia b.items ≠ []) :
    (delaySend key ts w).2.calls =
        w.calls ++ [.sendMediaGroup b.targetChat b.threadId (buildMedia b.items)] ∧
      (delaySend key ts w).2.store = w.store.erase key := by
  have h2 : 0 < (buildMedia b.items).length := List.length_pos.mpr hmedia
  cases hg : w.gateway w.calls.length <;>
    simp [delaySend, M.bind_apply, kvGet_apply, hget, hts, hne, h2, tryCatch, tgCall, hg,
      kvDelete, M.pure_apply]

/-- C11. For a buffer of `n ≥ 1` items that each have a non-empty type and file
id, `delaySend` (run for the buffer's own timestamp) issues one `sendMediaGroup`
call whose `media` array has exactly `n` entries; entry `i` carries the type
and the file id of item `i`; the caption of entry 0 is the first 1024
characters of the caption of item 0, counted as `substring` counts them, in
UTF-16 code units, and every later caption is empty. -/
theorem delaySend_payload (key : Key) (ts : Nat) (b : MediaBuf) (w : World)
    (hget : w.store.get w.now key = some (.mediaBuf b)) (hts : b.last_ts = ts)
    (hne : 1 ≤ b.items.length)
    (hvalid : ∀ it ∈ b.items, it.type.data.isEmpty = false ∧ it.id.data.isEmpty = false) :
    ∃ media : List MediaEntry,
      (delaySend key ts w).2.calls =
          w.calls ++ [.sendMediaGroup b.targetChat b.threadId media] ∧
        media.length = b.items.length ∧
        ∀ i : Nat, ∀ hi : i < b.items.length, ∀ hm : i < media.length,
          (media.get ⟨i, hm⟩).type = (b.items.get ⟨i, hi⟩).type ∧
            (media.get ⟨i, hm⟩).media = (b.items.get ⟨i, hi⟩).id ∧
            (media.get ⟨i, hm⟩).caption.units =
              if i = 0 then (jsUnits (b.items.get ⟨i, hi⟩).cap).units.take 1024 else [] := by
  have hitems : b.items ≠ [] := by
    intro h
    rw [h] at hne
    exact absurd hne (by decide)
  have hbuild := buildMediaFrom_valid b.items 0 hvalid
  have hlen : (buildMedia b.items).length = b.items.length := by
    rw [buildMedia, hbuild, List.length_map, List.enumFrom_length]
  have hmedia : buildMedia b.items ≠ [] := by
    intro h
    rw [h] at hlen
    exact hitems (List.length_eq_zero.mp hlen.symm)
  refine ⟨buildMedia b.items, (delaySend_sends key ts b w hget hts hitems hmedia).1, hlen, ?_⟩
  intro i hi hm
  have hget : (buildMedia b.items).get ⟨i, hm⟩ =
      ({ type := (b.items.get ⟨i, hi⟩).type, media := (b.items.get ⟨i, hi⟩).id,
         caption := if i = 0 then jsSubstring0 (b.items.get ⟨i, hi⟩).cap 1024 else "" } :
        MediaEntry) := by
    simp [buildMedia, hbuild]
  rw [hget]
  refine ⟨rfl, rfl, ?_⟩
  by_cases h0 : i = 0
  · simp [h0, jsSubstring0]
  · simp only [h0, if_false]
    rfl

theorem delaySend_payload_witness :
    bufferedWorld.store.get bufferedWorld.now (.mg "p2t" "g1") = some (.mediaBuf sampleBuffer) ∧
      sampleBuffer.last_ts = 1000 ∧ 1 ≤ sampleBuffer.items.length ∧
      (∀ it ∈ sampleBuffer.items, it.type.data.isEmpty = false ∧ it.id.data.isEmpty = false) ∧
      ∃ media : List MediaEntry,
        (delaySend (.mg "p2t" "g1") 1000 bufferedWorld).2.calls =
            bufferedWorld.calls ++
              [.sendMediaGroup sampleBuffer.targetChat sampleBuffer.threadId media] ∧
          media.length = sampleBuffer.items.length ∧
          ∀ i : Nat, ∀ hi : i < sampleBuffer.items.length, ∀ hm : i < media.length,
            (media.get ⟨i, hm⟩).type = (sampleBuffer.items.get ⟨i, hi⟩).type ∧
              (media.get ⟨i, hm⟩).media = (sampleBuffer.items.get ⟨i, hi⟩).id ∧
              (media.get ⟨i, hm⟩).caption.units =
                if i = 0 then (jsUnits (sampleBuffer.items.get ⟨i, hi⟩).cap).units.take 1024
                else [] :=
  ⟨by decide, by decide, by decide, by decide,
    delaySend_payload (.mg "p2t" "g1") 1000 sampleBuffer bufferedWorld (by decide) (by decide)
      (by decide) (by decide)⟩

/-- The code units of a run of emoji: one surrogate pair for each. -/
theorem emoji_units (n : Nat) :
    (jsUnits (String.mk (List.replicate n '😀'))).units
      = (List.replicate n [0xD83D, 0xDE00]).flatten := by
  have hc : charUnits '😀' = [0xD83D, 0xDE00] := by decide
  simp only [jsUnits, List.map_replicate, hc]

theorem emoji_units_length (n : Nat) :
    ((List.replicate n [0xD83D, 0xDE00]).flatten : List Nat).length = 2 * n := by
  induction n with
  | zero => rfl
  | succ n ih =>
    rw [List.replicate_succ, List.flatten_cons, List.length_append, ih]
    simp only [List.length_cons, List.length_nil]
    omega

theorem emoji_caption_cut :
    (jsUnits (String.mk (List.replicate 600 '😀'))).units.length = 1200 ∧
      (jsSubstring0 (jsUnits (String.mk (List.replicate 600 '😀'))) 1024).units =
        (jsUnits (String.mk (List.replicate 512 '😀'))).units := by
  constructor
  · rw [emoji_units, emoji_units_length]
  · simp only [jsSubstring0]
    rw [emoji_units, emoji_units]
    have h : (List.replicate 600 [0xD83D, 0xDE00] : List (List Nat))
        = List.replicate 512 [0xD83D, 0xDE00] ++ List.replicate 88 [0xD83D, 0xDE00] := by
      rw [List.append_replicate_replicate]
    rw [h, List.flatten_append]
    exact List.take_left' (emoji_units_length 512)

/-- A caption of 600 emoji has 1200 code units: the caption that `delaySend`
sends keeps the first 1024 of them, which are 512 emoji. -/
theorem delaySend_emoji_caption :
    (jsUnits (String.mk (List.replicate 600 '😀'))).units.length = 1200 ∧
      (delaySend (.mg "p2t" "g1") 1000 emojiWorld).2.calls =
        [.sendMediaGroup .supergroup (some 5)
          [{ type := "photo", media := "f1",
             caption := jsUnits (String.mk (List.replicate 512 '😀')) }]] := by
  refine ⟨emoji_caption_cut.1, ?_⟩
  have hcut : jsSubstring0 (jsUnits (String.mk (List.replicate 600 '😀'))) 1024 =
      jsUnits (String.mk (List.replicate 512 '😀')) :=
    congrArg Utf16.mk emoji_caption_cut.2
  have hmedia : buildMedia emojiBuffer.items =
      [{ type := "photo", media := "f1",
         caption := jsSubstring0 (jsUnits (String.mk (List.replicate 600 '😀'))) 1024 }] := rfl
  have h := (delaySend_sends (.mg "p2t" "g1") 1000 emojiBuffer emojiWorld rfl rfl
    (by simp [emojiBuffer]) (by rw [hmedia]; simp)).1
  rw [h, hmedia, hcut]
  rfl

/-! ## A superseded flush (C12) -/

/-- A flush whose buffer is gone, or carries another timestamp, does nothing. -/
theorem delaySend_stale (key : Key) (ts : Nat) (w : World)
    (h : w.store.get w.now key = none ∨
      ∃ b, w.store.get w.now key = some (.mediaBuf b) ∧ b.last_ts ≠ ts) :
    delaySend key ts w = (.ok (), w) := by
  rcases h with h | ⟨b, h, hb⟩
  · simp [delaySend, M.bind_apply, kvGet_apply, h, M.pure_apply]
  · simp [delaySend, M.bind_apply, kvGet_apply, h, hb, M.pure_apply]

/-- The buffer that `handleMediaGroup` leaves behind carries the clock value of
the call. -/
theorem handleMediaGroup_stamps (msg : Msg) (direction : String) (targetChat : ChatId)
    (threadId : Option Nat) (w : World) (hmedia : extractMedia msg ≠ none)
    (hbuf : w.store.get w.now (.mg direction (descText msg.media_group_id)) = none ∨
      ∃ b, w.store.get w.now (.mg direction (descText msg.media_group_id)) =
        some (.mediaBuf b)) :
    ∃ b e, (handleMediaGroup msg direction targetChat threadId w).2.store.find
        (.mg direction (descText msg.media_group_id)) = some ⟨.mediaBuf b, e⟩ ∧
      b.last_ts = w.now := by
  cases hx : extractMedia msg with
  | none => exact absurd hx hmedia
  | some x =>
    obtain ⟨type, id, cap⟩ := x
    cases hg : w.store.get w.now (.mg direction (descText msg.media_group_id)) with
    | none =>
      refine ⟨{ direction := direction, targetChat := targetChat, threadId := threadId,
                items := [] ++ [{ type := type, id := id, cap := cap, msg_id := msg.message_id }],
                last_ts := w.now },
              some (w.now + CONFIG.MEDIA_GROUP_EXPIRE_SECONDS * 1000), ?_, rfl⟩
      simp [handleMediaGroup, hx, M.bind_apply, kvGet_apply, hg, dateNow_apply, kvPut_apply,
        waitUntilDelaySend, Store.find_insert_self]
    | some v =>
      have hv : ∃ b, v = .mediaBuf b := by
        rcases hbuf with h | ⟨b, h⟩
        · rw [hg] at h
          exact absurd h (by simp)
        · rw [hg] at h
          exact ⟨b, Option.some.inj h⟩
      obtain ⟨b, rfl⟩ := hv
      refine ⟨{ b with
                items := b.items ++ [{ type := type, id := id, cap := cap,
                                       msg_id := msg.message_id }],
                last_ts := w.now },
              some (w.now + CONFIG.MEDIA_GROUP_EXPIRE_SECONDS * 1000), ?_, rfl⟩
      simp [handleMediaGroup, hx, M.bind_apply, kvGet_apply, hg, dateNow_apply, kvPut_apply,
        waitUntilDelaySend, Store.find_insert_self]

/-- C12, on the code. Two attachments of one group are buffered by two calls of
`handleMediaGroup` that read the same clock value 1000; both calls schedule a
flush for the timestamp 1000.  The flush scheduled by the first call, run three
seconds later, sends the batch of both attachments and deletes the buffer,
although the second call has updated the buffer after the first. -/
theorem same_instant_flush_sends :
    twoPhotosWorld.scheduled = [(.mg "p2t" "g1", 1000), (.mg "p2t" "g1", 1000)] ∧
      (delaySend (.mg "p2t" "g1") 1000 (twoPhotosWorld.at 4000)).2.calls =
        [.sendMediaGroup .supergroup (some 5)
          [{ type := "photo", media := "f1", caption := "" },
           { type := "photo", media := "f2", caption := "" }]] ∧
      (delaySend (.mg "p2t" "g1") 1000 (twoPhotosWorld.at 4000)).2.store = [] := by
  decide

/-- C12, as the code has it. A flush compares the timestamp it was scheduled
with to the timestamp of the buffer.  It sends nothing and leaves the world as
it is when the buffer is gone, and when the buffer was last written by a call
of `handleMediaGroup` that read another clock value than the one of the flush
(a later call that read the same clock value is not noticed). -/
theorem delaySend_superseded (msg : Msg) (direction : String) (targetChat : ChatId)
    (threadId : Option Nat) (ts : Nat) (w : World) (hmedia : extractMedia msg ≠ none)
    (hbuf : w.store.get w.now (.mg direction (descText msg.media_group_id)) = none ∨
      ∃ b, w.store.get w.now (.mg direction (descText msg.media_group_id)) =
        some (.mediaBuf b))
    (hts : w.now ≠ ts) :
    (∀ W : World, W.store.get W.now (.mg direction (descText msg.media_group_id)) = none →
        delaySend (.mg direction (descText msg.media_group_id)) ts W = (.ok (), W)) ∧
      (∀ W : World,
        W.store.find (.mg direction (descText msg.media_group_id)) =
          (handleMediaGroup msg direction targetChat threadId w).2.store.find
            (.mg direction (descText msg.media_group_id)) →
        delaySend (.mg direction (descText msg.media_group_id)) ts W = (.ok (), W)) := by
  refine ⟨fun W h => delaySend_stale _ ts W (Or.inl h), ?_⟩
  intro W hW
  obtain ⟨b, e, hfind, hb⟩ := handleMediaGroup_stamps msg direction targetChat threadId w hmedia hbuf
  rw [hfind] at hW
  apply delaySend_stale
  by_cases hlive : (⟨.mediaBuf b, e⟩ : Entry).live W.now = true
  · right
    refine ⟨b, ?_, ?_⟩
    · simp [Store.get, hW, hlive]
    · rw [hb]
      exact hts
  · left
    simp [Store.get, hW, hlive]

theorem delaySend_superseded_witness :
    extractMedia (photoMsg 12 "f2") ≠ none ∧
      (bufferedWorld.at 2500).now ≠ 1000 ∧
      (∀ W : World, W.store.get W.now (.mg "p2t" (descText (photoMsg 12 "f2").media_group_id)) = none →
        delaySend (.mg "p2t" (descText (photoMsg 12 "f2").media_group_id)) 1000 W = (.ok (), W)) ∧
      (∀ W : World,
        W.store.find (.mg "p2t" (descText (photoMsg 12 "f2").media_group_id)) =
          (handleMediaGroup (photoMsg 12 "f2") "p2t" .supergroup (some 5)
            (bufferedWorld.at 2500)).2.store.find
            (.mg "p2t" (descText (photoMsg 12 "f2").media_group_id)) →
        delaySend (.mg "p2t" (descText (photoMsg 12 "f2").media_group_id)) 1000 W = (.ok (), W)) :=
  ⟨by decide, by decide,
    delaySend_superseded (photoMsg 12 "f2") "p2t" .supergroup (some 5) 1000
      (bufferedWorld.at 2500)
      (by decide) (Or.inr ⟨sampleBuffer, by decide⟩) (by decide)⟩

/-! ## Closing and reopening a topic (C16) -/

theorem Store.not_mem_liveKeys_filter (s : Store) (now : Nat) (k : Key) :
    k ∉ (Store.liveKeys s now).filter (fun k1 => decide (k1 ≠ k)) := by
  simp [List.mem_filter]

theorem Store.mem_liveKeys (s : Store) (now : Nat) (k : Key) :
    k ∈ Store.liveKeys s now ↔ (s.get now k).isSome = true := by
  induction s with
  | nil => simp [Store.liveKeys, Store.get, Store.find]
  | cons p s ih =>
    obtain ⟨k0, e0⟩ := p
    by_cases hk : k0 = k
    · subst hk
      by_cases hl : e0.live now = true
      · simp [Store.liveKeys, Store.get, Store.find, hl]
      · simp [Store.liveKeys, Store.get, Store.find, hl, List.mem_filter]
    · have hk1 : k ≠ k0 := fun h => hk h.symm
      have ih1 : k ∈ Store.liveKeys s now ↔ (Store.get s now k).isSome = true := ih
      simp only [Store.get] at ih1
      by_cases hl : e0.live now = true
      · simp [Store.liveKeys, Store.get, Store.find, hl, hk, hk1, List.mem_filter, ih1]
      · simp [Store.liveKeys, Store.get, Store.find, hl, hk, hk1, List.mem_filter, ih1]

theorem Store.nodup_liveKeys (s : Store) (now : Nat) : (Store.liveKeys s now).Nodup := by
  induction s with
  | nil => simp [Store.liveKeys]
  | cons p s ih =>
    obtain ⟨k0, e0⟩ := p
    have hf : ((Store.liveKeys s now).filter (fun k1 => decide (k1 ≠ k0))).Nodup := ih.filter _
    by_cases hl : e0.live now = true
    · simp only [Store.liveKeys, hl, if_true]
      exact List.nodup_cons.mpr ⟨Store.not_mem_liveKeys_filter s now k0, hf⟩
    · simp only [Store.liveKeys, hl]
      exact hf

/-- The names that start with `user:` are the names of the conversation records. -/
theorem startsWith_user_iff (k : Key) :
    jsStartsWith k.render "user:" = true ↔ ∃ u, k = .user u := by
  cases k with
  | thread t => cases t <;> simp [Key.render, jsStartsWith, String.data_append]
  | _ => simp [Key.render, jsStartsWith, String.data_append]

/-- The listing `getAllKeys("user:")`: it reads only, and lists each live
conversation record once. -/
theorem getAllKeys_user (w : World) :
    ∃ ks : List Key, getAllKeys "user:" w = (.ok ks, w) ∧ ks.Nodup ∧
      ∀ k, k ∈ ks ↔ (w.store.get w.now k).isSome = true ∧ ∃ u, k = .user u := by
  refine ⟨_, rfl, ?_, ?_⟩
  · exact (List.perm_insertionSort _ _).nodup_iff.mpr ((Store.nodup_liveKeys _ _).filter _)
  · intro k
    rw [(List.perm_insertionSort _ _).mem_iff, List.mem_filter, Store.mem_liveKeys,
      startsWith_user_iff]

theorem updateThreadRound_apply (threadId : Nat) (isClosed : Bool) (k : Key) (w : World) :
    updateThreadRound threadId isClosed k w =
      (.ok (), { w with store := markStore threadId isClosed w.now w.store k }) := by
  cases hg : w.store.get w.now k with
  | none => simp [updateThreadRound, safeGetRec, markStore, markedEntry, hg]
  | some v =>
    cases v with
    | topicRec r =>
      by_cases hr : r.thread_id = some threadId
      · simp [updateThreadRound, safeGetRec, markStore, markedEntry, hg, hr]
      · simp [updateThreadRound, safeGetRec, markStore, markedEntry, hg, hr]
    | _ => simp [updateThreadRound, safeGetRec, markStore, markedEntry, hg]

theorem updateThreadLoop_apply (threadId : Nat) (isClosed : Bool) (ks : List Key) :
    ∀ w : World, updateThreadLoop threadId isClosed ks w =
      (.ok (), { w with store := ks.foldl (markStore threadId isClosed w.now) w.store }) := by
  induction ks with
  | nil => intro w; rfl
  | cons k ks ih =>
    intro w
    simp only [updateThreadLoop, M.bind_apply, updateThreadRound_apply, ih, List.foldl_cons]

theorem markStore_find_of_ne (threadId : Nat) (isClosed : Bool) (now : Nat) (s : Store)
    {k k0 : Key} (h : k0 ≠ k) : (markStore threadId isClosed now s k0).find k = s.find k := by
  unfold markStore
  split
  · exact Store.find_insert_of_ne s _ h
  · rfl

theorem markedEntry_markStore_of_ne (threadId : Nat) (isClosed : Bool) (now : Nat) (s : Store)
    {k k0 : Key} (h : k0 ≠ k) :
    markedEntry threadId isClosed now (markStore threadId isClosed now s k0) k =
      markedEntry threadId isClosed now s k := by
  simp only [markedEntry, Store.get, markStore_find_of_ne threadId isClosed now s h]

theorem markStore_find_self (threadId : Nat) (isClosed : Bool) (now : Nat) (s : Store) (k : Key) :
    (markStore threadId isClosed now s k).find k =
      match markedEntry threadId isClosed now s k with
      | some e => some e
      | none => s.find k := by
  unfold markStore
  cases markedEntry threadId isClosed now s k with
  | none => rfl
  | some e => exact Store.find_insert_self s k e

/-- The store after the loop of `updateThreadStatus` over distinct names. -/
theorem find_foldl_markStore (threadId : Nat) (isClosed : Bool) (now : Nat) (k : Key)
    (ks : List Key) :
    ∀ s : Store, ks.Nodup →
      (ks.foldl (markStore threadId isClosed now) s).find k =
        if k ∈ ks then
          match markedEntry threadId isClosed now s k with
          | some e => some e
          | none => s.find k
        else s.find k := by
  induction ks with
  | nil => intro s _; simp
  | cons k0 ks ih =>
    intro s hnd
    obtain ⟨hk0, hks⟩ := List.nodup_cons.mp hnd
    rw [List.foldl_cons, ih _ hks]
    by_cases hk : k0 = k
    · subst hk
      simp [hk0, markStore_find_self]
    · have hk1 : k ≠ k0 := fun h => hk h.symm
      simp only [List.mem_cons, hk1, false_or, markedEntry_markStore_of_ne _ _ _ _ hk,
        markStore_find_of_ne _ _ _ _ hk]

theorem updateThreadStatus_apply (threadId : Nat) (isClosed : Bool) (w : World) :
    ∃ ks : List Key, ks.Nodup ∧
      (∀ k, k ∈ ks ↔ (w.store.get w.now k).isSome = true ∧ ∃ u, k = .user u) ∧
      updateThreadStatus threadId isClosed w =
        (.ok (), { w with store := ks.foldl (markStore threadId isClosed w.now) w.store }) := by
  obtain ⟨ks, hks, hnd, hmem⟩ := getAllKeys_user w
  refine ⟨ks, hnd, hmem, ?_⟩
  simp only [updateThreadStatus, tryCatch, M.bind_apply, hks, updateThreadLoop_apply]

/-- C16. `updateThreadStatus(T, b)` returns; every conversation record whose
`thread_id` is `T` (there may be several) is stored again with `closed = b` and
its `thread_id` and `title` as they were; every other key of the store keeps its
entry. -/
theorem updateThreadStatus_frame (threadId : Nat) (isClosed : Bool) (w : World) :
    (updateThreadStatus threadId isClosed w).1 = .ok () ∧
      (∀ u r, w.store.get w.now (.user u) = some (.topicRec r) → r.thread_id = some threadId →
        (updateThreadStatus threadId isClosed w).2.store.find (.user u) =
          some ⟨.topicRec { thread_id := r.thread_id, title := r.title, closed := isClosed },
            none⟩) ∧
      (∀ k, (∀ u r, k = .user u → w.store.get w.now k = some (.topicRec r) →
            r.thread_id ≠ some threadId) →
        (updateThreadStatus threadId isClosed w).2.store.find k = w.store.find k) := by
  obtain ⟨ks, hnd, hmem, happly⟩ := updateThreadStatus_apply threadId isClosed w
  rw [happly]
  refine ⟨rfl, ?_, ?_⟩
  · intro u r hget hr
    have hin : Key.user u ∈ ks := (hmem _).mpr ⟨by simp [hget], u, rfl⟩
    simp only [find_foldl_markStore _ _ _ _ _ _ hnd, hin, if_true, markedEntry, hget, hr]
  · intro k hk
    simp only [find_foldl_markStore _ _ _ _ _ _ hnd]
    by_cases hin : k ∈ ks
    · obtain ⟨_, u, hu⟩ := (hmem k).mp hin
      have hnone : markedEntry threadId isClosed w.now w.store k = none := by
        unfold markedEntry
        cases hg : w.store.get w.now k with
        | none => rfl
        | some v =>
          cases v with
          | topicRec r => simp [hk u r hu hg]
          | _ => rfl
      simp [hin, hnone]
    · simp [hin]

theorem updateThreadStatus_frame_witness :
    (updateThreadStatus 5 true duplicateWorld).1 = .ok () ∧
      (updateThreadStatus 5 true duplicateWorld).2.store.find (.user 7) =
        some ⟨.topicRec { thread_id := some 5, title := some "Alice", closed := true }, none⟩ ∧
      (updateThreadStatus 5 true duplicateWorld).2.store.find (.user 8) =
        some ⟨.topicRec { thread_id := some 5, title := some "Bob", closed := true }, none⟩ ∧
      (updateThreadStatus 5 true duplicateWorld).2.store.find (.user 9) =
        duplicateWorld.store.find (.user 9) ∧
      (updateThreadStatus 5 true duplicateWorld).2.store.find (.thread (some 5)) =
        duplicateWorld.store.find (.thread (some 5)) :=
  ⟨(updateThreadStatus_frame 5 true duplicateWorld).1,
    (updateThreadStatus_frame 5 true duplicateWorld).2.1 7
      { thread_id := some 5, title := some "Alice", closed := false } (by decide) (by decide),
    (updateThreadStatus_frame 5 true duplicateWorld).2.1 8
      { thread_id := some 5, title := some "Bob", closed := false } (by decide) (by decide),
    (updateThreadStatus_frame 5 true duplicateWorld).2.2 (.user 9) (by
      intro u r _ hget
      have h : duplicateWorld.store.get duplicateWorld.now (.user 9) =
          some (.topicRec { thread_id := some 6, title := some "Carol", closed := false }) := by
        decide
      rw [h] at hget
      cases hget
      decide),
    (updateThreadStatus_frame 5 true duplicateWorld).2.2 (.thread (some 5)) (by
      intro u r hk
      cases hk)⟩

/-! ## Lookup of the user of a topic by the staff reply handler (C15) -/

theorem getAllKeys_quiet (pre : String) : Quiet (getAllKeys pre) := fun _ => ⟨rfl, rfl⟩

theorem safeGetRec_apply (k : Key) (w : World) :
    ∃ r, safeGetRec k w = (.ok r, w) ∧
      (∀ r1, w.store.get w.now k = some (.topicRec r1) → r = some r1) ∧
      (∀ r1 t, r = some r1 → r1.thread_id = some t → w.store.get w.now k = some (.topicRec r1)) := by
  cases hg : w.store.get w.now k with
  | none => exact ⟨none, by simp [safeGetRec, hg], by simp, by simp⟩
  | some v =>
    cases v with
    | topicRec r =>
      refine ⟨some r, by simp [safeGetRec, hg], ?_, ?_⟩
      · intro r1 h
        cases h
        rfl
      · intro r1 t h _
        cases h
        rfl
    | text s => exact ⟨none, by simp [safeGetRec, hg], by simp, by simp⟩
    | chalState c =>
      refine ⟨_, by simp [safeGetRec, hg]; rfl, by simp, ?_⟩
      intro r1 t h ht
      cases h
      cases ht
    | mediaBuf b =>
      refine ⟨_, by simp [safeGetRec, hg]; rfl, by simp, ?_⟩
      intro r1 t h ht
      cases h
      cases ht

/-- The scan reads only; when one of the listed names holds a record of the
topic, it yields a user whose record carries the topic. -/
theorem scanForThread_spec (T : Nat) (ks : List Key) (w : World)
    (hks : ∀ k ∈ ks, ∃ u, k = Key.user u) :
    ∃ res, scanForThread (some T) ks w = (.ok res, w) ∧
      ((∃ k ∈ ks, ∃ r, w.store.get w.now k = some (.topicRec r) ∧ r.thread_id = some T) →
        ∃ u r, res = some u ∧ w.store.get w.now (.user u) = some (.topicRec r) ∧
          r.thread_id = some T) := by
  induction ks with
  | nil => exact ⟨none, rfl, by simp⟩
  | cons k ks ih =>
    obtain ⟨u, rfl⟩ := hks k (List.mem_cons_self _ _)
    obtain ⟨res, hres, hfound⟩ := ih (fun k hk => hks k (List.mem_cons_of_mem _ hk))
    obtain ⟨r, hr, hsome, hback⟩ := safeGetRec_apply (.user u) w
    cases r with
    | none =>
      refine ⟨res, by simp [scanForThread, M.bind_apply, hr, hres], ?_⟩
      rintro ⟨k, hk, r1, hget, hT⟩
      rcases List.mem_cons.mp hk with rfl | hk
      · exact absurd (hsome r1 hget) (by simp)
      · exact hfound ⟨k, hk, r1, hget, hT⟩
    | some r0 =>
      by_cases hm : r0.thread_id = some T
      · refine ⟨some u, by simp [scanForThread, M.bind_apply, hr, hm, jsNumberEq], ?_⟩
        intro _
        exact ⟨u, r0, rfl, hback r0 T rfl hm, hm⟩
      · have hne : jsNumberEq r0.thread_id (some T) = false := by
          cases ht : r0.thread_id with
          | none => rfl
          | some t =>
            have : t ≠ T := fun h => hm (by rw [ht, h])
            simp [jsNumberEq, this]
        refine ⟨res, by simp [scanForThread, M.bind_apply, hr, hne, hres], ?_⟩
        rintro ⟨k, hk, r1, hget, hT⟩
        rcases List.mem_cons.mp hk with rfl | hk
        · have := hsome r1 hget
          cases this
          exact absurd hT hm
        · exact hfound ⟨k, hk, r1, hget, hT⟩

/-- The lookup when the reverse index has no entry for the topic and a record
of the topic exists: it yields a user whose record carries the topic, and
writes nothing. -/
theorem lookupUser_scan (T : Nat) (w : World)
    (hindex : truthy (w.store.get w.now (.thread (some T))) = false)
    (hrec : ∃ u r, w.store.get w.now (.user u) = some (.topicRec r) ∧ r.thread_id = some T) :
    ∃ u r, lookupUser (some T) w = (.ok (some u), w) ∧
      w.store.get w.now (.user u) = some (.topicRec r) ∧ r.thread_id = some T := by
  obtain ⟨ks, hks, _, hmem⟩ := getAllKeys_user w
  obtain ⟨res, hres, hfound⟩ := scanForThread_spec T ks w (fun k hk => ((hmem k).mp hk).2)
  obtain ⟨u0, r0, hget0, hT0⟩ := hrec
  obtain ⟨u, r, rfl, hget, hT⟩ :=
    hfound ⟨.user u0, (hmem _).mpr ⟨by simp [hget0], u0, rfl⟩, r0, hget0, hT0⟩
  refine ⟨u, r, ?_, hget, hT⟩
  simp [lookupUser, M.bind_apply, kvGet_apply, hindex, hks, hres]

theorem nameLe_total : ∀ a b : List Char, nameLe a b = true ∨ nameLe b a = true
  | [], _ => Or.inl (by simp [nameLe])
  | _ :: _, [] => Or.inr (by simp [nameLe])
  | a :: as, b :: bs => by
    rcases Nat.lt_trichotomy a.toNat b.toNat with h | h | h
    · left
      simp [nameLe, h]
    · rcases nameLe_total as bs with h1 | h1
      · left
        simp [nameLe, h, h1]
      · right
        simp [nameLe, h, h1]
    · right
      simp [nameLe, h]

theorem nameLe_trans : ∀ a b c : List Char, nameLe a b = true → nameLe b c = true →
    nameLe a c = true
  | [], _, _, _, _ => by simp [nameLe]
  | _ :: _, [], _, h, _ => by simp [nameLe] at h
  | _ :: _, _ :: _, [], _, h => by simp [nameLe] at h
  | a :: as, b :: bs, c :: cs, h1, h2 => by
    simp only [nameLe] at h1 h2 ⊢
    by_cases hab : a.toNat < b.toNat
    · by_cases hbc : b.toNat < c.toNat
      · have : a.toNat < c.toNat := Nat.lt_trans hab hbc
        simp [this]
      · by_cases hcb : c.toNat < b.toNat
        · simp [hbc, hcb] at h2
        · have : a.toNat < c.toNat := by omega
          simp [this]
    · by_cases hba : b.toNat < a.toNat
      · simp [hab, hba] at h1
      · simp only [hab, hba, if_false] at h1
        by_cases hbc : b.toNat < c.toNat
        · have : a.toNat < c.toNat := by omega
          simp [this]
        · by_cases hcb : c.toNat < b.toNat
          · simp [hbc, hcb] at h2
          · simp only [hbc, hcb, if_false] at h2
            have h3 : ¬ a.toNat < c.toNat := by omega
            have h4 : ¬ c.toNat < a.toNat := by omega
            simp only [h3, h4, if_false]
            exact nameLe_trans as bs cs h1 h2

/-- The listing `getAllKeys("user:")`: it reads only, and lists each live
conversation record once, in the order of the names. -/
theorem getAllKeys_user_sorted (w : World) :
    ∃ ks : List Key, getAllKeys "user:" w = (.ok ks, w) ∧ ks.Sorted ListedBefore ∧
      ∀ k, k ∈ ks ↔ (w.store.get w.now k).isSome = true ∧ ∃ u, k = .user u := by
  haveI : IsTotal Key ListedBefore := ⟨fun _ _ => nameLe_total _ _⟩
  haveI : IsTrans Key ListedBefore := ⟨fun _ _ _ => nameLe_trans _ _ _⟩
  obtain ⟨ks, hks, _, hmem⟩ := getAllKeys_user w
  refine ⟨ks, hks, ?_, hmem⟩
  have h : ks = List.insertionSort ListedBefore
      ((w.store.liveKeys w.now).filter (fun k => jsStartsWith k.render "user:")) := by
    have := hks
    simp only [getAllKeys, Prod.mk.injEq, Outcome.ok.injEq, and_true] at this
    exact this.symm
  rw [h]
  exact List.sorted_insertionSort ListedBefore _

theorem scanForThread_hit (T u : Nat) (ks : List Key) (w : World)
    (h : CarriesTopic w (.user u) T) :
    scanForThread (some T) (.user u :: ks) w = (.ok (some u), w) := by
  obtain ⟨r, hget, hT⟩ := h
  simp [scanForThread, safeGetRec, M.bind_apply, kvGet_apply, hget, hT, jsNumberEq]

theorem scanForThread_skip (T : Nat) (k : Key) (ks : List Key) (w : World)
    (h : ¬ CarriesTopic w k T) :
    scanForThread (some T) (k :: ks) w = scanForThread (some T) ks w := by
  obtain ⟨r, hr, hsome, hback⟩ := safeGetRec_apply k w
  cases r with
  | none => simp [scanForThread, M.bind_apply, hr]
  | some r0 =>
    have hne : jsNumberEq r0.thread_id (some T) = false := by
      cases ht : r0.thread_id with
      | none => rfl
      | some t =>
        have : t ≠ T := by
          intro e
          subst e
          exact h ⟨r0, hback r0 t rfl ht, ht⟩
        simp [jsNumberEq, this]
    simp [scanForThread, M.bind_apply, hr, hne]

/-- The scan yields the user of the first listed record that carries the topic. -/
theorem scanForThread_first (T u : Nat) (post : List Key) (w : World) :
    ∀ pre : List Key, (∀ k ∈ pre, ¬ CarriesTopic w k T) → CarriesTopic w (.user u) T →
      scanForThread (some T) (pre ++ .user u :: post) w = (.ok (some u), w)
  | [], _, h => scanForThread_hit T u post w h
  | k :: pre, hpre, h => by
    rw [List.cons_append, scanForThread_skip T k _ w (hpre k (List.mem_cons_self _ _))]
    exact scanForThread_first T u post w pre
      (fun k1 hk1 => hpre k1 (List.mem_cons_of_mem _ hk1)) h

/-- A list with an element that has a property splits at the first such
element. -/
theorem split_at_first {α : Type} (p : α → Prop) :
    ∀ l : List α, (∃ x ∈ l, p x) →
      ∃ pre x post, l = pre ++ x :: post ∧ p x ∧ ∀ y ∈ pre, ¬ p y
  | [], h => by
    obtain ⟨x, hx, _⟩ := h
    simp at hx
  | a :: l, h => by
    by_cases ha : p a
    · exact ⟨[], a, l, rfl, ha, by simp⟩
    · have hl : ∃ x ∈ l, p x := by
        obtain ⟨x, hx, hpx⟩ := h
        rcases List.mem_cons.mp hx with rfl | hx
        · exact absurd hpx ha
        · exact ⟨x, hx, hpx⟩
      obtain ⟨pre, x, post, hsplit, hx, hpre⟩ := split_at_first p l hl
      refine ⟨a :: pre, x, post, by rw [hsplit]; rfl, hx, ?_⟩
      intro y hy
      rcases List.mem_cons.mp hy with rfl | hy
      · exact ha
      · exact hpre y hy

/-- The lookup when the reverse index has no entry for the topic and a record
of the topic exists: it writes nothing and yields the user of the first listed
record that carries the topic. -/
theorem lookupUser_first (T : Nat) (w : World)
    (hindex : truthy (w.store.get w.now (.thread (some T))) = false)
    (hrec : ∃ u, CarriesTopic w (.user u) T) :
    ∃ (ks pre post : List Key) (u : Nat),
      getAllKeys "user:" w = (.ok ks, w) ∧ ks.Sorted ListedBefore ∧
      (∀ k, k ∈ ks ↔ (w.store.get w.now k).isSome = true ∧ ∃ u, k = .user u) ∧
      ks = pre ++ Key.user u :: post ∧ (∀ k ∈ pre, ¬ CarriesTopic w k T) ∧
      CarriesTopic w (.user u) T ∧ lookupUser (some T) w = (.ok (some u), w) := by
  obtain ⟨ks, hks, hsorted, hmem⟩ := getAllKeys_user_sorted w
  obtain ⟨u0, hu0⟩ := hrec
  have hin : Key.user u0 ∈ ks := by
    obtain ⟨r, hget, _⟩ := hu0
    exact (hmem _).mpr ⟨by simp [hget], u0, rfl⟩
  obtain ⟨pre, x, post, hsplit, hx, hpre⟩ :=
    split_at_first (fun k => CarriesTopic w k T) ks ⟨_, hin, hu0⟩
  have hxin : x ∈ ks := by
    rw [hsplit]
    simp
  obtain ⟨u, rfl⟩ := ((hmem x).mp hxin).2
  refine ⟨ks, pre, post, u, hks, hsorted, hmem, hsplit, hpre, hx, ?_⟩
  simp only [lookupUser, M.bind_apply, kvGet_apply, hindex, Bool.false_eq_true, if_false, hks]
  rw [hsplit]
  exact scanForThread_first T u post w pre hpre hx

/-- The relay of a staff message that is no command and no part of a media
group: one `copyMessage` to the user, and no write to the store. -/
theorem replyForUser_plain (msg : Msg) (threadId : Option Nat) (text : String) (userId : Nat)
    (w : World) (htext : text ∉ staffCommands) (hgroup : truthyStr msg.media_group_id = false) :
    (replyForUser msg threadId text userId w).2.store = w.store ∧
      (replyForUser msg threadId text userId w).2.calls =
        w.calls ++ [.copyMessage (.user userId) .supergroup msg.message_id none] := by
  simp only [staffCommands, List.mem_cons, List.mem_singleton, List.not_mem_nil, or_false,
    not_or] at htext
  obtain ⟨_, h1, h2, h3, h4, h5, h6, h7⟩ := htext
  cases hg : w.gateway w.calls.length <;>
    simp [replyForUser, h1, h2, h3, h4, h5, h6, h7, hgroup, M.bind_apply, tgCall, hg]

/-- C15, on the code. The record of user 7 carries the topic 5 and the reverse
index `thread:5` is missing.  A staff message in the topic 5 is resolved by the
scan and copied to user 7, but the store is left as it was: `thread:5` is still
missing after `handleAdminReply`. -/
theorem scan_does_not_repair_index :
    orphanWorld.store.get orphanWorld.now (.thread (some 5)) = none ∧
      (handleAdminReply (staffMsg "hello") orphanWorld).2.calls =
        [.copyMessage (.user 7) .supergroup 77 none] ∧
      (handleAdminReply (staffMsg "hello") orphanWorld).2.store = orphanWorld.store ∧
      (handleAdminReply (staffMsg "hello") orphanWorld).2.store.find (.thread (some 5)) = none := by
  decide

/-- C15, as the code has it. When the reverse index has no entry for the topic
of a staff message and a conversation record carries that topic, the lookup
resolves to the user of the first record that carries the topic in the listing
of the keys `user:<id>`, which is ordered by key name: a message that is no
command and no part of a media group is copied to that user.  The store is left
as it was; the reverse index is not repaired. -/
theorem handleAdminReply_scan (msg : Msg) (T : Nat) (w : World)
    (hthread : msg.message_thread_id = some T)
    (hindex : truthy (w.store.get w.now (.thread (some T))) = false)
    (hrec : ∃ u, CarriesTopic w (.user u) T)
    (htext : jsTrim (orEmpty msg.text) ∉ staffCommands)
    (hgroup : truthyStr msg.media_group_id = false) :
    ∃ (ks pre post : List Key) (u : Nat),
      getAllKeys "user:" w = (.ok ks, w) ∧ ks.Sorted ListedBefore ∧
      (∀ k, k ∈ ks ↔ (w.store.get w.now k).isSome = true ∧ ∃ u, k = .user u) ∧
      ks = pre ++ Key.user u :: post ∧ (∀ k ∈ pre, ¬ CarriesTopic w k T) ∧
      CarriesTopic w (.user u) T ∧
      (handleAdminReply msg w).2.store = w.store ∧
      (u ≠ 0 → (handleAdminReply msg w).2.calls =
        w.calls ++ [.copyMessage (.user u) .supergroup msg.message_id none]) := by
  obtain ⟨ks, pre, post, u, hks, hsorted, hmem, hsplit, hpre, hu, hlook⟩ :=
    lookupUser_first T w hindex hrec
  have hcleanup : jsTrim (orEmpty msg.text) ≠ "/cleanup" := by
    intro h
    exact htext (by simp [staffCommands, h])
  have hplain := replyForUser_plain msg (some T) (jsTrim (orEmpty msg.text)) u w htext hgroup
  refine ⟨ks, pre, post, u, hks, hsorted, hmem, hsplit, hpre, hu, ?_, ?_⟩
  · by_cases hu0 : u = 0
    · simp [handleAdminReply, hcleanup, hthread, M.bind_apply, hlook, hu0]
    · simp only [handleAdminReply, hcleanup, hthread, M.bind_apply, hlook, hu0, if_false]
      exact hplain.1
  · intro hu0
    simp only [handleAdminReply, hcleanup, hthread, M.bind_apply, hlook, hu0, if_false]
    exact hplain.2

/-- With the records of the users 7 and 10 both on topic 5, the name `user:10`
is listed before `user:7`: the staff message is copied to user 10. -/
theorem scan_takes_first_listed :
    (getAllKeys "user:" twinsWorld).1 = .ok [.user 10, .user 7] ∧
      (handleAdminReply (staffMsg "hello") twinsWorld).2.calls =
        [.copyMessage (.user 10) .supergroup 77 none] ∧
      (handleAdminReply (staffMsg "hello") twinsWorld).2.store = twinsWorld.store := by
  decide

theorem handleAdminReply_scan_witness :
    (staffMsg "hello").message_thread_id = some 5 ∧
      truthy (twinsWorld.store.get twinsWorld.now (.thread (some 5))) = false ∧
      CarriesTopic twinsWorld (.user 7) 5 ∧
      jsTrim (orEmpty (staffMsg "hello").text) ∉ staffCommands ∧
      truthyStr (staffMsg "hello").media_group_id = false ∧
      ∃ (ks pre post : List Key) (u : Nat),
        getAllKeys "user:" twinsWorld = (.ok ks, twinsWorld) ∧ ks.Sorted ListedBefore ∧
        (∀ k, k ∈ ks ↔
          (twinsWorld.store.get twinsWorld.now k).isSome = true ∧ ∃ u, k = .user u) ∧
        ks = pre ++ Key.user u :: post ∧ (∀ k ∈ pre, ¬ CarriesTopic twinsWorld k 5) ∧
        CarriesTopic twinsWorld (.user u) 5 ∧
        (handleAdminReply (staffMsg "hello") twinsWorld).2.store = twinsWorld.store ∧
        (u ≠ 0 → (handleAdminReply (staffMsg "hello") twinsWorld).2.calls =
          twinsWorld.calls ++
            [.copyMessage (.user u) .supergroup (staffMsg "hello").message_id none]) :=
  have h7 : CarriesTopic twinsWorld (.user 7) 5 :=
    ⟨{ thread_id := some 5, title := some "Alice", closed := false }, by decide, by decide⟩
  ⟨by decide, by decide, h7, by decide, by decide,
    handleAdminReply_scan (staffMsg "hello") 5 twinsWorld (by decide) (by decide) ⟨7, h7⟩
      (by decide) (by decide)⟩


theorem scanForThread_preserves {β : Type} {f : World → β} (hf : StoreObs f)
    (threadId : Option Nat) (ks : List Key) : Preserves f (scanForThread threadId ks) := by
  induction ks with
  | nil => exact Preserves.pure _ _
  | cons k ks ih =>
    unfold scanForThread
    refine Preserves.bind (safeGetRec_preserves hf _) ?_
    intro r
    dsimp only
    split
    · split <;> exact Preserves.pure _ _
    · exact ih

theorem lookupUser_preserves {β : Type} {f : World → β} (hf : StoreObs f)
    (threadId : Option Nat) : Preserves f (lookupUser threadId) := by
  unfold lookupUser
  refine Preserves.bind (Preserves.of_quiet hf (kvGet_quiet _)) ?_
  intro mappedUser
  split
  · split <;> exact Preserves.pure _ _
  · refine Preserves.bind (Preserves.of_quiet hf (getAllKeys_quiet _)) ?_
    intro ks
    exact scanForThread_preserves hf _ _

theorem replyForUser_preserves {β : Type} {f : World → β} (hf : StoreObs f) (msg : Msg)
    (threadId : Option Nat) (text : String) (userId : Nat)
    (huser : Allows f (.user userId)) (hverified : Allows f (.verified userId))
    (hbanned : Allows f (.banned userId)) (hmg : ∀ d g, Allows f (.mg d g)) :
    Preserves f (replyForUser msg threadId text userId) := by
  unfold replyForUser
  dsimp only
  repeat' (first
    | exact Preserves.pure _ _
    | exact Preserves.of_quiet hf (tgCall_quiet _)
    | exact Preserves.of_quiet hf (kvGet_quiet _)
    | exact safeGetRec_preserves hf _
    | exact handleMediaGroup_preserves hf _ _ _ _ hmg
    | exact huser.1 _ _
    | exact hverified.1 _ _
    | exact hverified.2
    | exact hbanned.1 _ _
    | exact hbanned.2
    | refine Preserves.ite ?_ ?_
    | refine Preserves.bind ?_ ?_
    | intro _
    | split)

/-- No branch of `handleAdminReply` other than `/cleanup` touches a key of the
reverse index. -/
theorem handleAdminReply_keeps_index (msg : Msg) (t : Option Nat)
    (htext : jsTrim (orEmpty msg.text) ≠ "/cleanup") :
    Preserves (fun w : World => w.store.find (.thread t)) (handleAdminReply msg) := by
  unfold handleAdminReply
  simp only [htext, if_false]
  refine Preserves.bind (lookupUser_preserves (find_storeObs _) _) ?_
  intro userId
  split
  · split
    · exact Preserves.pure _ _
    · exact replyForUser_preserves (find_storeObs _) _ _ _ _ (allows_find (by simp))
        (allows_find (by simp)) (allows_find (by simp)) (fun d g => allows_find (by simp))
  · exact Preserves.pure _ _

/-! ## Classification of probe responses by the bulk cleanup (C14) -/

/-- The end of a cleanup task that keeps the record writes nothing. -/
theorem cleanupKeep_store (res : TgResult) (w : World) : (cleanupKeep res w).2.store = w.store := by
  cases hd : w.gateway w.calls.length <;>
    by_cases hk : (res.ok && truthyNum (res.result.bind fun m => m.message_id)) = true <;>
    simp [cleanupKeep, hk, tryCatch, tgCall, hd, M.bind_apply]

/-- The cleanup task on a record of topic `T` whose probe is answered with
`res`: the record, the verified marker and the reverse index are deleted when
`cleanupReportsLoss` holds, and the store is left as it was otherwise. -/
theorem cleanupTask_store (u T : Nat) (r : TopicRec) (res : TgResult) (w : World)
    (hrec : w.store.get w.now (.user u) = some (.topicRec r)) (hT : r.thread_id = some T)
    (hT0 : T ≠ 0) (hres : w.gateway w.calls.length = .resp res) :
    (cleanupTask u w).2.store =
      if cleanupReportsLoss res T = true then
        ((w.store.erase (.user u)).erase (.verified u)).erase (.thread (some T))
      else w.store := by
  have hT1 : truthyNum (some T) = true := by simp [truthyNum, hT0]
  cases hok : res.ok <;>
    cases hb : cleanupRedirected (res.result.bind fun m => m.message_thread_id) (some T) <;>
    cases hi1 : jsIncludes (jsToLowerCase (orEmpty res.description)) "thread not found" <;>
    cases hi2 : jsIncludes (jsToLowerCase (orEmpty res.description)) "topic not found" <;>
    cases hi3 : jsIncludes (jsToLowerCase (orEmpty res.description))
      "message thread not found" <;>
    simp [cleanupTask, cleanupReportsLoss, safeGetRec, M.bind_apply, kvGet_apply, hrec, hT, hT1,
      tgCall, hres, hok, hb, hi1, hi2, hi3, cleanupKeep_store]

/-- C14, on the code. The probe of topic 5 is answered with a success that
carries no topic id, the sign of a silent redirect to the General topic.  The
bulk cleanup keeps the record of user 7, its reverse index and its verified
marker (it only deletes the probe message), whereas the health check of
`forwardToTopic`, given the same response, drops the reverse index of topic 5
and recreates the topic. -/
theorem cleanup_keeps_what_relay_recreates :
    cleanupReportsLoss silentResponse 5 = false ∧ probeReportsLoss silentResponse 5 = true ∧
      (handleCleanupCommand (some 1) (topicWorld (respondAt 1 silentResponse))).2.store =
        (topicWorld (respondAt 1 silentResponse)).store ∧
      (handleCleanupCommand (some 1) (topicWorld (respondAt 1 silentResponse))).2.calls.take 3 =
        [.sendMessage .supergroup (some 1) "🔄 **正在扫描需要清理的用户...**" none [],
         probeCall 5, .deleteMessage .supergroup (some 900)] ∧
      (forwardToTopic (plainMsg 1) 7 (.user 7) sampleEnv
        (topicWorld (respondAt 0 silentResponse))).2.calls =
        [probeCall 5, .createForumTopic .supergroup "Alice",
         .forwardMessage .supergroup (.user 7) 1 (some 9)] ∧
      (forwardToTopic (plainMsg 1) 7 (.user 7) sampleEnv
        (topicWorld (respondAt 0 silentResponse))).2.store.find (.thread (some 5)) = none := by
  decide

/-- The classification of probe responses by the cleanup task.  For a record of
topic `T` and every gateway response `res` to the probe, the task removes the
record, the verified marker and the reverse index exactly when `res` carries
another topic id than `T`, or failed with one of the three not-found
descriptions; otherwise it leaves the store as it was.  Every response on which
the cleanup removes the record is one the health check of `forwardToTopic`
treats as a lost topic. -/
theorem cleanupTask_classifies (u T : Nat) (r : TopicRec) (res : TgResult) (w : World)
    (hrec : w.store.get w.now (.user u) = some (.topicRec r)) (hT : r.thread_id = some T)
    (hT0 : T ≠ 0) (hres : w.gateway w.calls.length = .resp res) :
    (cleanupTask u w).2.store =
        (if cleanupReportsLoss res T = true then
          ((w.store.erase (.user u)).erase (.verified u)).erase (.thread (some T))
        else w.store) ∧
      cleanupReportsLoss res T =
        (cleanupRedirected (res.result.bind fun m => m.message_thread_id) (some T) ||
          (!res.ok && sendDeletionText (jsToLowerCase (orEmpty res.description)))) ∧
      (cleanupReportsLoss res T = true → probeReportsLoss res T = true) := by
  refine ⟨cleanupTask_store u T r res w hrec hT hT0 hres, ?_, ?_⟩
  · cases hok : res.ok <;>
      cases hb : cleanupRedirected (res.result.bind fun m => m.message_thread_id) (some T) <;>
      simp [cleanupReportsLoss, sendDeletionText, hok, hb]
  · cases hok : res.ok
    · intro _
      simp [probeReportsLoss, hok]
    · cases hact : res.result.bind fun m => m.message_thread_id with
      | none => simp [cleanupReportsLoss, cleanupRedirected, hok, hact, truthyNum]
      | some a =>
        by_cases ha : a = T
        · simp [cleanupReportsLoss, cleanupRedirected, hok, hact, ha]
        · simp [probeReportsLoss, threadMismatch, hok, hact, ha]

theorem cleanupTask_classifies_witness :
    (topicWorld (respondAt 0 (success 9))).store.get (topicWorld (respondAt 0 (success 9))).now
        (.user 7) = some (.topicRec { thread_id := some 5, title := some "Alice", closed := false }) ∧
      (5 : Nat) ≠ 0 ∧
      (topicWorld (respondAt 0 (success 9))).gateway
        (topicWorld (respondAt 0 (success 9))).calls.length = .resp (success 9) ∧
      (cleanupTask 7 (topicWorld (respondAt 0 (success 9)))).2.store =
        (if cleanupReportsLoss (success 9) 5 = true then
          (((topicWorld (respondAt 0 (success 9))).store.erase (.user 7)).erase
            (.verified 7)).erase (.thread (some 5))
        else (topicWorld (respondAt 0 (success 9))).store) ∧
      cleanupReportsLoss (success 9) 5 =
        (cleanupRedirected ((success 9).result.bind fun m => m.message_thread_id) (some 5) ||
          (!(success 9).ok && sendDeletionText (jsToLowerCase (orEmpty (success 9).description)))) ∧
      (cleanupReportsLoss (success 9) 5 = true → probeReportsLoss (success 9) 5 = true) :=
  ⟨by decide, by decide, by decide,
    cleanupTask_classifies 7 5 { thread_id := some 5, title := some "Alice", closed := false }
      (success 9) (topicWorld (respondAt 0 (success 9))) (by decide) rfl (by decide) (by decide)⟩

/-! ## Topic titles (C21) -/

theorem Utf16.units_append (a b : Utf16) : (a ++ b).units = a.units ++ b.units := rfl

/-- The title in terms of the constants `cleanName` and `usernameStr`. -/
theorem buildTopicTitle_eq (sender : Sender) :
    buildTopicTitle sender =
      jsSubstring0
        ((if (cleanName sender).units.isEmpty then jsUnits "User" else cleanName sender) ++
          usernameStr sender) CONFIG.MAX_TITLE_LENGTH := rfl

theorem usernameStr_length (sender : Sender) : (usernameStr sender).units.length ≤ 22 := by
  have hu : ∀ u : Utf16, u.units.length ≤ 20 →
      (if u.units.isEmpty then jsUnits "" else jsUnits " @" ++ u).units.length ≤ 22 := by
    intro u hlen
    split
    · exact Nat.zero_le _
    · rw [Utf16.units_append, List.length_append]
      have h2 : (jsUnits " @").units.length = 2 := rfl
      omega
  apply hu
  split
  · exact (List.length_take_le _ _)
  · exact Nat.zero_le _

/-- C21. For every sender, `buildTopicTitle` returns a non-empty string of at
most 128 characters (UTF-16 code units, the characters of a JavaScript
string); when the cleaned first and last name are empty the title is the name
`User`, followed by the username part if there is one. -/
theorem buildTopicTitle_bounded (sender : Sender) :
    (buildTopicTitle sender).units ≠ [] ∧ (buildTopicTitle sender).units.length ≤ 128 ∧
      ((cleanName sender).units = [] →
        buildTopicTitle sender = "User" ++ usernameStr sender) := by
  rw [buildTopicTitle_eq]
  refine ⟨?_, ?_, ?_⟩
  · have hname :
        (if (cleanName sender).units.isEmpty then jsUnits "User" else cleanName sender).units
          ≠ [] := by
      split
      · decide
      · rename_i h
        intro h1
        exact h (by simp [h1])
    simp only [jsSubstring0, Utf16.units_append, CONFIG.MAX_TITLE_LENGTH]
    cases hn :
        (if (cleanName sender).units.isEmpty then jsUnits "User" else cleanName sender).units with
    | nil => exact absurd hn hname
    | cons c cs => simp
  · simp only [jsSubstring0, CONFIG.MAX_TITLE_LENGTH]
    exact List.length_take_le _ _
  · intro hempty
    have hlen := usernameStr_length sender
    have h4 : (jsUnits "User").units.length = 4 := rfl
    simp only [hempty, List.isEmpty_nil, if_true, jsSubstring0, CONFIG.MAX_TITLE_LENGTH]
    rw [List.take_of_length_le]
    rw [Utf16.units_append, List.length_append, h4]
    omega

theorem buildTopicTitle_bounded_witness :
    (buildTopicTitle namelessSender).units ≠ [] ∧
      (buildTopicTitle namelessSender).units.length ≤ 128 ∧
      (cleanName blankSender).units = [] ∧
      buildTopicTitle blankSender = "User" ++ usernameStr blankSender ∧
      buildTopicTitle blankSender = "User @bob" ∧ buildTopicTitle namelessSender = "User" :=
  ⟨(buildTopicTitle_bounded namelessSender).1, (buildTopicTitle_bounded namelessSender).2.1,
    by decide, (buildTopicTitle_bounded blankSender).2.2 (by decide), by decide, by decide⟩

/-- A first name of 40 emoji has 80 code units: it is cut to 30 of them, and the
title is the 15 emoji they form. -/
theorem buildTopicTitle_emoji :
    buildTopicTitle emojiSender = jsUnits (String.mk (List.replicate 15 '😀')) := by
  decide

/-! ## Callback data (C22) -/

theorem splitChars_ne_nil (sep : Char) : ∀ l : List Char, splitChars sep l ≠ []
  | [] => by simp [splitChars]
  | c :: cs => by
    have ih := splitChars_ne_nil sep cs
    cases h : splitChars sep cs with
    | nil => exact absurd h ih
    | cons p ps =>
      simp only [splitChars, h]
      split <;> simp

/-- A text without separator is one part. -/
theorem splitChars_plain (sep : Char) : ∀ l : List Char, sep ∉ l → splitChars sep l = [l]
  | [], _ => rfl
  | c :: cs, h => by
    have hc : c ≠ sep := fun e => h (by simp [e])
    have ih := splitChars_plain sep cs (fun hm => h (List.mem_cons_of_mem _ hm))
    simp [splitChars, ih, hc]

/-- The part in front of the first separator is split off. -/
theorem splitChars_append (sep : Char) (rest : List Char) :
    ∀ l : List Char, sep ∉ l → splitChars sep (l ++ sep :: rest) = l :: splitChars sep rest
  | [], _ => by
    cases h : splitChars sep rest with
    | nil => exact absurd h (splitChars_ne_nil sep rest)
    | cons p ps => simp [splitChars, h]
  | c :: cs, h => by
    have hc : c ≠ sep := fun e => h (by simp [e])
    have ih := splitChars_append sep rest cs (fun hm => h (List.mem_cons_of_mem _ hm))
    simp [splitChars, ih, hc]

theorem idChars_plain : ∀ c ∈ idChars, (c.isLower || c.isDigit) = true ∧ c ≠ ':' := by decide

theorem digitChar_ne_colon : ∀ d, d < 10 → Nat.digitChar d ≠ ':' := by decide

/-- The decimal string of a natural number contains no colon. -/
theorem jsString_nat_no_colon (k : Nat) : ':' ∉ (jsString (some (k : Int))).data := by
  obtain ⟨ds, _, hlt, _, heq⟩ := jsString_nat_digits k
  rw [heq]
  intro h
  obtain ⟨d, hd, hc⟩ := List.mem_map.mp h
  exact digitChar_ne_colon d (hlt d hd) hc

/-- The function `secureRandomId` returns; its result has the requested
length and consists of characters of its alphabet. -/
theorem secureRandomId_chars (n : Nat) (w : World) :
    ∃ id : String, secureRandomId n w = (.ok id, { w with drawn := w.drawn + n }) ∧
      id.data.length = n ∧ ∀ c ∈ id.data, c ∈ idChars := by
  obtain ⟨bs, hbs, hlen⟩ := randomBytes_spec n w
  refine ⟨String.mk (bs.map (fun b => idChars.getD (b % idChars.length) 'a')), ?_,
    by simp [hlen], ?_⟩
  · simp only [secureRandomId, M.bind_apply, M.pure_apply]
    rw [hbs]
  · intro c hc
    obtain ⟨b, _, rfl⟩ := List.mem_map.mp hc
    have hlt : b % idChars.length < idChars.length := Nat.mod_lt _ (by decide)
    rw [List.getD_eq_getElem _ _ hlt]
    exact List.getElem_mem _

theorem challengeButtons_get (verifyId : String) :
    ∀ (options : List String) (start k : Nat) (opt : String), options[k]? = some opt →
      (challengeButtons verifyId start options)[k]? =
        some { text := opt,
               callback_data :=
                 "verify:" ++ verifyId ++ ":" ++ jsString (some ((start + k : Nat) : Int)) }
  | [], _, k, _, h => by simp at h
  | o :: rest, start, 0, opt, h => by
    simp at h
    simp [challengeButtons, h]
  | o :: rest, start, k + 1, opt, h => by
    have h1 : rest[k]? = some opt := by simpa using h
    have ih := challengeButtons_get verifyId rest (start + 1) k opt h1
    simp only [challengeButtons, List.getElem?_cons_succ, ih]
    have : start + 1 + k = start + (k + 1) := by omega
    rw [this]

/-- The callback data of a button is split by `handleCallbackQuery` into its
three parts. -/
theorem callback_data_split (verifyId : String) (k : Nat) (hid : ':' ∉ verifyId.data) :
    jsStartsWith ("verify:" ++ verifyId ++ ":" ++ jsString (some (k : Int))) "verify:" = true ∧
      jsSplitColon ("verify:" ++ verifyId ++ ":" ++ jsString (some (k : Int))) =
        ["verify", verifyId, jsString (some (k : Int))] := by
  constructor
  · simp [jsStartsWith, String.data_append]
  · have h1 : ("verify:" ++ verifyId ++ ":" ++ jsString (some (k : Int))).data =
        "verify".data ++ ':' :: (verifyId.data ++ ':' :: (jsString (some (k : Int))).data) := by
      simp [String.data_append]
    rw [jsSplitColon, h1, splitChars_append ':' _ _ (by decide),
      splitChars_append ':' _ _ hid, splitChars_plain ':' _ (jsString_nat_no_colon k)]
    rfl

theorem keyboardRows_flatten (cols : Nat) (hcols : 0 < cols) :
    ∀ (fuel : Nat) (bs : List Button), bs.length ≤ fuel →
      (keyboardRows cols fuel bs).flatten = bs
  | 0, bs, h => by
    have : bs = [] := List.length_eq_zero.mp (Nat.le_zero.mp h)
    subst this
    rfl
  | fuel + 1, [], _ => rfl
  | fuel + 1, b :: bs, h => by
    have hlen : ((b :: bs).drop cols).length ≤ fuel := by
      rw [List.length_drop]
      simp only [List.length_cons] at h ⊢
      omega
    simp only [keyboardRows, List.isEmpty_cons, Bool.false_eq_true, if_false, List.flatten_cons,
      keyboardRows_flatten cols hcols fuel _ hlen, List.take_append_drop]

/-- The challenge that `sendVerificationChallenge` issues when no lock is
present: the stored state, and the message with its keyboard. -/
theorem sendVerificationChallenge_sends (w : World) (userId : Nat) (pending : Option Nat)
    (hfree : truthy (w.store.get w.now (.user_challenge userId)) = false) :
    ∃ (q : Question) (verifyId : String) (options : List String) (W : World),
      q ∈ LOCAL_QUESTIONS ∧ options.Perm (q.incorrect_answers ++ [q.correct_answer]) ∧
      secureRandomId CONFIG.VERIFY_ID_LENGTH W
        = (.ok verifyId, { W with drawn := W.drawn + CONFIG.VERIFY_ID_LENGTH }) ∧
      verifyId.data.length = CONFIG.VERIFY_ID_LENGTH ∧
      (∀ c ∈ verifyId.data, c ∈ idChars) ∧
      (sendVerificationChallenge userId pending w).2.store
        = (w.store.insert (.chal verifyId)
            ⟨.chalState { answerIndex := jsIndexOf options q.correct_answer, options := options,
                          pending := pending, userId := some userId },
             some (w.now + CONFIG.VERIFY_EXPIRE_SECONDS * 1000)⟩).insert
            (.user_challenge userId)
            ⟨.text verifyId, some (w.now + CONFIG.VERIFY_EXPIRE_SECONDS * 1000)⟩ ∧
      (sendVerificationChallenge userId pending w).2.calls
        = w.calls ++ [.sendMessage (.user userId) none (challengeText q.question) none
            (keyboardRows CONFIG.BUTTON_COLUMNS (challengeButtons verifyId 0 options).length
              (challengeButtons verifyId 0 options))] := by
  have hlt : (w.entropy w.drawn % 2 ^ 32) % 15 < LOCAL_QUESTIONS.length := by
    rw [LOCAL_QUESTIONS_length]
    exact Nat.mod_lt _ (by decide)
  obtain ⟨q, hq⟩ : ∃ q, LOCAL_QUESTIONS[(w.entropy w.drawn % 2 ^ 32) % 15]? = some q :=
    ⟨_, List.getElem?_eq_getElem hlt⟩
  obtain ⟨options, hsh, hperm⟩ := shuffleArray_spec (q.incorrect_answers ++ [q.correct_answer])
    { w with drawn := w.drawn + 1 }
  obtain ⟨verifyId, hid, hidlen, hchars⟩ := secureRandomId_chars CONFIG.VERIFY_ID_LENGTH
    { w with drawn := w.drawn + 1 + ((q.incorrect_answers ++ [q.correct_answer]).length - 1) }
  refine ⟨q, verifyId, options, _, List.getElem?_mem hq, hperm, hid, hidlen, hchars, ?_, ?_⟩
  · simp only [sendVerificationChallenge, M.bind_apply, kvGet_apply, hfree, Bool.false_eq_true,
      if_false, secureRandomInt, randomValue, M.pure_apply, LOCAL_QUESTIONS_length, Nat.sub_zero,
      Nat.zero_add, hq, hsh, hid, kvPut_apply, tgCall]
    cases hgw : w.gateway w.calls.length <;> simp
  · simp only [sendVerificationChallenge, M.bind_apply, kvGet_apply, hfree, Bool.false_eq_true,
      if_false, secureRandomInt, randomValue, M.pure_apply, LOCAL_QUESTIONS_length, Nat.sub_zero,
      Nat.zero_add, hq, hsh, hid, kvPut_apply, tgCall]
    cases hgw : w.gateway w.calls.length <;> simp

/-- C22. The id produced by `secureRandomId` has the requested length and
consists of characters of `[a-z0-9]`, hence holds no colon.  When
`sendVerificationChallenge` issues a challenge, its message carries one button
per stored option; button `k` carries the callback data `verify:<id>:<k>` for
the id of the stored challenge.  `handleCallbackQuery` accepts the start of
that string and splits it into exactly three parts, the second being the same
id and the third being parsed to `k`: on a callback of the same user with that
data it finds the challenge stored under the id and compares `k` with its
answer index. -/
theorem callback_data_round_trips (w : World) (userId : Nat) (pending : Option Nat) (env : Env)
    (hfree : truthy (w.store.get w.now (.user_challenge userId)) = false) :
    (∀ (n : Nat) (W : World), ∃ id : String, (secureRandomId n W).1 = .ok id ∧
        id.data.length = n ∧ (∀ ch ∈ id.data, (ch.isLower || ch.isDigit) = true) ∧
        ':' ∉ id.data) ∧
      ∃ (verifyId : String) (c : ChalState) (text : Utf16) (keyboard : List (List Button))
        (W : World),
        (secureRandomId CONFIG.VERIFY_ID_LENGTH W).1 = .ok verifyId ∧
        (sendVerificationChallenge userId pending w).2.calls
          = w.calls ++ [.sendMessage (.user userId) none text none keyboard] ∧
        (sendVerificationChallenge userId pending w).2.store.get w.now (.chal verifyId)
          = some (.chalState c) ∧
        c.options.length = 4 ∧ keyboard.flatten.length = c.options.length ∧
        ∀ k : Nat, k < c.options.length →
          ∃ (b : Button) (idx : String),
            keyboard.flatten[k]? = some b ∧ c.options[k]? = some b.text ∧
            b.callback_data = "verify:" ++ verifyId ++ ":" ++ idx ∧
            jsStartsWith b.callback_data "verify:" = true ∧
            jsSplitColon b.callback_data = ["verify", verifyId, idx] ∧
            parseInt idx = some (k : Int) ∧
            ∀ (query : CallbackQuery) (W1 : World),
              query.data = some b.callback_data → query.sender.id = userId →
              W1.store.get W1.now (.chal verifyId) = some (.chalState c) →
              handleCallbackQuery query env W1 =
                tryCatch
                  (if (k : Int) = c.answerIndex then
                    passChallenge query env verifyId userId c.pending
                  else alert query "❌ 答案错误")
                  (fun _ => alert query "⚠️ 系统错误，请重试") W1 := by
  constructor
  · intro n W
    obtain ⟨id, hid, hlen, hchars⟩ := secureRandomId_chars n W
    exact ⟨id, by rw [hid], hlen, fun ch hch => (idChars_plain ch (hchars ch hch)).1,
      fun h => (idChars_plain _ (hchars _ h)).2 rfl⟩
  · obtain ⟨q, verifyId, options, W, hmem, hperm, hid, _, hchars, hstore, hcalls⟩ :=
      sendVerificationChallenge_sends w userId pending hfree
    have hcolon : ':' ∉ verifyId.data := fun h => (idChars_plain _ (hchars _ h)).2 rfl
    have hflat : (keyboardRows CONFIG.BUTTON_COLUMNS (challengeButtons verifyId 0 options).length
        (challengeButtons verifyId 0 options)).flatten = challengeButtons verifyId 0 options :=
      keyboardRows_flatten _ (by decide) _ _ (Nat.le_refl _)
    have hblen : ∀ (opts : List String) (start : Nat),
        (challengeButtons verifyId start opts).length = opts.length := by
      intro opts
      induction opts with
      | nil => intro _; rfl
      | cons o rest ih => intro start; simp [challengeButtons, ih]
    refine ⟨verifyId,
      { answerIndex := jsIndexOf options q.correct_answer, options := options,
        pending := pending, userId := some userId }, _, _, W, by rw [hid], hcalls, ?_, ?_, ?_,
      ?_⟩
    · rw [hstore, Store.get_insert_of_ne _ _ _ (by simp), Store.get_insert_self]
      simp [Entry.live, CONFIG.VERIFY_EXPIRE_SECONDS]
    · rw [hperm.length_eq, (LOCAL_QUESTIONS_options q hmem).2]
    · rw [hflat, hblen]
    · intro k hk
      have hopt : options[k]? = some (options.get ⟨k, hk⟩) := List.getElem?_eq_getElem hk
      have hb := challengeButtons_get verifyId options 0 k _ hopt
      rw [Nat.zero_add] at hb
      obtain ⟨hstart, hsplit⟩ := callback_data_split verifyId k hcolon
      refine ⟨_, jsString (some (k : Int)), by rw [hflat]; exact hb, hopt, rfl, hstart, hsplit,
        parseInt_jsString_nat k, ?_⟩
      intro query W1 hq hsender hget
      have haddr : Addresses query verifyId (jsString (some (k : Int))) :=
        ⟨_, "verify", hq, hstart, hsplit⟩
      have hv : validateCallback query env W1 =
          (if (k : Int) = jsIndexOf options q.correct_answer then
            passChallenge query env verifyId userId pending
          else alert query "❌ 答案错误") W1 := by
        by_cases hk0 : (k : Int) = jsIndexOf options q.correct_answer
        · rw [if_pos hk0]
          have h := validateCallback_correct query env verifyId _ W1 _ haddr hget
            (by simp [hsender]) (by rw [parseInt_jsString_nat]; simp [hk0])
            (by
              simp only
              rw [← hk0]
              exact ⟨Int.natCast_nonneg k, by exact_mod_cast hk⟩)
          rw [h, hsender]
        · rw [if_neg hk0]
          refine validateCallback_wrong query env verifyId _ W1 _ haddr hget
            (by simp [hsender]) ?_ ?_
          · rw [parseInt_jsString_nat]
            simp only [indexOutOfRange, Bool.or_eq_false_iff, decide_eq_false_iff_not, not_lt,
              not_le]
            exact ⟨Int.natCast_nonneg k, by exact_mod_cast hk⟩
          · rw [parseInt_jsString_nat]
            intro h
            exact hk0 (Option.some.inj h)
      simp only [handleCallbackQuery, tryCatch, hv]

theorem callback_data_round_trips_witness :
    truthy (freshWorld.store.get freshWorld.now (.user_challenge 7)) = false ∧
      ∃ (verifyId : String) (c : ChalState) (text : Utf16) (keyboard : List (List Button)),
        (sendVerificationChallenge 7 (some 42) freshWorld).2.calls
          = freshWorld.calls ++ [.sendMessage (.user 7) none text none keyboard] ∧
        (sendVerificationChallenge 7 (some 42) freshWorld).2.store.get freshWorld.now
          (.chal verifyId) = some (.chalState c) ∧
        keyboard.flatten.length = 4 ∧
        ∃ (b : Button) (idx : String),
          keyboard.flatten[3]? = some b ∧ c.options[3]? = some b.text ∧
          b.callback_data = "verify:" ++ verifyId ++ ":" ++ idx ∧
          jsSplitColon b.callback_data = ["verify", verifyId, idx] ∧
          parseInt idx = some ((3 : Nat) : Int) := by
  obtain ⟨verifyId, c, text, keyboard, _, _, hcalls, hget, hfour, hflat, hall⟩ :=
    (callback_data_round_trips freshWorld 7 (some 42) sampleEnv (by decide)).2
  obtain ⟨b, idx, hb, hopt, hdata, _, hsplit, hparse, _⟩ := hall 3 (by omega)
  exact ⟨by decide, verifyId, c, text, keyboard, hcalls, hget, by omega, b, idx, hb, hopt, hdata,
    hsplit, hparse⟩

/-! ## Self-healing when the send into the new topic is redirected (C9) -/

/-- C9, on the code. The probe of topic 5 reports a deletion and the gateway
creates the new topic 9, but the primary send into topic 9 comes back without
a topic id.  The relay then drops topic 9 as well and creates topic 12:
afterwards the record of user 7 carries the topic 12 and not 9, and there is no
`thread:9` entry. -/
theorem redirected_send_recreates_again :
    (forwardToTopic (plainMsg 1) 7 (.user 7) sampleEnv (topicWorld redirectingGateway)).2.calls
        = [probeCall 5, .createForumTopic .supergroup "Alice",
           .forwardMessage .supergroup (.user 7) 1 (some 9),
           .createForumTopic .supergroup "Alice",
           .deleteMessage .supergroup (some 900),
           .copyMessage .supergroup (.user 7) 1 (some 12)] ∧
      (forwardToTopic (plainMsg 1) 7 (.user 7) sampleEnv
        (topicWorld redirectingGateway)).2.store.find (.user 7)
        = some ⟨.topicRec { thread_id := some 12, title := some "Alice", closed := false },
            none⟩ ∧
      (forwardToTopic (plainMsg 1) 7 (.user 7) sampleEnv
        (topicWorld redirectingGateway)).2.store.find (.thread (some 9)) = none ∧
      (forwardToTopic (plainMsg 1) 7 (.user 7) sampleEnv
        (topicWorld redirectingGateway)).2.store.find (.thread (some 12))
        = some ⟨.text "7", none⟩ := by
  decide

end Worker
